import Mathlib

/-!
# AMStartup.c: maze map and wall-following navigation engine

A shallow embedding of `src/AMStartup.c`:

* the shared maze map (`maze`, `mazeWidth`, `mazeHeight`) with `SetMazeSquareSide` and
  `ConvertDirection`,
* the per-avatar navigation loop of `InitiateAvatar` (the `AM_AVATAR_TURN` branch is
  `avatarTurn`, one pass through the `while` loop is `loopBody`),
* the map initialisation of `main`,
* a model of the maze server and of a session with two avatars, taken from the spec, against
  which the end-to-end properties are stated.

C `int`s are embedded as `Int`.  The array `maze[MAX_SIZE][MAX_SIZE]` is embedded as a total
function on index pairs; the bound `MAX_SIZE` of the C array is not modelled.  Each pass
through the loop body is taken as one atomic step (the source has no synchronisation;
interleavings inside a step are not modelled).
-/

namespace AMStartup

/-! ## Constants of the missing header `amazing.h` -/

/-- Modelled from the spec: the direction constants `M_NORTH`, `M_EAST`, `M_SOUTH`, `M_WEST`
and `M_NULL_MOVE` of `amazing.h`, which is not part of the sources.  The spec lists the move
directions as "one of North/East/South/West/None"; the five constants are taken to be
pairwise distinct, one constructor each. -/
inductive Direction where
  | M_NORTH
  | M_EAST
  | M_SOUTH
  | M_WEST
  | M_NULL_MOVE
deriving DecidableEq, Repr

/-- Modelled from the spec: the message kinds of `amazing.h` (not part of the sources) that
`InitiateAvatar` dispatches on, as listed in the wire-protocol table of the spec;
`otherType` stands for every remaining type tag. -/
inductive MsgType where
  | AM_AVATAR_TURN
  | AM_AVATAR_OUT_OF_TURN
  | AM_TOO_MANY_MOVES
  | AM_SERVER_TIMEOUT
  | AM_SERVER_DISK_QUOTA
  | AM_SERVER_OUT_OF_MEM
  | AM_MAZE_SOLVED
  | otherType
deriving DecidableEq, Repr

/-! ## The maze map (globals of AMStartup.c) -/

/-- The struct `MazeSquareData`: for the sides, -1 = unknown, 0 = blocked, 1 = open. -/
structure MazeSquareData where
  northSide : Int
  eastSide : Int
  southSide : Int
  westSide : Int
deriving DecidableEq, Repr

/-- The global variables `mazeSolved`, `mazeWidth`, `mazeHeight` and `maze`. -/
structure Globals where
  mazeSolved : Int
  mazeWidth : Int
  mazeHeight : Int
  maze : Int → Int → MazeSquareData

/-- Assignment `maze[x][y] = v` to one array element. -/
def setSquare (maze : Int → Int → MazeSquareData) (x y : Int) (v : MazeSquareData)
    (i j : Int) : MazeSquareData :=
  if i = x ∧ j = y then v else maze i j

/-- Assignment `maze[x][y].northSide = mode`. -/
def setNorth (g : Globals) (x y mode : Int) : Globals :=
  { g with maze := setSquare g.maze x y { g.maze x y with northSide := mode } }

/-- Assignment `maze[x][y].eastSide = mode`. -/
def setEast (g : Globals) (x y mode : Int) : Globals :=
  { g with maze := setSquare g.maze x y { g.maze x y with eastSide := mode } }

/-- Assignment `maze[x][y].southSide = mode`. -/
def setSouth (g : Globals) (x y mode : Int) : Globals :=
  { g with maze := setSquare g.maze x y { g.maze x y with southSide := mode } }

/-- Assignment `maze[x][y].westSide = mode`. -/
def setWest (g : Globals) (x y mode : Int) : Globals :=
  { g with maze := setSquare g.maze x y { g.maze x y with westSide := mode } }

/-- The function `SetMazeSquareSide` (AMStartup.c lines 120-151); the returned `1` is
dropped, the result is the new value of the globals. -/
def SetMazeSquareSide (g : Globals) (x y : Int) (direction : Direction) (mode : Int) :
    Globals :=
  if direction = Direction.M_NORTH then
    let g1 := setNorth g x y mode
    if y - 1 ≥ 0 then setSouth g1 x (y - 1) mode else g1
  else if direction = Direction.M_EAST then
    let g1 := setEast g x y mode
    if x + 1 ≤ g.mazeWidth then setWest g1 (x + 1) y mode else g1
  else if direction = Direction.M_SOUTH then
    let g1 := setSouth g x y mode
    if y + 1 ≤ g.mazeHeight then setNorth g1 x (y + 1) mode else g1
  else
    let g1 := setWest g x y mode
    if x - 1 ≥ 0 then setEast g1 (x - 1) y mode else g1

/-- The function `ConvertDirection` (AMStartup.c lines 161-180). -/
def ConvertDirection (g : Globals) (x y : Int) (relativeDirection : Direction) : Int :=
  if relativeDirection = Direction.M_NORTH then (g.maze x y).northSide
  else if relativeDirection = Direction.M_EAST then (g.maze x y).eastSide
  else if relativeDirection = Direction.M_SOUTH then (g.maze x y).southSide
  else (g.maze x y).westSide

/-- The map at session start: the static array is zero-initialised, then `main`
(AMStartup.c lines 985-996) stores the reported dimensions and sets every side of every
square with `0 ≤ x < mazeWidth`, `0 ≤ y < mazeHeight` to -1. -/
def initGlobals (width height : Int) : Globals :=
  { mazeSolved := 0
    mazeWidth := width
    mazeHeight := height
    maze := fun x y =>
      if 0 ≤ x ∧ x < width ∧ 0 ≤ y ∧ y < height then
        { northSide := -1, eastSide := -1, southSide := -1, westSide := -1 }
      else
        { northSide := 0, eastSide := 0, southSide := 0, westSide := 0 } }

/-- The coordinates `(x, y)` lie in the `mazeWidth x mazeHeight` grid. -/
def InBounds (g : Globals) (x y : Int) : Prop :=
  0 ≤ x ∧ x < g.mazeWidth ∧ 0 ≤ y ∧ y < g.mazeHeight

instance (g : Globals) (x y : Int) : Decidable (InBounds g x y) := by
  unfold InBounds; infer_instance

/-- The four compass directions. -/
def Direction.isCompass (d : Direction) : Bool :=
  d != Direction.M_NULL_MOVE

/-- The side facing `d`: south for north, west for east, and so on. -/
def Direction.opposite : Direction → Direction
  | Direction.M_NORTH => Direction.M_SOUTH
  | Direction.M_EAST => Direction.M_WEST
  | Direction.M_SOUTH => Direction.M_NORTH
  | Direction.M_WEST => Direction.M_EAST
  | Direction.M_NULL_MOVE => Direction.M_NULL_MOVE

/-- The x coordinate of the square next to `(x, y)` on side `d`. -/
def neighbourX (x : Int) : Direction → Int
  | Direction.M_EAST => x + 1
  | Direction.M_WEST => x - 1
  | _ => x

/-- The y coordinate of the square next to `(x, y)` on side `d`. -/
def neighbourY (y : Int) : Direction → Int
  | Direction.M_NORTH => y - 1
  | Direction.M_SOUTH => y + 1
  | _ => y

/-! ## The navigation loop of `InitiateAvatar` -/

/-- One entry `Pos[i]` of an `AM_AVATAR_TURN` message, after `ntohl`. -/
structure XYPos where
  x : Int
  y : Int
deriving DecidableEq, Repr

/-- The payload `avatar_turn` of an `AM_AVATAR_TURN` message, after `ntohl`. -/
structure AvatarTurn where
  TurnId : Nat
  Pos : Nat → XYPos

/-- The local variables of `InitiateAvatar` that live across loop iterations
(AMStartup.c lines 300-305). -/
structure AvatarState where
  avatarId : Nat
  straight : Direction
  right : Direction
  backward : Direction
  left : Direction
  orientation : Direction
  upcomingMove : Direction
  prevX : Int
  prevY : Int
  moveNumber : Int
  firstIteration : Bool
deriving DecidableEq, Repr

/-- The state in which `InitiateAvatar` enters its `while` loop (lines 300-330).  `prevX` and
`prevY` are uninitialised in the source and are assigned before their first use; they start
at the given values. -/
def initAvatar (avatarId : Nat) (prevX prevY : Int) : AvatarState :=
  { avatarId := avatarId
    straight := Direction.M_NORTH
    right := Direction.M_EAST
    backward := Direction.M_SOUTH
    left := Direction.M_WEST
    orientation := Direction.M_NORTH
    upcomingMove := if avatarId = 0 then Direction.M_NULL_MOVE else Direction.M_EAST
    prevX := prevX
    prevY := prevY
    moveNumber := 1
    firstIteration := true }

/-- The test `ConvertDirection(x, y, d) == -1 || ConvertDirection(x, y, d) == 1` used by both
if-ladders. -/
def sideFree (g : Globals) (x y : Int) (d : Direction) : Bool :=
  ConvertDirection g x y d == -1 || ConvertDirection g x y d == 1

/-- The if-ladder of lines 407-421: the next `upcomingMove` after a move that did not change
the position. -/
def failedMoveLadder (s : AvatarState) (g : Globals) : Direction :=
  if s.upcomingMove = s.right ∧ sideFree g s.prevX s.prevY s.straight = true then s.straight
  else if s.upcomingMove = s.straight ∧ sideFree g s.prevX s.prevY s.left = true then s.left
  else if s.upcomingMove = s.backward then s.right
  else s.backward

/-- Lines 461-492: `orientation = upcomingMove` followed by the recomputation of the relative
directions. -/
def setRelativeDirections (s : AvatarState) : AvatarState :=
  let s := { s with orientation := s.upcomingMove }
  if s.orientation = Direction.M_NORTH then
    { s with straight := Direction.M_NORTH, right := Direction.M_EAST,
             backward := Direction.M_SOUTH, left := Direction.M_WEST }
  else if s.orientation = Direction.M_EAST then
    { s with straight := Direction.M_EAST, right := Direction.M_SOUTH,
             backward := Direction.M_WEST, left := Direction.M_NORTH }
  else if s.orientation = Direction.M_SOUTH then
    { s with straight := Direction.M_SOUTH, right := Direction.M_WEST,
             backward := Direction.M_NORTH, left := Direction.M_EAST }
  else
    { s with straight := Direction.M_WEST, right := Direction.M_NORTH,
             backward := Direction.M_EAST, left := Direction.M_SOUTH }

/-- The if-ladder of lines 496-514: the next `upcomingMove` after a successful move. -/
def movedLadder (s : AvatarState) (g : Globals) : Direction :=
  if sideFree g s.prevX s.prevY s.right = true then s.right
  else if sideFree g s.prevX s.prevY s.straight = true then s.straight
  else if sideFree g s.prevX s.prevY s.left = true then s.left
  else if s.upcomingMove = s.backward then s.right
  else s.backward

/-- Lines 369-372: while `firstIteration` is set, every `AM_AVATAR_TURN` message stores the
reported position of the avatar in `prevX`, `prevY`. -/
def recordBaseline (s : AvatarState) (t : AvatarTurn) : AvatarState :=
  if s.firstIteration = true then
    { s with prevX := (t.Pos s.avatarId).x, prevY := (t.Pos s.avatarId).y }
  else s

/-- Lines 398-422, the case `(x == prevX) && (y == prevY)`: the side is marked blocked unless
this is the first iteration, `firstIteration` is cleared and `upcomingMove` advances. -/
def onFailedMove (s : AvatarState) (g : Globals) : AvatarState × Globals :=
  let g :=
    if s.firstIteration = false then SetMazeSquareSide g s.prevX s.prevY s.upcomingMove 0
    else g
  let s := { s with firstIteration := false }
  ({ s with upcomingMove := failedMoveLadder s g }, g)

/-- Lines 427-516, the case of a changed position `(x, y)`: the side is marked open; on the
square of avatar 0 the avatar freezes, otherwise it records the position, turns into the
direction moved and picks the next move. -/
def onMoved (s : AvatarState) (g : Globals) (t : AvatarTurn) (x y : Int) :
    AvatarState × Globals :=
  let g := SetMazeSquareSide g s.prevX s.prevY s.upcomingMove 1
  if x = (t.Pos 0).x ∧ y = (t.Pos 0).y then
    ({ s with upcomingMove := Direction.M_NULL_MOVE }, g)
  else
    let s := { s with prevX := x, prevY := y, moveNumber := s.moveNumber + 1 }
    let s := setRelativeDirections s
    ({ s with upcomingMove := movedLadder s g }, g)

/-- Lines 377-518, the case `ntohl(amAvatarTurn.avatar_turn.TurnId) == avatarId`: the new
local state, the new globals and the direction passed to `SendMoveMessage`. -/
def ownTurn (s : AvatarState) (g : Globals) (t : AvatarTurn) :
    AvatarState × Globals × Option Direction :=
  let x := (t.Pos s.avatarId).x
  let y := (t.Pos s.avatarId).y
  if s.upcomingMove = Direction.M_NULL_MOVE then
    (s, g, some s.upcomingMove)
  else if x = s.prevX ∧ y = s.prevY then
    let r := onFailedMove s g
    (r.1, r.2, some r.1.upcomingMove)
  else
    let r := onMoved s g t x y
    (r.1, r.2, some r.1.upcomingMove)

/-- The branch `ntohl(amAvatarTurn.type) == AM_AVATAR_TURN` of the loop body (lines 365-519).
The result is the new local state, the new globals and the direction passed to
`SendMoveMessage`, if the branch sends a move.  Logging and drawing are left out. -/
def avatarTurn (s : AvatarState) (g : Globals) (t : AvatarTurn) :
    AvatarState × Globals × Option Direction :=
  let s := recordBaseline s t
  if t.TurnId = s.avatarId then ownTurn s g t
  else (s, g, none)

/-- What one pass through the loop body works on: the return value of `recv`, the outcome of
the macro `IS_AM_ERROR` (of the missing `amazing.h`) on the received type word, the type
after `ntohl`, and the `avatar_turn` payload. -/
structure Received where
  recvResponse : Int
  isAmError : Bool
  type : MsgType
  avatar_turn : AvatarTurn

/-- Where the thread is: still in the `while` loop, left by `return NULL`, or the process
was ended by `exit(0)`. -/
inductive Control where
  | looping
  | returned
  | exited
deriving DecidableEq, Repr

/-- The body of the `while` loop (lines 338-566): the dispatch on the received item. -/
def dispatch (s : AvatarState) (g : Globals) (r : Received) :
    Control × AvatarState × Globals × Option Direction :=
  if r.recvResponse = 0 then (Control.looping, s, g, none)
  else if r.recvResponse = -1 then (Control.looping, s, g, none)
  else if r.isAmError = true then (Control.returned, s, g, none)
  else if r.type = MsgType.AM_AVATAR_TURN then
    (Control.looping, avatarTurn s g r.avatar_turn)
  else if r.type = MsgType.AM_AVATAR_OUT_OF_TURN then (Control.exited, s, g, none)
  else if r.type = MsgType.AM_TOO_MANY_MOVES then (Control.exited, s, g, none)
  else if r.type = MsgType.AM_SERVER_TIMEOUT then (Control.exited, s, g, none)
  else if r.type = MsgType.AM_SERVER_DISK_QUOTA then (Control.exited, s, g, none)
  else if r.type = MsgType.AM_SERVER_OUT_OF_MEM then (Control.exited, s, g, none)
  else if r.type = MsgType.AM_MAZE_SOLVED then (Control.exited, s, g, none)
  else (Control.looping, s, g, none)

/-- One pass through `while (!mazeSolved) { ... }` (lines 335-567): the loop test, then the
body; when the test fails the function returns (line 567). -/
def loopBody (s : AvatarState) (g : Globals) (r : Received) :
    Control × AvatarState × Globals × Option Direction :=
  if g.mazeSolved = 0 then dispatch s g r
  else (Control.returned, s, g, none)

/-- The thread of one avatar: its control state and its local variables. -/
structure Thread where
  control : Control
  state : AvatarState

/-- The thread runs the loop body on each received item in turn for as long as it is in
the loop; a thread that has returned or exited executes nothing.  The result is the final
thread, the final globals and the list of directions passed to `SendMoveMessage`. -/
def threadRun : Thread → Globals → List Received → Thread × Globals × List Direction
  | th, g, [] => (th, g, [])
  | th, g, r :: rs =>
    if th.control = Control.looping then
      let res := loopBody th.state g r
      let rest := threadRun { control := res.1, state := res.2.1 } res.2.2.1 rs
      (rest.1, rest.2.1,
        (match res.2.2.2 with
          | some d => [d]
          | none => []) ++ rest.2.2)
    else (th, g, [])

/-- A sequence of `SetMazeSquareSide` calls, each given by its arguments. -/
def setSides (g : Globals) : List (Int × Int × Direction × Int) → Globals
  | [] => g
  | c :: cs => setSides (SetMazeSquareSide g c.1 c.2.1 c.2.2.1 c.2.2.2) cs

/-- A run of decision steps on the shared map: each step is one `AM_AVATAR_TURN` branch
executed by some avatar in some local state. -/
def mapAfterTurns (g : Globals) : List (AvatarState × AvatarTurn) → Globals
  | [] => g
  | c :: cs => mapAfterTurns (avatarTurn c.1 g c.2).2.1 cs

/-- Wall-pair consistency on the grid: east of `(x, y)` equals west of `(x+1, y)` and south
of `(x, y)` equals north of `(x, y+1)` whenever both squares are in bounds. -/
def WallPairsAgree (g : Globals) : Prop :=
  ∀ x y : Int, InBounds g x y →
    (InBounds g (x + 1) y → (g.maze x y).eastSide = (g.maze (x + 1) y).westSide) ∧
    (InBounds g x (y + 1) → (g.maze x y).southSide = (g.maze x (y + 1)).northSide)

/-- The clockwise neighbour of a compass direction: North -> East -> South -> West -> North
(the rotation table of the spec for `right`). -/
def Direction.clockwise : Direction → Direction
  | Direction.M_NORTH => Direction.M_EAST
  | Direction.M_EAST => Direction.M_SOUTH
  | Direction.M_SOUTH => Direction.M_WEST
  | Direction.M_WEST => Direction.M_NORTH
  | Direction.M_NULL_MOVE => Direction.M_NULL_MOVE

/-- The counter-clockwise neighbour of a compass direction: North -> West -> South -> East
-> North. -/
def Direction.counterClockwise : Direction → Direction
  | Direction.M_NORTH => Direction.M_WEST
  | Direction.M_WEST => Direction.M_SOUTH
  | Direction.M_SOUTH => Direction.M_EAST
  | Direction.M_EAST => Direction.M_NORTH
  | Direction.M_NULL_MOVE => Direction.M_NULL_MOVE

/-- The relative frame of the avatar is the one the rotation table gives for a compass
direction: `straight` is a compass direction, `right` its clockwise neighbour, `backward` its
opposite and `left` its counter-clockwise neighbour. -/
def ValidFrame (s : AvatarState) : Prop :=
  s.straight.isCompass = true ∧ s.right = s.straight.clockwise ∧
    s.backward = s.straight.opposite ∧ s.left = s.straight.counterClockwise

instance (s : AvatarState) : Decidable (ValidFrame s) := by
  unfold ValidFrame; infer_instance

/-- The priority cycle of the spec for a failed move, right -> straight -> left -> backward
-> right, read in the frame of `s`: the candidate that follows `m`. -/
def cycleSuccessor (s : AvatarState) (m : Direction) : Direction :=
  if m = s.right then s.straight
  else if m = s.straight then s.left
  else if m = s.left then s.backward
  else s.right

/-- A received item is an `AM_AVATAR_TURN` message: `recv` returned a positive length, the
error test is negative and the type is `AM_AVATAR_TURN`. -/
def Received.isTurn (r : Received) : Prop :=
  0 < r.recvResponse ∧ r.isAmError = false ∧ r.type = MsgType.AM_AVATAR_TURN

instance (r : Received) : Decidable r.isTurn := by
  unfold Received.isTurn; infer_instance

/-- The message types after which the avatar stops: solved, out of turn, too many moves and
the three server faults. -/
def MsgType.isTerminal (t : MsgType) : Bool :=
  t == MsgType.AM_MAZE_SOLVED || t == MsgType.AM_AVATAR_OUT_OF_TURN ||
  t == MsgType.AM_TOO_MANY_MOVES || t == MsgType.AM_SERVER_TIMEOUT ||
  t == MsgType.AM_SERVER_DISK_QUOTA || t == MsgType.AM_SERVER_OUT_OF_MEM

/-! ## The maze server and a two-avatar session -/

/-- Modelled from the spec: the maze held by the server, which is not part of the sources.
A `width x height` grid; `eastOpen x y` says that there is a passage between `(x, y)` and
`(x+1, y)`, `southOpen x y` that there is one between `(x, y)` and `(x, y+1)`.  The outer
boundary is always walled. -/
structure ServerMaze where
  width : Nat
  height : Nat
  eastOpen : Int → Int → Bool
  southOpen : Int → Int → Bool

/-- The square `(x, y)` is a square of the server's maze. -/
def ServerMaze.inGrid (m : ServerMaze) (x y : Int) : Bool :=
  decide (0 ≤ x) && decide (x < m.width) && decide (0 ≤ y) && decide (y < m.height)

/-- Modelled from the spec: there is no wall on side `d` of the square `(x, y)`, so that a
move in direction `d` leads to the neighbouring square. -/
def ServerMaze.passage (m : ServerMaze) (x y : Int) (d : Direction) : Bool :=
  match d with
  | Direction.M_NORTH => m.inGrid x y && m.inGrid x (y - 1) && m.southOpen x (y - 1)
  | Direction.M_EAST => m.inGrid x y && m.inGrid (x + 1) y && m.eastOpen x y
  | Direction.M_SOUTH => m.inGrid x y && m.inGrid x (y + 1) && m.southOpen x y
  | Direction.M_WEST => m.inGrid x y && m.inGrid (x - 1) y && m.eastOpen (x - 1) y
  | Direction.M_NULL_MOVE => false

/-- Modelled from the spec: the faithful server.  "A move succeeds iff the maze has no wall
on that side, otherwise the position is unchanged"; north is `(x, y-1)`, east `(x+1, y)`,
south `(x, y+1)`, west `(x-1, y)`. -/
def ServerMaze.move (m : ServerMaze) (p : XYPos) (d : Direction) : XYPos :=
  if m.passage p.x p.y d = true then { x := neighbourX p.x d, y := neighbourY p.y d } else p

/-- The squares of the grid, column by column. -/
def ServerMaze.cells (m : ServerMaze) : List (Int × Int) :=
  (List.range m.width).flatMap fun (x : Nat) =>
    (List.range m.height).map fun (y : Nat) => ((x : Int), (y : Int))

/-- The number of passages between squares of the grid. -/
def ServerMaze.passageCount (m : ServerMaze) : Nat :=
  (m.cells.filter fun c => m.passage c.1 c.2 Direction.M_EAST).length +
  (m.cells.filter fun c => m.passage c.1 c.2 Direction.M_SOUTH).length

/-- One round of the search for the squares connected to a seed: the squares of the grid
that are in `seen` or have a passage to a square in `seen`. -/
def ServerMaze.grow (m : ServerMaze) (seen : List (Int × Int)) : List (Int × Int) :=
  m.cells.filter fun c =>
    seen.contains c ||
    [Direction.M_NORTH, Direction.M_EAST, Direction.M_SOUTH, Direction.M_WEST].any fun d =>
      m.passage c.1 c.2 d && seen.contains (neighbourX c.1 d, neighbourY c.2 d)

/-- The squares reached from `(0, 0)` in at most `n` steps along passages. -/
def ServerMaze.reached (m : ServerMaze) : Nat → List (Int × Int)
  | 0 => [(0, 0)]
  | n + 1 => m.grow (m.reached n)

/-- Modelled from the spec: a perfect maze, "exactly one path between any two cells": the
passages form a tree over the squares of the grid, that is, every square is connected to
`(0, 0)` and there is one passage less than there are squares. -/
def ServerMaze.isPerfect (m : ServerMaze) : Bool :=
  decide (0 < m.width * m.height) &&
  decide (m.passageCount + 1 = m.width * m.height) &&
  m.cells.all fun c => (m.reached (m.width * m.height)).contains c

/-- Modelled from the spec: the state of a session with two avatars, the stationary avatar 0
and the moving avatar 1: the server's positions and turn counter, the local states of the two
avatar threads and the shared globals. -/
structure Session where
  pos0 : XYPos
  pos1 : XYPos
  turnId : Nat
  avatar0 : AvatarState
  avatar1 : AvatarState
  globals : Globals

/-- The `AM_AVATAR_TURN` message the server sends in state `σ`. -/
def Session.turnMessage (σ : Session) : AvatarTurn :=
  { TurnId := σ.turnId, Pos := fun i => if i = 0 then σ.pos0 else σ.pos1 }

/-- The direction sent in the round that starts in `σ`: both threads run the
`AM_AVATAR_TURN` branch on the server's message; the avatar named by `TurnId` sends. -/
def Session.sent (σ : Session) : Option Direction :=
  let r0 := avatarTurn σ.avatar0 σ.globals σ.turnMessage
  let r1 := avatarTurn σ.avatar1 r0.2.1 σ.turnMessage
  if σ.turnId = 0 then r0.2.2 else r1.2.2

/-- Modelled from the spec: one round of the turn-based exchange.  The server sends
`AM_AVATAR_TURN` to both avatars, the avatar whose turn it is answers with a move, the
server moves that avatar if the maze allows it and passes the turn on. -/
def Session.round (m : ServerMaze) (σ : Session) : Session :=
  let r0 := avatarTurn σ.avatar0 σ.globals σ.turnMessage
  let r1 := avatarTurn σ.avatar1 r0.2.1 σ.turnMessage
  let d := σ.sent.getD Direction.M_NULL_MOVE
  { pos0 := if σ.turnId = 0 then m.move σ.pos0 d else σ.pos0
    pos1 := if σ.turnId = 0 then σ.pos1 else m.move σ.pos1 d
    turnId := (σ.turnId + 1) % 2
    avatar0 := r0.1
    avatar1 := r1.1
    globals := r1.2.1 }

/-- The session after `n` rounds. -/
def Session.run (m : ServerMaze) : Nat → Session → Session
  | 0, σ => σ
  | n + 1, σ => Session.run m n (σ.round m)

/-- The session at its start: avatar 0 at `anchor`, avatar 1 at `start`, turn of avatar 0,
both threads about to enter their loops, the map as `main` initialises it. -/
def Session.start (m : ServerMaze) (anchor start : XYPos) : Session :=
  { pos0 := anchor
    pos1 := start
    turnId := 0
    avatar0 := initAvatar 0 0 0
    avatar1 := initAvatar 1 0 0
    globals := initGlobals m.width m.height }

/-- The position reported to avatar 1 on its `k`-th own turn (`k ≥ 1`): rounds alternate
between avatar 0 and avatar 1, so this is the position at the start of round `2k`. -/
def reportedAt (m : ServerMaze) (anchor start : XYPos) (k : Nat) : XYPos :=
  (Session.run m (2 * k - 1) (Session.start m anchor start)).pos1

/-- The direction sent in round `n + 1` of the session. -/
def sentInRound (m : ServerMaze) (anchor start : XYPos) (n : Nat) : Option Direction :=
  (Session.run m n (Session.start m anchor start)).sent

/-- The 2 x 2 maze with the given four passages: `a` between `(0,0)` and `(1,0)`, `b` between
`(0,1)` and `(1,1)`, `c` between `(0,0)` and `(0,1)`, `d` between `(1,0)` and `(1,1)`. -/
def maze2x2 (a b c d : Bool) : ServerMaze :=
  { width := 2
    height := 2
    eastOpen := fun _ y => if y = 0 then a else b
    southOpen := fun x _ => if x = 0 then c else d }

/-! ## Wall following on the server's maze -/

/-- The square next to `c` on side `d`. -/
def stepTo (c : Int × Int) (d : Direction) : Int × Int :=
  (neighbourX c.1 d, neighbourY c.2 d)

/-- There is a passage on side `d` of the square `c`. -/
def ServerMaze.pass (m : ServerMaze) (c : Int × Int) (d : Direction) : Bool :=
  m.passage c.1 c.2 d

/-- The right-hand rule on (square, direction) pairs: after trying direction `d` on square
`c`, a walker that always probes right, straight, left, backward in this order next tries
the clockwise neighbour of `d` on the next square if there is a passage, and the
counter-clockwise neighbour of `d` on the same square if there is a wall. -/
def ServerMaze.nextDart (m : ServerMaze) (δ : (Int × Int) × Direction) :
    (Int × Int) × Direction :=
  if m.pass δ.1 δ.2 = true then (stepTo δ.1 δ.2, δ.2.clockwise)
  else (δ.1, δ.2.counterClockwise)

/-- The passage on side `d` of the square `c`, named from its west or north end: a passage
to the west of `c` is the east passage of the western neighbour, a passage to the north of
`c` the south passage of the northern neighbour. -/
def edgeOf (δ : (Int × Int) × Direction) : (Int × Int) × Direction :=
  match δ.2 with
  | Direction.M_WEST => (stepTo δ.1 Direction.M_WEST, Direction.M_EAST)
  | Direction.M_NORTH => (stepTo δ.1 Direction.M_NORTH, Direction.M_SOUTH)
  | _ => δ

/-- The passages of the maze, each once, as counted by `passageCount`. -/
def ServerMaze.edges (m : ServerMaze) : List ((Int × Int) × Direction) :=
  (m.cells.filter fun c => m.passage c.1 c.2 Direction.M_EAST).map
    (fun c => (c, Direction.M_EAST)) ++
  (m.cells.filter fun c => m.passage c.1 c.2 Direction.M_SOUTH).map
    (fun c => (c, Direction.M_SOUTH))

/-- Trying direction `δ.2` on square `δ.1` moves the walker onto the square `anchor`. -/
def ServerMaze.entersAt (m : ServerMaze) (anchor : Int × Int)
    (δ : (Int × Int) × Direction) : Prop :=
  m.pass δ.1 δ.2 = true ∧ stepTo δ.1 δ.2 = anchor

instance (m : ServerMaze) (anchor : Int × Int) (δ : (Int × Int) × Direction) :
    Decidable (m.entersAt anchor δ) := by
  unfold ServerMaze.entersAt; infer_instance

/-- All (square, compass direction) pairs of the grid. -/
def ServerMaze.darts (m : ServerMaze) : List ((Int × Int) × Direction) :=
  m.cells.flatMap fun c =>
    [Direction.M_NORTH, Direction.M_EAST, Direction.M_SOUTH, Direction.M_WEST].map
      fun d => (c, d)

/-- The number of sides of grid squares that the map still records as Unknown (-1). -/
def unknownCount (m : ServerMaze) (g : Globals) : Nat :=
  m.darts.countP fun δ => ConvertDirection g δ.1.1 δ.1.2 δ.2 == -1

/-- The map tells the truth about the server's maze: on the grid, a side with a passage is
recorded as Unknown or Open and a side with a wall as Unknown or Blocked. -/
def Sound (m : ServerMaze) (g : Globals) : Prop :=
  ∀ c ∈ m.cells, ∀ d : Direction, d.isCompass = true →
    (m.pass c d = true → ConvertDirection g c.1 c.2 d = -1 ∨ ConvertDirection g c.1 c.2 d = 1) ∧
    (m.pass c d = false → ConvertDirection g c.1 c.2 d = -1 ∨ ConvertDirection g c.1 c.2 d = 0)

/-- One own turn of avatar 1 in a session with the stationary avatar 0 at `anchor`: the
`TurnId == avatarId` part of the loop body on the server's message, followed by the server's
answer to the move sent.  The state is the local state of the avatar, the globals and the
position of the avatar on the server. -/
def moverTurn (m : ServerMaze) (anchor : XYPos) (x : AvatarState × Globals × XYPos) :
    AvatarState × Globals × XYPos :=
  let t : AvatarTurn := { TurnId := 1, Pos := fun i => if i = 0 then anchor else x.2.2 }
  let r := ownTurn (recordBaseline x.1 t) x.2.1 t
  (r.1, r.2.1, m.move x.2.2 (r.2.2.getD Direction.M_NULL_MOVE))

/-- What the moving avatar has found out about the square it stands on.  Either it has come
from behind (there is a passage on the `backward` side) and the side it is about to try has
a passage or is Unknown; or it has not moved yet and probes the sides of its first square in
the order straight, left, backward, right, the sides not yet tried being Unknown and the
sides tried being walls. -/
def Tracking (m : ServerMaze) (s : AvatarState) (g : Globals) : Prop :=
  (m.pass (s.prevX, s.prevY) s.backward = true ∧
    (s.upcomingMove = s.right ∨ s.upcomingMove = s.straight ∨ s.upcomingMove = s.left ∨
      s.upcomingMove = s.backward) ∧
    (m.pass (s.prevX, s.prevY) s.upcomingMove = true ∨
      ConvertDirection g s.prevX s.prevY s.upcomingMove = -1)) ∨
  (s.upcomingMove = s.straight ∧
    ConvertDirection g s.prevX s.prevY s.straight = -1 ∧
    ConvertDirection g s.prevX s.prevY s.left = -1 ∧
    ConvertDirection g s.prevX s.prevY s.backward = -1 ∧
    ConvertDirection g s.prevX s.prevY s.right = -1) ∨
  (s.upcomingMove = s.left ∧ m.pass (s.prevX, s.prevY) s.straight = false ∧
    ConvertDirection g s.prevX s.prevY s.left = -1 ∧
    ConvertDirection g s.prevX s.prevY s.backward = -1 ∧
    ConvertDirection g s.prevX s.prevY s.right = -1) ∨
  (s.upcomingMove = s.backward ∧ m.pass (s.prevX, s.prevY) s.straight = false ∧
    m.pass (s.prevX, s.prevY) s.left = false ∧
    ConvertDirection g s.prevX s.prevY s.backward = -1 ∧
    ConvertDirection g s.prevX s.prevY s.right = -1) ∨
  (s.upcomingMove = s.right ∧ m.pass (s.prevX, s.prevY) s.straight = false ∧
    m.pass (s.prevX, s.prevY) s.left = false ∧
    m.pass (s.prevX, s.prevY) s.backward = false ∧
    ConvertDirection g s.prevX s.prevY s.right = -1)

/-- The invariant of the moving avatar between its own turns: it is avatar 1 past its first
iteration, its frame is a rotation-table frame, the recorded square `(prevX, prevY)` is on
the grid, the server's position is the result of the move last sent from there, the map is
sound and the avatar is tracking. -/
def MoverInv (m : ServerMaze) (x : AvatarState × Globals × XYPos) : Prop :=
  x.1.avatarId = 1 ∧ x.1.firstIteration = false ∧ ValidFrame x.1 ∧
  (x.1.prevX, x.1.prevY) ∈ m.cells ∧
  x.2.2 = m.move { x := x.1.prevX, y := x.1.prevY } x.1.upcomingMove ∧
  Sound m x.2.1 ∧ Tracking m x.1 x.2.1

/-- The walker is nearer to stepping onto `anchor` from `δ'` than from `δ`: whenever it gets
there from `δ` after `j` probes, it gets there from `δ'` after fewer. -/
def ServerMaze.closer (m : ServerMaze) (anchor : Int × Int)
    (δ δ' : (Int × Int) × Direction) : Prop :=
  ∀ j, m.entersAt anchor (m.nextDart^[j] δ) →
    ∃ j', j' < j ∧ m.entersAt anchor (m.nextDart^[j'] δ')

/-- The maze with a single square. -/
def maze1x1 : ServerMaze :=
  { width := 1
    height := 1
    eastOpen := fun _ _ => false
    southOpen := fun _ _ => false }

/-! ## A 3 x 3 session -/

/-- The perfect 3 x 3 maze with the passages `(0,0)-(1,0)`, `(1,0)-(2,0)`, `(0,1)-(1,1)`,
`(0,2)-(1,2)`, `(1,2)-(2,2)`, `(0,0)-(0,1)`, `(2,0)-(2,1)` and `(2,1)-(2,2)`. -/
def maze3x3 : ServerMaze :=
  { width := 3
    height := 3
    eastOpen := fun x y => (x == 0 || x == 1) && (y == 0 || y == 2) || (x == 0 && y == 1)
    southOpen := fun x y => (x == 0 && y == 0) || (x == 2 && (y == 0 || y == 1)) }

/-- The session on `maze3x3` with avatar 0 at `(1,1)` and avatar 1 starting at `(0,2)`,
after 41 rounds: it is the 21st own turn of avatar 1. -/
def session3x3 : Session :=
  Session.run maze3x3 41 (Session.start maze3x3 { x := 1, y := 1 } { x := 0, y := 2 })

/-! ## The decision rules in the words of the specification -/

/-- The wall state on side `d` of the square `(x, y)` is Open (1) or Unknown (-1). -/
def OpenOrUnknown (g : Globals) (x y : Int) (d : Direction) : Prop :=
  ConvertDirection g x y d = 1 ∨ ConvertDirection g x y d = -1

instance (g : Globals) (x y : Int) (d : Direction) : Decidable (OpenOrUnknown g x y d) := by
  unfold OpenOrUnknown; infer_instance

/-- The rule of the specification for the move after a successful step, read in the frame of
`s` on the square `(x, y)`: right if the right side is Open or Unknown, otherwise straight if
the straight side is Open or Unknown, otherwise left if the left side is Open or Unknown,
otherwise backward. -/
def nextAfterSuccess (g : Globals) (x y : Int) (s : AvatarState) : Direction :=
  if OpenOrUnknown g x y s.right then s.right
  else if OpenOrUnknown g x y s.straight then s.straight
  else if OpenOrUnknown g x y s.left then s.left
  else s.backward

/-! ## Theorems -/

theorem SetMazeSquareSide_mazeWidth (g : Globals) (x y : Int) (d : Direction) (s : Int) :
    (SetMazeSquareSide g x y d s).mazeWidth = g.mazeWidth := by
  unfold SetMazeSquareSide
  simp only [setNorth, setSouth, setEast, setWest]
  split_ifs <;> rfl

theorem SetMazeSquareSide_mazeHeight (g : Globals) (x y : Int) (d : Direction) (s : Int) :
    (SetMazeSquareSide g x y d s).mazeHeight = g.mazeHeight := by
  unfold SetMazeSquareSide
  simp only [setNorth, setSouth, setEast, setWest]
  split_ifs <;> rfl

theorem SetMazeSquareSide_mazeSolved (g : Globals) (x y : Int) (d : Direction) (s : Int) :
    (SetMazeSquareSide g x y d s).mazeSolved = g.mazeSolved := by
  unfold SetMazeSquareSide
  simp only [setNorth, setSouth, setEast, setWest]
  split_ifs <;> rfl

/-- C1: for an in-bounds square `(x, y)`, a compass direction `d` and any state `s`, after
`SetMazeSquareSide(x, y, d, s)` the call `ConvertDirection(x, y, d)` returns `s`, and when the
neighbour on side `d` is in bounds, `ConvertDirection` on that neighbour for the opposite
direction returns `s` too. -/
theorem SetMazeSquareSide_mirrors (g : Globals) (x y : Int) (d : Direction) (s : Int)
    (hin : InBounds g x y) (hd : d.isCompass = true) :
    ConvertDirection (SetMazeSquareSide g x y d s) x y d = s ∧
    (InBounds g (neighbourX x d) (neighbourY y d) →
      ConvertDirection (SetMazeSquareSide g x y d s) (neighbourX x d) (neighbourY y d)
        d.opposite = s) := by
  obtain ⟨hx0, hxw, hy0, hyh⟩ := hin
  have e1 : ¬ y = y - 1 := by omega
  have e2 : ¬ y = y + 1 := by omega
  have e3 : ¬ x = x - 1 := by omega
  have e4 : ¬ x = x + 1 := by omega
  cases d
  case M_NULL_MOVE => simp [Direction.isCompass] at hd
  all_goals
    refine ⟨?_, ?_⟩
    · simp only [SetMazeSquareSide, ConvertDirection]
      simp only [reduceCtorEq, if_true, if_false]
      split_ifs <;> simp [setNorth, setSouth, setEast, setWest, setSquare, e1, e2, e3, e4]
    · simp only [SetMazeSquareSide, ConvertDirection, neighbourX, neighbourY,
        Direction.opposite, InBounds]
      simp only [reduceCtorEq, if_true, if_false]
      rintro ⟨h1, h2, h3, h4⟩
      split_ifs <;> first
        | omega
        | simp [setNorth, setSouth, setEast, setWest, setSquare, e1, e2, e3, e4]

theorem SetMazeSquareSide_mirrors_witness :
    ConvertDirection (SetMazeSquareSide (initGlobals 2 2) 0 0 Direction.M_EAST 1) 0 0
        Direction.M_EAST = 1 ∧
    (InBounds (initGlobals 2 2) (neighbourX 0 Direction.M_EAST)
        (neighbourY 0 Direction.M_EAST) →
      ConvertDirection (SetMazeSquareSide (initGlobals 2 2) 0 0 Direction.M_EAST 1)
        (neighbourX 0 Direction.M_EAST) (neighbourY 0 Direction.M_EAST)
        Direction.M_EAST.opposite = 1) :=
  SetMazeSquareSide_mirrors (initGlobals 2 2) 0 0 Direction.M_EAST 1 (by decide) (by decide)

theorem SetMazeSquareSide_inBounds (g : Globals) (x y : Int) (d : Direction) (s : Int)
    (i j : Int) : InBounds (SetMazeSquareSide g x y d s) i j ↔ InBounds g i j := by
  simp only [InBounds, SetMazeSquareSide_mazeWidth, SetMazeSquareSide_mazeHeight]

theorem SetMazeSquareSide_keeps_pairs (g : Globals) (x y : Int) (d : Direction) (s : Int)
    (h : WallPairsAgree g) : WallPairsAgree (SetMazeSquareSide g x y d s) := by
  intro i j hin
  rw [SetMazeSquareSide_inBounds] at hin
  simp only [SetMazeSquareSide_inBounds]
  obtain ⟨hE, hS⟩ := h i j hin
  obtain ⟨hi0, hiw, hj0, hjh⟩ := hin
  refine ⟨?_, ?_⟩
  · intro hin2
    have hE := hE hin2
    obtain ⟨a0, aw, b0, bh⟩ := hin2
    cases d <;>
      simp only [SetMazeSquareSide, reduceCtorEq, if_true, if_false] <;>
      split_ifs <;>
      simp only [setNorth, setSouth, setEast, setWest, setSquare] <;>
      split_ifs <;> first
        | omega
        | exact hE
        | rfl
        | simp_all
  · intro hin2
    have hS := hS hin2
    obtain ⟨a0, aw, b0, bh⟩ := hin2
    cases d <;>
      simp only [SetMazeSquareSide, reduceCtorEq, if_true, if_false] <;>
      split_ifs <;>
      simp only [setNorth, setSouth, setEast, setWest, setSquare] <;>
      split_ifs <;> first
        | omega
        | exact hS
        | rfl
        | simp_all

theorem initGlobals_pairs (width height : Int) : WallPairsAgree (initGlobals width height) := by
  intro i j hin
  simp only [InBounds, initGlobals] at hin ⊢
  refine ⟨?_, ?_⟩ <;> intro h2 <;> simp [hin, h2]

theorem setSides_keeps_pairs (calls : List (Int × Int × Direction × Int)) :
    ∀ g : Globals, WallPairsAgree g → WallPairsAgree (setSides g calls) := by
  induction calls with
  | nil => intro g h; exact h
  | cons c cs ih =>
    intro g h
    exact ih _ (SetMazeSquareSide_keeps_pairs g c.1 c.2.1 c.2.2.1 c.2.2.2 h)

/-- C2: wall-pair consistency is an invariant of the map.  Starting from the map of session
start (every side of every in-bounds square Unknown), after any finite sequence of
`SetMazeSquareSide` calls with in-bounds coordinates and compass directions, east of `(x, y)`
equals west of `(x+1, y)` and south of `(x, y)` equals north of `(x, y+1)` for all in-bounds
pairs of squares. -/
theorem wall_pairs_invariant (width height : Int)
    (calls : List (Int × Int × Direction × Int))
    (hcalls : ∀ c ∈ calls, InBounds (initGlobals width height) c.1 c.2.1 ∧
      c.2.2.1.isCompass = true) :
    (∀ x y : Int, InBounds (initGlobals width height) x y →
      ((initGlobals width height).maze x y).northSide = -1 ∧
      ((initGlobals width height).maze x y).eastSide = -1 ∧
      ((initGlobals width height).maze x y).southSide = -1 ∧
      ((initGlobals width height).maze x y).westSide = -1) ∧
    ∀ x y : Int,
      (0 ≤ x ∧ x + 1 < width ∧ 0 ≤ y ∧ y < height →
        ((setSides (initGlobals width height) calls).maze x y).eastSide =
          ((setSides (initGlobals width height) calls).maze (x + 1) y).westSide) ∧
      (0 ≤ x ∧ x < width ∧ 0 ≤ y ∧ y + 1 < height →
        ((setSides (initGlobals width height) calls).maze x y).southSide =
          ((setSides (initGlobals width height) calls).maze x (y + 1)).northSide) := by
  have hdim : ∀ (cs : List (Int × Int × Direction × Int)) (g : Globals),
      (setSides g cs).mazeWidth = g.mazeWidth ∧ (setSides g cs).mazeHeight = g.mazeHeight := by
    intro cs
    induction cs with
    | nil => intro g; exact ⟨rfl, rfl⟩
    | cons c cs ih =>
      intro g
      simp only [setSides]
      rw [(ih _).1, (ih _).2, SetMazeSquareSide_mazeWidth, SetMazeSquareSide_mazeHeight]
      exact ⟨rfl, rfl⟩
  have hinv := setSides_keeps_pairs calls _ (initGlobals_pairs width height)
  refine ⟨?_, ?_⟩
  · intro x y hin
    simp only [InBounds, initGlobals] at hin
    simp [initGlobals, hin]
  · intro x y
    have hw : (setSides (initGlobals width height) calls).mazeWidth = width :=
      (hdim calls (initGlobals width height)).1
    have hh : (setSides (initGlobals width height) calls).mazeHeight = height :=
      (hdim calls (initGlobals width height)).2
    refine ⟨?_, ?_⟩
    · rintro ⟨h1, h2, h3, h4⟩
      refine (hinv x y ?_).1 ?_ <;>
        simp only [InBounds, hw, hh] <;> omega
    · rintro ⟨h1, h2, h3, h4⟩
      refine (hinv x y ?_).2 ?_ <;>
        simp only [InBounds, hw, hh] <;> omega

theorem wall_pairs_invariant_witness :
    (∀ x y : Int, InBounds (initGlobals 2 2) x y →
      ((initGlobals 2 2).maze x y).northSide = -1 ∧
      ((initGlobals 2 2).maze x y).eastSide = -1 ∧
      ((initGlobals 2 2).maze x y).southSide = -1 ∧
      ((initGlobals 2 2).maze x y).westSide = -1) ∧
    ∀ x y : Int,
      (0 ≤ x ∧ x + 1 < 2 ∧ 0 ≤ y ∧ y < 2 →
        ((setSides (initGlobals 2 2)
            [(0, 0, Direction.M_EAST, 1), (1, 1, Direction.M_NORTH, 0)]).maze x y).eastSide =
          ((setSides (initGlobals 2 2)
            [(0, 0, Direction.M_EAST, 1), (1, 1, Direction.M_NORTH, 0)]).maze
              (x + 1) y).westSide) ∧
      (0 ≤ x ∧ x < 2 ∧ 0 ≤ y ∧ y + 1 < 2 →
        ((setSides (initGlobals 2 2)
            [(0, 0, Direction.M_EAST, 1), (1, 1, Direction.M_NORTH, 0)]).maze x y).southSide =
          ((setSides (initGlobals 2 2)
            [(0, 0, Direction.M_EAST, 1), (1, 1, Direction.M_NORTH, 0)]).maze
              x (y + 1)).northSide) :=
  wall_pairs_invariant 2 2 [(0, 0, Direction.M_EAST, 1), (1, 1, Direction.M_NORTH, 0)]
    (by decide)

/-- C3 (evaluation at the failing input): on the 2 x 2 map of session start, the call
`SetMazeSquareSide(1, 0, M_EAST, 1)` on the in-bounds square `(1, 0)` overwrites the west
side of `maze[2][0]`, a square outside the grid (its value goes from 0 to 1), and the call
`SetMazeSquareSide(0, 1, M_SOUTH, 1)` overwrites the north side of `maze[0][2]`. -/
theorem SetMazeSquareSide_writes_outside_grid :
    InBounds (initGlobals 2 2) 1 0 ∧ ¬ InBounds (initGlobals 2 2) 2 0 ∧
    ((initGlobals 2 2).maze 2 0).westSide = 0 ∧
    ((SetMazeSquareSide (initGlobals 2 2) 1 0 Direction.M_EAST 1).maze 2 0).westSide = 1 ∧
    InBounds (initGlobals 2 2) 0 1 ∧ ¬ InBounds (initGlobals 2 2) 0 2 ∧
    ((initGlobals 2 2).maze 0 2).northSide = 0 ∧
    ((SetMazeSquareSide (initGlobals 2 2) 0 1 Direction.M_SOUTH 1).maze 0 2).northSide = 1 := by
  decide

theorem avatarTurn_null (s : AvatarState) (g : Globals) (t : AvatarTurn)
    (hnull : s.upcomingMove = Direction.M_NULL_MOVE) :
    (avatarTurn s g t).1.upcomingMove = Direction.M_NULL_MOVE ∧
    (avatarTurn s g t).1.avatarId = s.avatarId ∧
    (avatarTurn s g t).1.orientation = s.orientation ∧
    (avatarTurn s g t).1.straight = s.straight ∧
    (avatarTurn s g t).1.right = s.right ∧
    (avatarTurn s g t).1.backward = s.backward ∧
    (avatarTurn s g t).1.left = s.left ∧
    (avatarTurn s g t).2.1 = g ∧
    (avatarTurn s g t).2.2 =
      if t.TurnId = s.avatarId then some Direction.M_NULL_MOVE else none := by
  have hb : (recordBaseline s t).upcomingMove = Direction.M_NULL_MOVE ∧
      (recordBaseline s t).avatarId = s.avatarId ∧
      (recordBaseline s t).orientation = s.orientation ∧
      (recordBaseline s t).straight = s.straight ∧
      (recordBaseline s t).right = s.right ∧
      (recordBaseline s t).backward = s.backward ∧
      (recordBaseline s t).left = s.left := by
    unfold recordBaseline
    split_ifs <;> simp [hnull]
  obtain ⟨b1, b2, b3, b4, b5, b6, b7⟩ := hb
  simp only [avatarTurn, ownTurn, b1, b2, if_true]
  split_ifs <;> simp [b1, b2, b3, b4, b5, b6, b7]

theorem dispatch_cases (s : AvatarState) (g : Globals) (r : Received) :
    dispatch s g r = (Control.looping, s, g, none) ∨
    dispatch s g r = (Control.returned, s, g, none) ∨
    dispatch s g r = (Control.exited, s, g, none) ∨
    (dispatch s g r = (Control.looping, avatarTurn s g r.avatar_turn) ∧
      r.type = MsgType.AM_AVATAR_TURN) := by
  unfold dispatch
  by_cases c1 : r.recvResponse = 0
  · rw [if_pos c1]; exact Or.inl rfl
  rw [if_neg c1]
  by_cases c2 : r.recvResponse = -1
  · rw [if_pos c2]; exact Or.inl rfl
  rw [if_neg c2]
  by_cases c3 : r.isAmError = true
  · rw [if_pos c3]; exact Or.inr (Or.inl rfl)
  rw [if_neg c3]
  by_cases c4 : r.type = MsgType.AM_AVATAR_TURN
  · rw [if_pos c4]; exact Or.inr (Or.inr (Or.inr ⟨rfl, c4⟩))
  rw [if_neg c4]
  by_cases c5 : r.type = MsgType.AM_AVATAR_OUT_OF_TURN
  · rw [if_pos c5]; exact Or.inr (Or.inr (Or.inl rfl))
  rw [if_neg c5]
  by_cases c6 : r.type = MsgType.AM_TOO_MANY_MOVES
  · rw [if_pos c6]; exact Or.inr (Or.inr (Or.inl rfl))
  rw [if_neg c6]
  by_cases c7 : r.type = MsgType.AM_SERVER_TIMEOUT
  · rw [if_pos c7]; exact Or.inr (Or.inr (Or.inl rfl))
  rw [if_neg c7]
  by_cases c8 : r.type = MsgType.AM_SERVER_DISK_QUOTA
  · rw [if_pos c8]; exact Or.inr (Or.inr (Or.inl rfl))
  rw [if_neg c8]
  by_cases c9 : r.type = MsgType.AM_SERVER_OUT_OF_MEM
  · rw [if_pos c9]; exact Or.inr (Or.inr (Or.inl rfl))
  rw [if_neg c9]
  by_cases c10 : r.type = MsgType.AM_MAZE_SOLVED
  · rw [if_pos c10]; exact Or.inr (Or.inr (Or.inl rfl))
  rw [if_neg c10]
  exact Or.inl rfl

theorem dispatch_turn (s : AvatarState) (g : Globals) (r : Received) (h : r.isTurn) :
    dispatch s g r = (Control.looping, avatarTurn s g r.avatar_turn) := by
  obtain ⟨h1, h2, h3⟩ := h
  have a : ¬ r.recvResponse = 0 := by omega
  have b : ¬ r.recvResponse = -1 := by omega
  have c : ¬ r.isAmError = true := by rw [h2]; decide
  unfold dispatch
  rw [if_neg a, if_neg b, if_neg c, if_pos h3]

theorem dispatch_terminal (s : AvatarState) (g : Globals) (r : Received)
    (hrecv : 0 < r.recvResponse) (hterm : r.type.isTerminal = true) :
    dispatch s g r = (Control.returned, s, g, none) ∨
    dispatch s g r = (Control.exited, s, g, none) := by
  have a : ¬ r.recvResponse = 0 := by omega
  have b : ¬ r.recvResponse = -1 := by omega
  unfold dispatch
  rw [if_neg a, if_neg b]
  by_cases c3 : r.isAmError = true
  · rw [if_pos c3]; exact Or.inl rfl
  rw [if_neg c3]
  right
  cases hty : r.type <;> rw [hty] at hterm <;>
    first
      | (exfalso; revert hterm; decide)
      | (simp only [reduceCtorEq, if_true, if_false])

theorem loopBody_null (s : AvatarState) (g : Globals) (r : Received)
    (hnull : s.upcomingMove = Direction.M_NULL_MOVE) :
    (loopBody s g r).2.2.1 = g ∧
    (loopBody s g r).2.1.upcomingMove = Direction.M_NULL_MOVE ∧
    (loopBody s g r).2.1.avatarId = s.avatarId ∧
    (∀ d, (loopBody s g r).2.2.2 = some d → d = Direction.M_NULL_MOVE) ∧
    (g.mazeSolved = 0 → r.isTurn ∧ r.avatar_turn.TurnId = s.avatarId →
      (loopBody s g r).1 = Control.looping ∧
      (loopBody s g r).2.2.2 = some Direction.M_NULL_MOVE) := by
  obtain ⟨h1, hid, -, -, -, -, -, h2, h3⟩ := avatarTurn_null s g r.avatar_turn hnull
  unfold loopBody
  by_cases hs : g.mazeSolved = 0
  swap
  · rw [if_neg hs]
    exact ⟨rfl, hnull, rfl, fun d hd => by simp at hd, fun h => absurd h hs⟩
  rw [if_pos hs]
  refine ⟨?_, ?_, ?_, ?_, ?_⟩
  · rcases dispatch_cases s g r with h | h | h | ⟨h, -⟩ <;> rw [h]
    exact h2
  · rcases dispatch_cases s g r with h | h | h | ⟨h, -⟩ <;> rw [h] <;> first
      | exact hnull
      | exact h1
  · rcases dispatch_cases s g r with h | h | h | ⟨h, -⟩ <;> rw [h]
    exact hid
  · intro d hd
    rcases dispatch_cases s g r with h | h | h | ⟨h, -⟩ <;> rw [h] at hd
    · simp at hd
    · simp at hd
    · simp at hd
    · change (avatarTurn s g r.avatar_turn).2.2 = some d at hd
      rw [h3] at hd
      split_ifs at hd
      exact (Option.some.inj hd).symm
  · rintro - ⟨ht, hid2⟩
    rw [dispatch_turn s g r ht]
    refine ⟨rfl, ?_⟩
    change (avatarTurn s g r.avatar_turn).2.2 = _
    rw [h3, if_pos hid2]

theorem threadRun_null (rs : List Received) :
    ∀ (s : AvatarState) (g : Globals) (c : Control),
      s.upcomingMove = Direction.M_NULL_MOVE →
      (threadRun { control := c, state := s } g rs).2.1 = g ∧
      (∀ d ∈ (threadRun { control := c, state := s } g rs).2.2, d = Direction.M_NULL_MOVE) ∧
      (c = Control.looping → g.mazeSolved = 0 →
        (∀ r ∈ rs, r.isTurn ∧ r.avatar_turn.TurnId = s.avatarId) →
        (threadRun { control := c, state := s } g rs).2.2 =
          List.replicate rs.length Direction.M_NULL_MOVE) := by
  induction rs with
  | nil => intro s g c _; simp [threadRun]
  | cons r rs ih =>
    intro s g c hnull
    by_cases hc : c = Control.looping
    swap
    · simp [threadRun, hc]
    subst hc
    obtain ⟨b1, b2, b3, b4, b5⟩ := loopBody_null s g r hnull
    obtain ⟨i1, i2, i3⟩ := ih (loopBody s g r).2.1 g (loopBody s g r).1 b2
    simp only [threadRun, if_true, b1]
    refine ⟨i1, ?_, ?_⟩
    · intro d hd
      rcases List.mem_append.1 hd with hd | hd
      · cases hsent : (loopBody s g r).2.2.2 with
        | none => simp [hsent] at hd
        | some e =>
          simp only [hsent, List.mem_singleton] at hd
          rw [hd]; exact b4 e hsent
      · exact i2 d hd
    · intro _ hsolved hall
      obtain ⟨c1, c2⟩ := b5 hsolved (hall r (List.mem_cons_self r rs))
      rw [c2, i3 c1 hsolved (fun q hq => by rw [b3]; exact hall q (List.mem_cons_of_mem r hq))]
      simp [List.replicate_succ]

/-- C6: a stationary agent stays stationary.  For every agent state with
`upcomingMove = M_NULL_MOVE` and every `AM_AVATAR_TURN` message naming the agent, the decision
step sends a move with direction none, keeps `upcomingMove = M_NULL_MOVE` and leaves the
orientation, the relative frame and the maze map unchanged; and over any sequence of received
items the thread of that agent only ever sends none and never changes the map, sending
exactly one none per turn message that names it. -/
theorem stationary_agent_stays_stationary (s : AvatarState) (g : Globals) (t : AvatarTurn)
    (hnull : s.upcomingMove = Direction.M_NULL_MOVE) (hturn : t.TurnId = s.avatarId) :
    ((avatarTurn s g t).2.2 = some Direction.M_NULL_MOVE ∧
      (avatarTurn s g t).1.upcomingMove = Direction.M_NULL_MOVE ∧
      (avatarTurn s g t).1.orientation = s.orientation ∧
      (avatarTurn s g t).1.straight = s.straight ∧
      (avatarTurn s g t).1.right = s.right ∧
      (avatarTurn s g t).1.backward = s.backward ∧
      (avatarTurn s g t).1.left = s.left ∧
      (avatarTurn s g t).2.1 = g) ∧
    ∀ rs : List Received,
      (threadRun { control := Control.looping, state := s } g rs).2.1 = g ∧
      (∀ d ∈ (threadRun { control := Control.looping, state := s } g rs).2.2,
        d = Direction.M_NULL_MOVE) ∧
      (g.mazeSolved = 0 → (∀ r ∈ rs, r.isTurn ∧ r.avatar_turn.TurnId = s.avatarId) →
        (threadRun { control := Control.looping, state := s } g rs).2.2 =
          List.replicate rs.length Direction.M_NULL_MOVE) := by
  obtain ⟨h1, _, h3, h4, h5, h6, h7, h8, h9⟩ := avatarTurn_null s g t hnull
  refine ⟨⟨?_, h1, h3, h4, h5, h6, h7, h8⟩, ?_⟩
  · rw [h9, if_pos hturn]
  · intro rs
    obtain ⟨i1, i2, i3⟩ := threadRun_null rs s g Control.looping hnull
    exact ⟨i1, i2, i3 rfl⟩

theorem stationary_agent_stays_stationary_witness :
    (initAvatar 0 0 0).upcomingMove = Direction.M_NULL_MOVE ∧
    (0 : Nat) = (initAvatar 0 0 0).avatarId ∧
    (avatarTurn (initAvatar 0 0 0) (initGlobals 2 2)
      { TurnId := 0, Pos := fun _ => { x := 0, y := 0 } }).2.2 =
        some Direction.M_NULL_MOVE ∧
    (avatarTurn (initAvatar 0 0 0) (initGlobals 2 2)
      { TurnId := 0, Pos := fun _ => { x := 0, y := 0 } }).1.upcomingMove =
        Direction.M_NULL_MOVE :=
  ⟨by decide, by decide,
    (stationary_agent_stays_stationary (initAvatar 0 0 0) (initGlobals 2 2)
      { TurnId := 0, Pos := fun _ => { x := 0, y := 0 } } (by decide) (by decide)).1.1,
    (stationary_agent_stays_stationary (initAvatar 0 0 0) (initGlobals 2 2)
      { TurnId := 0, Pos := fun _ => { x := 0, y := 0 } } (by decide) (by decide)).1.2.1⟩

theorem SetMazeSquareSide_other_side (g : Globals) (x y : Int) (d e : Direction) (m : Int)
    (hd : d.isCompass = true) (he : e.isCompass = true) (hne : d ≠ e) :
    ConvertDirection (SetMazeSquareSide g x y d m) x y e = ConvertDirection g x y e := by
  have e1 : ¬ y = y - 1 := by omega
  have e2 : ¬ y = y + 1 := by omega
  have e3 : ¬ x = x - 1 := by omega
  have e4 : ¬ x = x + 1 := by omega
  cases d <;> cases e <;>
    first
      | exact absurd rfl hne
      | exact absurd hd (by decide)
      | exact absurd he (by decide)
      | (simp only [SetMazeSquareSide, ConvertDirection, reduceCtorEq, if_true, if_false]
         split_ifs <;> simp [setNorth, setSouth, setEast, setWest, setSquare, e1, e2, e3, e4])

theorem recordBaseline_fields (s : AvatarState) (t : AvatarTurn) :
    (recordBaseline s t).avatarId = s.avatarId ∧
    (recordBaseline s t).straight = s.straight ∧
    (recordBaseline s t).right = s.right ∧
    (recordBaseline s t).backward = s.backward ∧
    (recordBaseline s t).left = s.left ∧
    (recordBaseline s t).orientation = s.orientation ∧
    (recordBaseline s t).upcomingMove = s.upcomingMove ∧
    (recordBaseline s t).moveNumber = s.moveNumber ∧
    (recordBaseline s t).firstIteration = s.firstIteration := by
  unfold recordBaseline
  split_ifs <;> exact ⟨rfl, rfl, rfl, rfl, rfl, rfl, rfl, rfl, rfl⟩

theorem recordBaseline_same (s : AvatarState) (t : AvatarTurn)
    (h : (t.Pos s.avatarId).x = s.prevX ∧ (t.Pos s.avatarId).y = s.prevY) :
    recordBaseline s t = s := by
  unfold recordBaseline
  split_ifs
  · obtain ⟨h1, h2⟩ := h
    rw [h1, h2]
  · rfl

theorem avatarTurn_own (s : AvatarState) (g : Globals) (t : AvatarTurn)
    (hturn : t.TurnId = s.avatarId) :
    avatarTurn s g t = ownTurn (recordBaseline s t) g t := by
  unfold avatarTurn
  simp only [(recordBaseline_fields s t).1, hturn, if_true]

theorem avatarTurn_other (s : AvatarState) (g : Globals) (t : AvatarTurn)
    (hturn : ¬ t.TurnId = s.avatarId) :
    avatarTurn s g t = (recordBaseline s t, g, none) := by
  unfold avatarTurn
  simp only [(recordBaseline_fields s t).1, hturn, if_false]

theorem ownTurn_failed (s : AvatarState) (g : Globals) (t : AvatarTurn)
    (hmove : s.upcomingMove ≠ Direction.M_NULL_MOVE)
    (hsame : (t.Pos s.avatarId).x = s.prevX ∧ (t.Pos s.avatarId).y = s.prevY) :
    ownTurn s g t =
      ((onFailedMove s g).1, (onFailedMove s g).2, some (onFailedMove s g).1.upcomingMove) := by
  unfold ownTurn
  simp only [if_neg hmove, if_pos hsame]

theorem ownTurn_moved (s : AvatarState) (g : Globals) (t : AvatarTurn)
    (hmove : s.upcomingMove ≠ Direction.M_NULL_MOVE)
    (hdiff : ¬ ((t.Pos s.avatarId).x = s.prevX ∧ (t.Pos s.avatarId).y = s.prevY)) :
    ownTurn s g t =
      ((onMoved s g t (t.Pos s.avatarId).x (t.Pos s.avatarId).y).1,
        (onMoved s g t (t.Pos s.avatarId).x (t.Pos s.avatarId).y).2,
        some (onMoved s g t (t.Pos s.avatarId).x (t.Pos s.avatarId).y).1.upcomingMove) := by
  unfold ownTurn
  simp only [if_neg hmove, if_neg hdiff]

/-- C7: the move-failure cycle.  On an own-turn observation whose reported position equals
the recorded position, for an agent whose frame is a rotation-table frame and whose
`upcomingMove` is one of its frame directions: if the candidate following the failed move in
the cycle right -> straight -> left -> backward -> right has wall state Open (1) or Unknown
(-1) at the current square, the next `upcomingMove` (which is also the move sent) is exactly
that candidate; in particular `right` with the straight side Open or Unknown gives
`straight`. -/
theorem failed_move_takes_cycle_successor (s : AvatarState) (g : Globals) (t : AvatarTurn)
    (hturn : t.TurnId = s.avatarId) (hframe : ValidFrame s)
    (hmove : s.upcomingMove = s.right ∨ s.upcomingMove = s.straight ∨
      s.upcomingMove = s.left ∨ s.upcomingMove = s.backward)
    (hfailed : (t.Pos s.avatarId).x = s.prevX ∧ (t.Pos s.avatarId).y = s.prevY)
    (hfree : ConvertDirection g (t.Pos s.avatarId).x (t.Pos s.avatarId).y
        (cycleSuccessor s s.upcomingMove) = 1 ∨
      ConvertDirection g (t.Pos s.avatarId).x (t.Pos s.avatarId).y
        (cycleSuccessor s s.upcomingMove) = -1) :
    (avatarTurn s g t).1.upcomingMove = cycleSuccessor s s.upcomingMove ∧
    (avatarTurn s g t).2.2 = some (cycleSuccessor s s.upcomingMove) ∧
    (s.upcomingMove = s.right → (avatarTurn s g t).1.upcomingMove = s.straight) := by
  have hkey : (avatarTurn s g t).1.upcomingMove = cycleSuccessor s s.upcomingMove ∧
      (avatarTurn s g t).2.2 = some (cycleSuccessor s s.upcomingMove) := by
    have hcompass : s.upcomingMove ≠ Direction.M_NULL_MOVE := by
      obtain ⟨f1, f2, f3, f4⟩ := hframe
      rw [f2, f3, f4] at hmove
      intro h0
      rw [h0] at hmove
      revert f1 hmove
      cases s.straight <;> decide
    rw [avatarTurn_own s g t hturn, recordBaseline_same s t hfailed,
      ownTurn_failed s g t hcompass hfailed]
    rw [hfailed.1, hfailed.2] at hfree
    obtain ⟨id, st, ri, ba, le, o, um, px, py, mn, fi⟩ := s
    obtain ⟨f1, f2, f3, f4⟩ := hframe
    simp only at f1 f2 f3 f4 hmove hfree
    subst f2 f3 f4
    have hfree2 : ∀ e : Direction, e.isCompass = true → um ≠ e → um.isCompass = true →
        (ConvertDirection g px py e = 1 ∨ ConvertDirection g px py e = -1) →
        sideFree (if fi = false then SetMazeSquareSide g px py um 0 else g) px py e = true := by
      intro e he hne hum h
      have : ConvertDirection (if fi = false then SetMazeSquareSide g px py um 0 else g)
          px py e = ConvertDirection g px py e := by
        split_ifs
        · exact SetMazeSquareSide_other_side g px py um e 0 hum he hne
        · rfl
      unfold sideFree
      rw [this]
      rcases h with h | h <;> rw [h] <;> decide
    cases st
    case M_NULL_MOVE => exact absurd f1 (by decide)
    all_goals
      simp only [Direction.clockwise, Direction.opposite, Direction.counterClockwise] at hmove
      rcases hmove with h | h | h | h <;> subst h <;>
        simp only [cycleSuccessor, Direction.clockwise, Direction.opposite,
          Direction.counterClockwise, reduceCtorEq, if_true, if_false] at hfree ⊢ <;>
        simp only [onFailedMove, failedMoveLadder, Direction.clockwise,
          Direction.opposite, Direction.counterClockwise, reduceCtorEq, if_true, if_false,
          and_self, true_and, false_and] <;>
        first
          | exact ⟨rfl, rfl⟩
          | (rw [hfree2 _ (by decide) (by decide) (by decide) hfree]
             exact ⟨rfl, rfl⟩)
  refine ⟨hkey.1, hkey.2, ?_⟩
  intro hr
  rw [hkey.1]
  unfold cycleSuccessor
  rw [if_pos hr]

theorem failed_move_takes_cycle_successor_witness :
    ((1 : Nat) = (initAvatar 1 0 0).avatarId ∧ ValidFrame (initAvatar 1 0 0) ∧
      (initAvatar 1 0 0).upcomingMove = (initAvatar 1 0 0).right) ∧
    (avatarTurn (initAvatar 1 0 0) (initGlobals 2 2)
      { TurnId := 1, Pos := fun _ => { x := 0, y := 0 } }).1.upcomingMove =
        Direction.M_NORTH :=
  ⟨by decide,
    (failed_move_takes_cycle_successor (initAvatar 1 0 0) (initGlobals 2 2)
      { TurnId := 1, Pos := fun _ => { x := 0, y := 0 } } (by decide) (by decide)
      (by decide) (by decide) (by decide)).1⟩

theorem SetMazeSquareSide_entry (g : Globals) (x y : Int) (d : Direction) (m : Int)
    (i j : Int) (e : Direction) :
    ConvertDirection (SetMazeSquareSide g x y d m) i j e = ConvertDirection g i j e ∨
    ConvertDirection (SetMazeSquareSide g x y d m) i j e = m := by
  cases d <;> cases e <;>
    simp only [SetMazeSquareSide, ConvertDirection, reduceCtorEq, if_true, if_false] <;>
    split_ifs <;>
    simp only [setNorth, setSouth, setEast, setWest, setSquare] <;>
    split_ifs <;> simp_all

theorem onFailedMove_entry (s : AvatarState) (g : Globals) (i j : Int) (e : Direction) :
    ConvertDirection (onFailedMove s g).2 i j e = ConvertDirection g i j e ∨
    ConvertDirection (onFailedMove s g).2 i j e = 0 := by
  unfold onFailedMove
  simp only
  split_ifs
  · exact SetMazeSquareSide_entry g s.prevX s.prevY s.upcomingMove 0 i j e
  · exact Or.inl rfl

theorem onMoved_globals (s : AvatarState) (g : Globals) (t : AvatarTurn) (x y : Int) :
    (onMoved s g t x y).2 = SetMazeSquareSide g s.prevX s.prevY s.upcomingMove 1 := by
  unfold onMoved
  simp only
  split_ifs <;> rfl

theorem avatarTurn_entry (s : AvatarState) (g : Globals) (t : AvatarTurn) (i j : Int)
    (e : Direction) :
    ConvertDirection (avatarTurn s g t).2.1 i j e = ConvertDirection g i j e ∨
    ConvertDirection (avatarTurn s g t).2.1 i j e = 0 ∨
    ConvertDirection (avatarTurn s g t).2.1 i j e = 1 := by
  by_cases hturn : t.TurnId = s.avatarId
  swap
  · rw [avatarTurn_other s g t hturn]; exact Or.inl rfl
  rw [avatarTurn_own s g t hturn]
  generalize recordBaseline s t = s1
  by_cases hnull : s1.upcomingMove = Direction.M_NULL_MOVE
  · unfold ownTurn
    rw [if_pos hnull]
    exact Or.inl rfl
  by_cases hsame : (t.Pos s1.avatarId).x = s1.prevX ∧ (t.Pos s1.avatarId).y = s1.prevY
  · rw [ownTurn_failed s1 g t hnull hsame]
    rcases onFailedMove_entry s1 g i j e with h | h
    · exact Or.inl h
    · exact Or.inr (Or.inl h)
  · rw [ownTurn_moved s1 g t hnull hsame]
    simp only [onMoved_globals]
    rcases SetMazeSquareSide_entry g s1.prevX s1.prevY s1.upcomingMove 1 i j e with h | h
    · exact Or.inl h
    · exact Or.inr (Or.inr h)

/-- C8: wall state is monotonic over a run.  For every sequence of decision steps on the
shared map (each by an avatar in an arbitrary local state, for an arbitrary turn message), a
side that is Open (1) or Blocked (0) before the run is Open or Blocked, hence not Unknown
(-1), after it; and a single decision step leaves every side unchanged or writes 0 or 1. -/
theorem wall_state_monotonic (g : Globals) (steps : List (AvatarState × AvatarTurn))
    (x y : Int) (d : Direction)
    (hknown : ConvertDirection g x y d = 1 ∨ ConvertDirection g x y d = 0) :
    (ConvertDirection (mapAfterTurns g steps) x y d = 1 ∨
      ConvertDirection (mapAfterTurns g steps) x y d = 0) ∧
    ConvertDirection (mapAfterTurns g steps) x y d ≠ -1 ∧
    ∀ (s : AvatarState) (t : AvatarTurn),
      ConvertDirection (avatarTurn s g t).2.1 x y d = ConvertDirection g x y d ∨
      ConvertDirection (avatarTurn s g t).2.1 x y d = 0 ∨
      ConvertDirection (avatarTurn s g t).2.1 x y d = 1 := by
  have hrun : ∀ (steps : List (AvatarState × AvatarTurn)) (g : Globals),
      (ConvertDirection g x y d = 1 ∨ ConvertDirection g x y d = 0) →
      (ConvertDirection (mapAfterTurns g steps) x y d = 1 ∨
        ConvertDirection (mapAfterTurns g steps) x y d = 0) := by
    intro steps
    induction steps with
    | nil => intro g h; exact h
    | cons c cs ih =>
      intro g h
      apply ih
      rcases avatarTurn_entry c.1 g c.2 x y d with h1 | h1 | h1
      · rw [h1]; exact h
      · exact Or.inr h1
      · exact Or.inl h1
  refine ⟨hrun steps g hknown, ?_, fun s t => avatarTurn_entry s g t x y d⟩
  rcases hrun steps g hknown with h | h <;> rw [h] <;> decide

theorem wall_state_monotonic_witness :
    (ConvertDirection (SetMazeSquareSide (initGlobals 2 2) 0 0 Direction.M_EAST 1) 0 0
        Direction.M_EAST = 1 ∨
      ConvertDirection (SetMazeSquareSide (initGlobals 2 2) 0 0 Direction.M_EAST 1) 0 0
        Direction.M_EAST = 0) ∧
    ConvertDirection (mapAfterTurns (SetMazeSquareSide (initGlobals 2 2) 0 0 Direction.M_EAST 1)
      [({ initAvatar 1 0 0 with firstIteration := false },
        { TurnId := 1, Pos := fun _ => { x := 0, y := 0 } })]) 0 0 Direction.M_EAST ≠ -1 :=
  ⟨by decide,
    (wall_state_monotonic (SetMazeSquareSide (initGlobals 2 2) 0 0 Direction.M_EAST 1)
      [({ initAvatar 1 0 0 with firstIteration := false },
        { TurnId := 1, Pos := fun _ => { x := 0, y := 0 } })] 0 0 Direction.M_EAST
      (by decide)).2.1⟩

theorem setRelativeDirections_frame (s : AvatarState) (h : s.upcomingMove.isCompass = true) :
    (setRelativeDirections s).orientation = s.upcomingMove ∧
    (setRelativeDirections s).straight = s.upcomingMove ∧
    (setRelativeDirections s).right = s.upcomingMove.clockwise ∧
    (setRelativeDirections s).backward = s.upcomingMove.opposite ∧
    (setRelativeDirections s).left = s.upcomingMove.counterClockwise ∧
    (setRelativeDirections s).upcomingMove = s.upcomingMove ∧
    (setRelativeDirections s).prevX = s.prevX ∧
    (setRelativeDirections s).prevY = s.prevY ∧
    (setRelativeDirections s).avatarId = s.avatarId ∧
    (setRelativeDirections s).firstIteration = s.firstIteration := by
  obtain ⟨id, st, ri, ba, le, o, um, px, py, mn, fi⟩ := s
  simp only at h
  cases um
  case M_NULL_MOVE => exact absurd h (by decide)
  all_goals
    simp only [setRelativeDirections, reduceCtorEq, if_true, if_false, Direction.clockwise,
      Direction.opposite, Direction.counterClockwise, and_self]

theorem onMoved_frame (s : AvatarState) (g : Globals) (t : AvatarTurn) (x y : Int)
    (h : s.upcomingMove.isCompass = true)
    (hnot0 : ¬ (x = (t.Pos 0).x ∧ y = (t.Pos 0).y)) :
    (onMoved s g t x y).1.orientation = s.upcomingMove ∧
    (onMoved s g t x y).1.straight = s.upcomingMove ∧
    (onMoved s g t x y).1.right = s.upcomingMove.clockwise ∧
    (onMoved s g t x y).1.backward = s.upcomingMove.opposite ∧
    (onMoved s g t x y).1.left = s.upcomingMove.counterClockwise ∧
    (onMoved s g t x y).1.prevX = x ∧
    (onMoved s g t x y).1.prevY = y := by
  unfold onMoved
  simp only [if_neg hnot0]
  obtain ⟨h1, h2, h3, h4, h5, -, h7, h8, -, -⟩ :=
    setRelativeDirections_frame
      { s with prevX := x, prevY := y, moveNumber := s.moveNumber + 1 } h
  exact ⟨h1, h2, h3, h4, h5, h7, h8⟩

/-- C9: the relative frame is a function of the orientation that matches the rotation
table.  After a successful move in compass direction `o` that does not reach the square of
avatar 0, the orientation is `o` and the recomputed frame has `straight = o`, `right` = the
clockwise neighbour of `o` (North -> East -> South -> West -> North), `backward` = the
opposite of `o` and `left` = the counter-clockwise neighbour, so orientation -> frame ->
straight gives back the orientation; and the initial frame is the frame of North. -/
theorem frame_follows_orientation (o : Direction) (s : AvatarState) (g : Globals)
    (t : AvatarTurn) (ho : o.isCompass = true) (hturn : t.TurnId = s.avatarId)
    (hmove : s.upcomingMove = o) (hfirst : s.firstIteration = false)
    (hmoved : ¬ ((t.Pos s.avatarId).x = s.prevX ∧ (t.Pos s.avatarId).y = s.prevY))
    (hnot0 : ¬ ((t.Pos s.avatarId).x = (t.Pos 0).x ∧ (t.Pos s.avatarId).y = (t.Pos 0).y)) :
    ((avatarTurn s g t).1.orientation = o ∧
      (avatarTurn s g t).1.straight = o ∧
      (avatarTurn s g t).1.right = o.clockwise ∧
      (avatarTurn s g t).1.backward = o.opposite ∧
      (avatarTurn s g t).1.left = o.counterClockwise ∧
      (avatarTurn s g t).1.straight = (avatarTurn s g t).1.orientation) ∧
    (Direction.M_NORTH.clockwise = Direction.M_EAST ∧
      Direction.M_EAST.clockwise = Direction.M_SOUTH ∧
      Direction.M_SOUTH.clockwise = Direction.M_WEST ∧
      Direction.M_WEST.clockwise = Direction.M_NORTH) ∧
    ∀ (avatarId : Nat) (px py : Int),
      (initAvatar avatarId px py).orientation = Direction.M_NORTH ∧
      (initAvatar avatarId px py).straight = Direction.M_NORTH ∧
      (initAvatar avatarId px py).right = Direction.M_NORTH.clockwise ∧
      (initAvatar avatarId px py).backward = Direction.M_NORTH.opposite ∧
      (initAvatar avatarId px py).left = Direction.M_NORTH.counterClockwise := by
  refine ⟨?_, ⟨rfl, rfl, rfl, rfl⟩, fun _ _ _ => ⟨rfl, rfl, rfl, rfl, rfl⟩⟩
  have hb : recordBaseline s t = s := by
    unfold recordBaseline
    rw [hfirst]
    simp only [Bool.false_eq_true, if_false]
  have hnull : s.upcomingMove ≠ Direction.M_NULL_MOVE := by
    rw [hmove]; intro h; rw [h] at ho; exact absurd ho (by decide)
  rw [avatarTurn_own s g t hturn, hb, ownTurn_moved s g t hnull hmoved]
  obtain ⟨h1, h2, h3, h4, h5, -, -⟩ :=
    onMoved_frame s g t (t.Pos s.avatarId).x (t.Pos s.avatarId).y (by rw [hmove]; exact ho)
      hnot0
  rw [hmove] at h1 h2 h3 h4 h5
  exact ⟨h1, h2, h3, h4, h5, by rw [h1, h2]⟩

theorem frame_follows_orientation_witness :
    ((avatarTurn { initAvatar 1 0 0 with firstIteration := false } (initGlobals 2 2)
        { TurnId := 1, Pos := fun i => if i = 0 then { x := 0, y := 0 }
            else { x := 1, y := 0 } }).1.right = Direction.M_SOUTH ∧
      (avatarTurn { initAvatar 1 0 0 with firstIteration := false } (initGlobals 2 2)
        { TurnId := 1, Pos := fun i => if i = 0 then { x := 0, y := 0 }
            else { x := 1, y := 0 } }).1.straight = Direction.M_EAST) :=
  ⟨(frame_follows_orientation Direction.M_EAST
      { initAvatar 1 0 0 with firstIteration := false } (initGlobals 2 2)
      { TurnId := 1, Pos := fun i => if i = 0 then { x := 0, y := 0 } else { x := 1, y := 0 } }
      (by decide) (by decide) (by decide) (by decide) (by decide) (by decide)).1.2.2.1,
   (frame_follows_orientation Direction.M_EAST
      { initAvatar 1 0 0 with firstIteration := false } (initGlobals 2 2)
      { TurnId := 1, Pos := fun i => if i = 0 then { x := 0, y := 0 } else { x := 1, y := 0 } }
      (by decide) (by decide) (by decide) (by decide) (by decide) (by decide)).1.2.1⟩

theorem threadRun_stopped (rs : List Received) (th : Thread) (g : Globals)
    (h : th.control ≠ Control.looping) : threadRun th g rs = (th, g, []) := by
  cases rs with
  | nil => rfl
  | cons r rs => simp only [threadRun, if_neg h]

theorem loopBody_terminal (s : AvatarState) (g : Globals) (r : Received)
    (hrecv : 0 < r.recvResponse) (hterm : r.type.isTerminal = true) :
    loopBody s g r = (Control.returned, s, g, none) ∨
    loopBody s g r = (Control.exited, s, g, none) := by
  unfold loopBody
  split_ifs
  · exact dispatch_terminal s g r hrecv hterm
  · exact Or.inl rfl

/-- C10: terminal messages stop the agent.  For every agent state, when a message of type
MazeSolved, AvatarOutOfTurn, TooManyMoves, ServerTimeout, ServerDiskQuota or
ServerOutOfMemory is received, the loop pass sends no `AM_AVATAR_MOVE`, leaves the globals
(the maze map) and the local state as they are and leaves the loop (by `return` or
`exit(0)`); from there the thread sends no move and changes no map, whatever arrives. -/
theorem terminal_message_stops_agent (s : AvatarState) (g : Globals) (r : Received)
    (hrecv : 0 < r.recvResponse) (hterm : r.type.isTerminal = true) :
    (loopBody s g r).2.2.2 = none ∧
    (loopBody s g r).2.2.1 = g ∧
    (loopBody s g r).2.1 = s ∧
    (loopBody s g r).1 ≠ Control.looping ∧
    (∀ (rs : List Received) (g1 : Globals),
      (threadRun { control := (loopBody s g r).1, state := (loopBody s g r).2.1 } g1 rs).2.2
        = [] ∧
      (threadRun { control := (loopBody s g r).1, state := (loopBody s g r).2.1 } g1 rs).2.1
        = g1) ∧
    ∀ rs : List Received,
      (threadRun { control := Control.looping, state := s } g (r :: rs)).2.2 = [] ∧
      (threadRun { control := Control.looping, state := s } g (r :: rs)).2.1 = g ∧
      (threadRun { control := Control.looping, state := s } g (r :: rs)).1.control ≠
        Control.looping := by
  rcases loopBody_terminal s g r hrecv hterm with h | h
  all_goals
    refine ⟨by rw [h], by rw [h], by rw [h], by rw [h]; simp, ?_, ?_⟩
    · intro rs g1
      rw [h, threadRun_stopped rs _ g1 (by simp)]
      exact ⟨rfl, rfl⟩
    · intro rs
      simp only [threadRun, if_true, h]
      rw [threadRun_stopped rs _ g (by simp)]
      exact ⟨rfl, rfl, by simp⟩

theorem terminal_message_stops_agent_witness :
    ((0 : Int) < 1 ∧ MsgType.AM_TOO_MANY_MOVES.isTerminal = true) ∧
    (threadRun { control := Control.looping, state := initAvatar 1 0 0 } (initGlobals 2 2)
      [{ recvResponse := 1, isAmError := false, type := MsgType.AM_TOO_MANY_MOVES,
         avatar_turn := { TurnId := 1, Pos := fun _ => { x := 0, y := 0 } } },
       { recvResponse := 1, isAmError := false, type := MsgType.AM_AVATAR_TURN,
         avatar_turn := { TurnId := 1, Pos := fun _ => { x := 0, y := 0 } } }]).2.2 = [] :=
  ⟨by decide,
    ((terminal_message_stops_agent (initAvatar 1 0 0) (initGlobals 2 2)
      { recvResponse := 1, isAmError := false, type := MsgType.AM_TOO_MANY_MOVES,
        avatar_turn := { TurnId := 1, Pos := fun _ => { x := 0, y := 0 } } }
      (by decide) (by decide)).2.2.2.2.2
      [{ recvResponse := 1, isAmError := false, type := MsgType.AM_AVATAR_TURN,
         avatar_turn := { TurnId := 1, Pos := fun _ => { x := 0, y := 0 } } }]).1⟩

/-- Both avatars of the session are frozen: their `upcomingMove` is `M_NULL_MOVE`. -/
theorem Session.frozen_round (m : ServerMaze) (σ : Session)
    (h0 : σ.avatar0.upcomingMove = Direction.M_NULL_MOVE)
    (h1 : σ.avatar1.upcomingMove = Direction.M_NULL_MOVE)
    (i0 : σ.avatar0.avatarId = 0) (i1 : σ.avatar1.avatarId = 1) (ht : σ.turnId < 2) :
    σ.sent = some Direction.M_NULL_MOVE ∧
    (σ.round m).avatar0.upcomingMove = Direction.M_NULL_MOVE ∧
    (σ.round m).avatar1.upcomingMove = Direction.M_NULL_MOVE ∧
    (σ.round m).avatar0.avatarId = 0 ∧ (σ.round m).avatar1.avatarId = 1 ∧
    (σ.round m).turnId < 2 ∧ (σ.round m).pos0 = σ.pos0 ∧ (σ.round m).pos1 = σ.pos1 := by
  obtain ⟨a1, a2, -, -, -, -, -, a8, a9⟩ :=
    avatarTurn_null σ.avatar0 σ.globals σ.turnMessage h0
  obtain ⟨b1, b2, -, -, -, -, -, b8, b9⟩ :=
    avatarTurn_null σ.avatar1 (avatarTurn σ.avatar0 σ.globals σ.turnMessage).2.1
      σ.turnMessage h1
  have hsent : σ.sent = some Direction.M_NULL_MOVE := by
    have hid : σ.turnMessage.TurnId = σ.turnId := rfl
    unfold Session.sent
    simp only
    by_cases h : σ.turnId = 0
    · rw [if_pos h, a9, if_pos (by rw [hid, h, i0])]
    · have h1 : σ.turnId = 1 := by omega
      rw [if_neg h, b9, if_pos (by rw [hid, h1, i1])]
  have hmove : ∀ p : XYPos, m.move p Direction.M_NULL_MOVE = p := by
    intro p
    simp [ServerMaze.move, ServerMaze.passage]
  refine ⟨hsent, ?_, ?_, ?_, ?_, ?_, ?_, ?_⟩
  · exact a1
  · exact b1
  · exact a2.trans i0
  · exact b2.trans i1
  · exact Nat.mod_lt _ (by decide)
  · simp only [Session.round, hsent, Option.getD_some, hmove, ite_self]
  · simp only [Session.round, hsent, Option.getD_some, hmove, ite_self]

theorem Session.frozen_run (m : ServerMaze) (n : Nat) :
    ∀ σ : Session, σ.avatar0.upcomingMove = Direction.M_NULL_MOVE →
      σ.avatar1.upcomingMove = Direction.M_NULL_MOVE →
      σ.avatar0.avatarId = 0 → σ.avatar1.avatarId = 1 → σ.turnId < 2 →
      (Session.run m n σ).sent = some Direction.M_NULL_MOVE ∧
      (Session.run m n σ).pos0 = σ.pos0 ∧ (Session.run m n σ).pos1 = σ.pos1 := by
  induction n with
  | zero =>
    intro σ h0 h1 i0 i1 ht
    exact ⟨(Session.frozen_round m σ h0 h1 i0 i1 ht).1, rfl, rfl⟩
  | succ n ih =>
    intro σ h0 h1 i0 i1 ht
    obtain ⟨-, c1, c2, c3, c4, c5, c6, c7⟩ := Session.frozen_round m σ h0 h1 i0 i1 ht
    obtain ⟨d1, d2, d3⟩ := ih (σ.round m) c1 c2 c3 c4 c5
    exact ⟨d1, d2.trans c6, d3.trans c7⟩

theorem Session.run_add (m : ServerMaze) (a : Nat) :
    ∀ (b : Nat) (σ : Session), Session.run m (a + b) σ = Session.run m b (Session.run m a σ) := by
  induction a with
  | zero => intro b σ; simp [Session.run]
  | succ a ih =>
    intro b σ
    rw [Nat.add_right_comm]
    simp only [Session.run]
    exact ih b _

/-- Both avatars frozen in the state after `n0` rounds: from then on only none is sent. -/
theorem sentInRound_frozen (m : ServerMaze) (anchor start : XYPos) (n0 : Nat)
    (h : (Session.run m n0 (Session.start m anchor start)).avatar0.upcomingMove =
        Direction.M_NULL_MOVE ∧
      (Session.run m n0 (Session.start m anchor start)).avatar1.upcomingMove =
        Direction.M_NULL_MOVE ∧
      (Session.run m n0 (Session.start m anchor start)).avatar0.avatarId = 0 ∧
      (Session.run m n0 (Session.start m anchor start)).avatar1.avatarId = 1 ∧
      (Session.run m n0 (Session.start m anchor start)).turnId < 2) :
    ∀ n, n0 ≤ n → sentInRound m anchor start n = some Direction.M_NULL_MOVE := by
  intro n hn
  obtain ⟨k, rfl⟩ := Nat.exists_eq_add_of_le hn
  unfold sentInRound
  rw [Session.run_add]
  obtain ⟨h0, h1, i0, i1, ht⟩ := h
  exact (Session.frozen_run m k _ h0 h1 i0 i1 ht).1

set_option maxRecDepth 100000 in
/-- C4 (counterexample): in the perfect 2 x 2 maze whose only wall between squares separates
`(0,0)` from `(0,1)`, avatar 1 starting at `(0,1)`, adjacent to avatar 0 at `(0,0)`, is not
reported at `(0,0)` on any of its first 8 own turns. -/
theorem two_by_two_not_within_eight_turns :
    (maze2x2 true true false true).isPerfect = true ∧
    ¬ ∃ k, 1 ≤ k ∧ k ≤ 8 ∧
      reportedAt (maze2x2 true true false true) { x := 0, y := 0 } { x := 0, y := 1 } k =
        { x := 0, y := 0 } := by
  refine ⟨by decide, ?_⟩
  rintro ⟨k, h1, h2, h3⟩
  interval_cases k <;> revert h3 <;> decide

theorem Session.anchor_round (m : ServerMaze) (σ : Session)
    (h0 : σ.avatar0.upcomingMove = Direction.M_NULL_MOVE)
    (i0 : σ.avatar0.avatarId = 0) :
    (σ.round m).avatar0.upcomingMove = Direction.M_NULL_MOVE ∧
    (σ.round m).avatar0.avatarId = 0 ∧ (σ.round m).pos0 = σ.pos0 := by
  obtain ⟨a1, a2, -, -, -, -, -, a8, a9⟩ :=
    avatarTurn_null σ.avatar0 σ.globals σ.turnMessage h0
  refine ⟨a1, a2.trans i0, ?_⟩
  have hid : σ.turnMessage.TurnId = σ.turnId := rfl
  have hmove : ∀ p : XYPos, m.move p Direction.M_NULL_MOVE = p := by
    intro p
    simp [ServerMaze.move, ServerMaze.passage]
  by_cases h : σ.turnId = 0
  · have hsent : σ.sent = some Direction.M_NULL_MOVE := by
      unfold Session.sent
      simp only
      rw [if_pos h, a9, if_pos (by rw [hid, h, i0])]
    simp only [Session.round, hsent, Option.getD_some, hmove, ite_self]
  · simp only [Session.round, if_neg h]

theorem Session.anchor_run (m : ServerMaze) (n : Nat) :
    ∀ σ : Session, σ.avatar0.upcomingMove = Direction.M_NULL_MOVE →
      σ.avatar0.avatarId = 0 → (Session.run m n σ).pos0 = σ.pos0 := by
  induction n with
  | zero => intro σ _ _; rfl
  | succ n ih =>
    intro σ h0 i0
    obtain ⟨c1, c2, c3⟩ := Session.anchor_round m σ h0 i0
    exact (ih (σ.round m) c1 c2).trans c3

theorem sent_none_from_turn (m : ServerMaze) (anchor start : XYPos) (k : Nat) (hk : 1 ≤ k)
    (hsent : sentInRound m anchor start (2 * k - 1) = some Direction.M_NULL_MOVE)
    (h : (Session.run m (2 * k) (Session.start m anchor start)).avatar0.upcomingMove =
        Direction.M_NULL_MOVE ∧
      (Session.run m (2 * k) (Session.start m anchor start)).avatar1.upcomingMove =
        Direction.M_NULL_MOVE ∧
      (Session.run m (2 * k) (Session.start m anchor start)).avatar0.avatarId = 0 ∧
      (Session.run m (2 * k) (Session.start m anchor start)).avatar1.avatarId = 1 ∧
      (Session.run m (2 * k) (Session.start m anchor start)).turnId < 2) :
    ∀ n, 2 * k - 1 ≤ n → sentInRound m anchor start n = some Direction.M_NULL_MOVE := by
  intro n hn
  by_cases hfirst : n = 2 * k - 1
  · rw [hfirst]; exact hsent
  · exact sentInRound_frozen m anchor start (2 * k) h n (by omega)

set_option maxRecDepth 100000 in
/-- C4 (amended): for every perfect 2 x 2 maze, with avatar 0 stationary at `(0,0)` and
avatar 1 starting at `(1,0)` or `(0,1)` in the initial agent state on the all-Unknown map,
the run against the faithful server reports avatar 1 at `(0,0)` on one of its first 11 own
turns, avatar 0 never leaves `(0,0)`, and from the round of that turn on every move sent (by
either avatar) is none. -/
theorem two_by_two_rendezvous (a b c d : Bool) (start : XYPos)
    (hperfect : (maze2x2 a b c d).isPerfect = true)
    (hstart : start = { x := 1, y := 0 } ∨ start = { x := 0, y := 1 }) :
    ∃ k, 1 ≤ k ∧ k ≤ 11 ∧
      reportedAt (maze2x2 a b c d) { x := 0, y := 0 } start k = { x := 0, y := 0 } ∧
      (∀ n, 2 * k - 1 ≤ n →
        sentInRound (maze2x2 a b c d) { x := 0, y := 0 } start n =
          some Direction.M_NULL_MOVE) ∧
      ∀ n, (Session.run (maze2x2 a b c d) n
        (Session.start (maze2x2 a b c d) { x := 0, y := 0 } start)).pos0 =
          { x := 0, y := 0 } := by
  have hanchor : ∀ n, (Session.run (maze2x2 a b c d) n
      (Session.start (maze2x2 a b c d) { x := 0, y := 0 } start)).pos0 =
        { x := 0, y := 0 } :=
    fun n => Session.anchor_run _ n _ rfl rfl
  cases a <;> cases b <;> cases c <;> cases d <;>
    first
      | exact absurd hperfect (by decide)
      | skip
  · -- passages: b, c, d
    rcases hstart with h | h <;> subst h
    · exact ⟨6, by decide, by decide, by decide,
        sent_none_from_turn _ _ _ 6 (by decide) (by decide) (by decide), hanchor⟩
    · exact ⟨2, by decide, by decide, by decide,
        sent_none_from_turn _ _ _ 2 (by decide) (by decide) (by decide), hanchor⟩
  · -- passages: a, c, d
    rcases hstart with h | h <;> subst h
    · exact ⟨3, by decide, by decide, by decide,
        sent_none_from_turn _ _ _ 3 (by decide) (by decide) (by decide), hanchor⟩
    · exact ⟨2, by decide, by decide, by decide,
        sent_none_from_turn _ _ _ 2 (by decide) (by decide) (by decide), hanchor⟩
  · -- passages: a, b, d
    rcases hstart with h | h <;> subst h
    · exact ⟨3, by decide, by decide, by decide,
        sent_none_from_turn _ _ _ 3 (by decide) (by decide) (by decide), hanchor⟩
    · exact ⟨11, by decide, by decide, by decide,
        sent_none_from_turn _ _ _ 11 (by decide) (by decide) (by decide), hanchor⟩
  · -- passages: a, b, c
    rcases hstart with h | h <;> subst h
    · exact ⟨3, by decide, by decide, by decide,
        sent_none_from_turn _ _ _ 3 (by decide) (by decide) (by decide), hanchor⟩
    · exact ⟨2, by decide, by decide, by decide,
        sent_none_from_turn _ _ _ 2 (by decide) (by decide) (by decide), hanchor⟩

set_option maxRecDepth 100000 in
theorem two_by_two_rendezvous_witness :
    (maze2x2 true true false true).isPerfect = true ∧
    ∃ k, 1 ≤ k ∧ k ≤ 11 ∧
      reportedAt (maze2x2 true true false true) { x := 0, y := 0 } { x := 0, y := 1 } k =
        { x := 0, y := 0 } ∧
      (∀ n, 2 * k - 1 ≤ n →
        sentInRound (maze2x2 true true false true) { x := 0, y := 0 } { x := 0, y := 1 } n =
          some Direction.M_NULL_MOVE) ∧
      ∀ n, (Session.run (maze2x2 true true false true) n
        (Session.start (maze2x2 true true false true) { x := 0, y := 0 }
          { x := 0, y := 1 })).pos0 = { x := 0, y := 0 } :=
  ⟨by decide,
    two_by_two_rendezvous true true false true { x := 0, y := 1 } (by decide)
      (Or.inr rfl)⟩

theorem ServerMaze.mem_cells (m : ServerMaze) (c : Int × Int) :
    c ∈ m.cells ↔ m.inGrid c.1 c.2 = true := by
  obtain ⟨x, y⟩ := c
  unfold ServerMaze.cells
  rw [List.mem_flatMap]
  simp only [ServerMaze.inGrid, Bool.and_eq_true, decide_eq_true_eq]
  constructor
  · rintro ⟨a, ha, hb⟩
    rw [List.mem_map] at hb
    obtain ⟨b, hb, heq⟩ := hb
    rw [List.mem_range] at ha hb
    simp only [Prod.mk.injEq] at heq
    omega
  · rintro ⟨⟨⟨h1, h2⟩, h3⟩, h4⟩
    refine ⟨x.toNat, List.mem_range.2 (by omega), ?_⟩
    rw [List.mem_map]
    refine ⟨y.toNat, List.mem_range.2 (by omega), ?_⟩
    simp only [Prod.mk.injEq]
    omega

theorem ServerMaze.pass_inGrid (m : ServerMaze) (c : Int × Int) (d : Direction)
    (h : m.pass c d = true) : c ∈ m.cells ∧ stepTo c d ∈ m.cells := by
  rw [ServerMaze.mem_cells, ServerMaze.mem_cells]
  cases d <;>
    simp only [ServerMaze.pass, ServerMaze.passage, Bool.and_eq_true, stepTo, neighbourX,
      neighbourY, Bool.false_eq_true] at h ⊢
  all_goals exact ⟨h.1.1, h.1.2⟩

theorem ServerMaze.pass_compass (m : ServerMaze) (c : Int × Int) (d : Direction)
    (h : m.pass c d = true) : d.isCompass = true := by
  cases d <;> first | rfl | (simp [ServerMaze.pass, ServerMaze.passage] at h)

theorem stepTo_opposite (c : Int × Int) (d : Direction) :
    stepTo (stepTo c d) d.opposite = c := by
  obtain ⟨x, y⟩ := c
  cases d <;> simp [stepTo, neighbourX, neighbourY, Direction.opposite]

theorem ServerMaze.pass_symm (m : ServerMaze) (c : Int × Int) (d : Direction) :
    m.pass (stepTo c d) d.opposite = m.pass c d := by
  obtain ⟨x, y⟩ := c
  cases d <;>
    simp only [ServerMaze.pass, ServerMaze.passage, stepTo, neighbourX, neighbourY,
      Direction.opposite, add_sub_cancel_right, sub_add_cancel]
  all_goals
    cases m.inGrid x y <;> simp
theorem contains_iff_mem (l : List (Int × Int)) (c : Int × Int) :
    l.contains c = true ↔ c ∈ l := by
  unfold List.contains
  exact List.elem_iff

theorem ServerMaze.mem_grow (m : ServerMaze) (seen : List (Int × Int)) (c : Int × Int) :
    c ∈ m.grow seen ↔
      c ∈ m.cells ∧ (c ∈ seen ∨ ∃ d, m.pass c d = true ∧ stepTo c d ∈ seen) := by
  unfold ServerMaze.grow
  rw [List.mem_filter]
  simp only [Bool.or_eq_true, contains_iff_mem, List.any_eq_true, Bool.and_eq_true,
    List.mem_cons, List.mem_singleton, List.not_mem_nil, or_false]
  change _ ∧ (_ ∨ ∃ d, _ ∧ (m.pass c d = true ∧ stepTo c d ∈ seen)) ↔ _
  constructor
  · rintro ⟨hc, h | ⟨d, -, hp, hs⟩⟩
    · exact ⟨hc, Or.inl h⟩
    · exact ⟨hc, Or.inr ⟨d, hp, hs⟩⟩
  · rintro ⟨hc, h | ⟨d, hp, hs⟩⟩
    · exact ⟨hc, Or.inl h⟩
    · refine ⟨hc, Or.inr ⟨d, ?_, hp, hs⟩⟩
      have := m.pass_compass c d hp
      cases d <;> simp_all [Direction.isCompass]

theorem ServerMaze.origin_mem_cells (m : ServerMaze) (h : 0 < m.width * m.height) :
    ((0 : Int), (0 : Int)) ∈ m.cells := by
  rw [ServerMaze.mem_cells]
  have h1 : 0 < m.width := Nat.pos_of_mul_pos_right h
  have h2 : 0 < m.height := Nat.pos_of_mul_pos_left h
  simp only [ServerMaze.inGrid, Bool.and_eq_true, decide_eq_true_eq]
  omega

theorem ServerMaze.reached_succ_of_mem (m : ServerMaze) (c : Int × Int) (hc : c ∈ m.cells)
    (n : Nat) (h : c ∈ m.reached n) : c ∈ m.reached (n + 1) := by
  simp only [ServerMaze.reached]
  exact (m.mem_grow _ c).2 ⟨hc, Or.inl h⟩

theorem ServerMaze.reached_mono (m : ServerMaze) (c : Int × Int) (hc : c ∈ m.cells)
    (n k : Nat) (hnk : n ≤ k) (h : c ∈ m.reached n) : c ∈ m.reached k := by
  induction hnk with
  | refl => exact h
  | step _ ih => exact m.reached_succ_of_mem c hc _ ih

theorem ServerMaze.reached_step (m : ServerMaze) (c : Int × Int) (d : Direction) (n : Nat)
    (hp : m.pass c d = true) (h : c ∈ m.reached n) : stepTo c d ∈ m.reached (n + 1) := by
  simp only [ServerMaze.reached]
  refine (m.mem_grow _ _).2 ⟨(m.pass_inGrid c d hp).2, Or.inr ⟨d.opposite, ?_, ?_⟩⟩
  · rw [m.pass_symm]; exact hp
  · rw [stepTo_opposite]; exact h

theorem ServerMaze.reached_succ_cases (m : ServerMaze) (c : Int × Int) (n : Nat)
    (h : c ∈ m.reached (n + 1)) :
    c ∈ m.reached n ∨ ∃ d, m.pass c d = true ∧ stepTo c d ∈ m.reached n := by
  simp only [ServerMaze.reached] at h
  exact ((m.mem_grow _ c).1 h).2

theorem ServerMaze.isPerfect_iff (m : ServerMaze) :
    m.isPerfect = true ↔
      0 < m.width * m.height ∧ m.passageCount + 1 = m.width * m.height ∧
      ∀ c ∈ m.cells, c ∈ m.reached (m.width * m.height) := by
  simp only [ServerMaze.isPerfect, Bool.and_eq_true, decide_eq_true_eq, List.all_eq_true,
    contains_iff_mem, and_assoc]
theorem ServerMaze.cells_eq_product (m : ServerMaze) :
    m.cells = ((List.range m.width) ×ˢ (List.range m.height)).map
      (fun p : Nat × Nat => ((p.1 : Int), (p.2 : Int))) := by
  unfold ServerMaze.cells
  change _ = List.map _ (List.product _ _)
  unfold List.product
  rw [List.map_flatMap]
  congr 1
  funext x
  rw [List.map_map]
  rfl

theorem ServerMaze.cells_nodup (m : ServerMaze) : m.cells.Nodup := by
  rw [m.cells_eq_product]
  refine List.Nodup.map ?_ (List.Nodup.product (List.nodup_range _) (List.nodup_range _))
  rintro ⟨a, b⟩ ⟨c, d⟩ h
  simp only [Prod.mk.injEq, Nat.cast_inj] at h
  rw [h.1, h.2]

theorem ServerMaze.cells_length (m : ServerMaze) : m.cells.length = m.width * m.height := by
  rw [m.cells_eq_product, List.length_map, List.length_product, List.length_range,
    List.length_range]

theorem ServerMaze.edges_length (m : ServerMaze) : m.edges.length = m.passageCount := by
  simp only [ServerMaze.edges, ServerMaze.passageCount, List.length_append, List.length_map]

theorem ServerMaze.mem_edges (m : ServerMaze) (ε : (Int × Int) × Direction) :
    ε ∈ m.edges ↔ m.pass ε.1 ε.2 = true ∧
      (ε.2 = Direction.M_EAST ∨ ε.2 = Direction.M_SOUTH) := by
  obtain ⟨c, d⟩ := ε
  simp only [ServerMaze.edges, List.mem_append, List.mem_map, List.mem_filter, Prod.mk.injEq,
    ServerMaze.pass]
  constructor
  · rintro (⟨a, ⟨-, hp⟩, rfl, rfl⟩ | ⟨a, ⟨-, hp⟩, rfl, rfl⟩)
    · exact ⟨hp, Or.inl rfl⟩
    · exact ⟨hp, Or.inr rfl⟩
  · rintro ⟨hp, rfl | rfl⟩
    · exact Or.inl ⟨c, ⟨(m.pass_inGrid c _ hp).1, hp⟩, rfl, rfl⟩
    · exact Or.inr ⟨c, ⟨(m.pass_inGrid c _ hp).1, hp⟩, rfl, rfl⟩

theorem ServerMaze.edgeOf_mem_edges (m : ServerMaze) (c : Int × Int) (d : Direction)
    (hp : m.pass c d = true) : edgeOf (c, d) ∈ m.edges := by
  rw [ServerMaze.mem_edges]
  have hs := m.pass_symm c d
  cases d
  · exact ⟨by rw [← hp, ← hs]; rfl, Or.inr rfl⟩
  · exact ⟨hp, Or.inl rfl⟩
  · exact ⟨hp, Or.inr rfl⟩
  · exact ⟨by rw [← hp, ← hs]; rfl, Or.inl rfl⟩
  · exact absurd (m.pass_compass c _ hp) (by decide)

theorem edgeOf_inj (v u : Int × Int) (d e : Direction) (hd : d.isCompass = true)
    (he : e.isCompass = true) (h : edgeOf (v, d) = edgeOf (u, e)) :
    (v = u ∧ d = e) ∨ (u = stepTo v d ∧ e = d.opposite) := by
  obtain ⟨vx, vy⟩ := v
  obtain ⟨ux, uy⟩ := u
  cases d <;> cases e <;>
    simp only [edgeOf, stepTo, neighbourX, neighbourY, Prod.mk.injEq, reduceCtorEq, and_false,
      and_true, Direction.opposite, Direction.isCompass, bne_self_eq_false,
      Bool.false_eq_true] at h hd he ⊢ <;>
    omega
theorem Direction.opposite_opposite (d : Direction) : d.opposite.opposite = d := by
  cases d <;> rfl

/-- A perfect maze is a tree rooted at `(0, 0)`: there are a depth and a parent direction for
the squares such that the parent lies at smaller depth, every square but the root has a
parent, and every passage joins a square with its parent. -/
theorem ServerMaze.exists_rooted (m : ServerMaze) (hp : m.isPerfect = true) :
    ∃ (dep : Int × Int → Nat) (par : Int × Int → Option Direction),
      (∀ c ∈ m.cells, dep c ≤ m.width * m.height) ∧
      (∀ c d, par c = some d → m.pass c d = true ∧ dep (stepTo c d) < dep c) ∧
      (∀ c ∈ m.cells, par c = none → c = (0, 0)) ∧
      (∀ c d, m.pass c d = true → par c = some d ∨ par (stepTo c d) = some d.opposite) := by
  classical
  obtain ⟨hpos, hcount, hreach⟩ := m.isPerfect_iff.1 hp
  let dep : Int × Int → Nat := fun c => if h : ∃ n, c ∈ m.reached n then Nat.find h else 0
  have hdep_spec : ∀ c ∈ m.cells, c ∈ m.reached (dep c) := by
    intro c hc
    have h : ∃ n, c ∈ m.reached n := ⟨_, hreach c hc⟩
    simp only [dep, dif_pos h]
    exact Nat.find_spec h
  have hdep_min : ∀ c n, c ∈ m.reached n → dep c ≤ n := by
    intro c n hn
    have h : ∃ n, c ∈ m.reached n := ⟨n, hn⟩
    simp only [dep, dif_pos h]
    exact Nat.find_min' h hn
  let par : Int × Int → Option Direction := fun c =>
    if h : ∃ d, m.pass c d = true ∧ dep (stepTo c d) < dep c then some (Classical.choose h)
    else none
  have hpar : ∀ c d, par c = some d → m.pass c d = true ∧ dep (stepTo c d) < dep c := by
    intro c d hcd
    by_cases h : ∃ d, m.pass c d = true ∧ dep (stepTo c d) < dep c
    · simp only [par, dif_pos h, Option.some.injEq] at hcd
      rw [← hcd]
      exact Classical.choose_spec h
    · simp [par, dif_neg h] at hcd
  have hroot : ∀ c ∈ m.cells, par c = none → c = (0, 0) := by
    intro c hc hnone
    have hnot : ¬ ∃ d, m.pass c d = true ∧ dep (stepTo c d) < dep c := by
      intro h
      simp [par, dif_pos h] at hnone
    have hmem := hdep_spec c hc
    cases hd : dep c with
    | zero =>
      rw [hd] at hmem
      simpa [ServerMaze.reached] using hmem
    | succ n =>
      rw [hd] at hmem
      rcases m.reached_succ_cases c n hmem with h | ⟨d, hpd, hs⟩
      · have := hdep_min c n h
        omega
      · exact absurd ⟨d, hpd, by have := hdep_min _ n hs; omega⟩ hnot
  refine ⟨dep, par, ?_, hpar, hroot, ?_⟩
  · intro c hc
    exact hdep_min c _ (hreach c hc)
  -- every passage is the parent passage of one of its ends, by counting
  let f : Int × Int → (Int × Int) × Direction :=
    fun v => edgeOf (v, (par v).getD Direction.M_NORTH)
  let nonRoot : List (Int × Int) := m.cells.filter (fun c => c != (0, 0))
  have hnr : ∀ v ∈ nonRoot, ∃ π, par v = some π ∧ m.pass v π = true ∧
      dep (stepTo v π) < dep v ∧ f v = edgeOf (v, π) := by
    intro v hv
    obtain ⟨hvc, hne⟩ := List.mem_filter.1 hv
    cases hπ : par v with
    | none =>
      have := hroot v hvc hπ
      simp [this] at hne
    | some π =>
      obtain ⟨h1, h2⟩ := hpar v π hπ
      exact ⟨π, rfl, h1, h2, by simp only [f, hπ, Option.getD_some]⟩
  have hsub : nonRoot.map f ⊆ m.edges := by
    intro ε hε
    obtain ⟨v, hv, rfl⟩ := List.mem_map.1 hε
    obtain ⟨π, -, h1, -, h3⟩ := hnr v hv
    rw [h3]
    exact m.edgeOf_mem_edges v π h1
  have hnodup : (nonRoot.map f).Nodup := by
    refine List.Nodup.map_on ?_ (List.Nodup.filter _ m.cells_nodup)
    intro x hx y hy hxy
    obtain ⟨πx, -, px, dx, fx⟩ := hnr x hx
    obtain ⟨πy, -, py, dy, fy⟩ := hnr y hy
    rw [fx, fy] at hxy
    rcases edgeOf_inj x y πx πy (m.pass_compass x πx px) (m.pass_compass y πy py) hxy with
      ⟨h, -⟩ | ⟨h1, h2⟩
    · exact h
    · exfalso
      rw [h1, h2, stepTo_opposite] at dy
      omega
  have hlen : m.edges.length ≤ (nonRoot.map f).length := by
    have h1 : nonRoot = m.cells.erase (0, 0) := (List.Nodup.erase_eq_filter m.cells_nodup _).symm
    rw [List.length_map, h1, List.length_erase_of_mem (m.origin_mem_cells hpos),
      m.cells_length, m.edges_length]
    omega
  have hperm := (hnodup.subperm hsub).perm_of_length_le hlen
  intro c d hpd
  have hmem : edgeOf (c, d) ∈ nonRoot.map f := hperm.mem_iff.2 (m.edgeOf_mem_edges c d hpd)
  obtain ⟨v, hv, hfv⟩ := List.mem_map.1 hmem
  obtain ⟨π, hπ, pv, -, fv⟩ := hnr v hv
  rw [fv] at hfv
  rcases edgeOf_inj v c π d (m.pass_compass v π pv) (m.pass_compass c d hpd) hfv with
    ⟨h1, h2⟩ | ⟨h1, h2⟩
  · left; rw [← h1, ← h2]; exact hπ
  · right
    rw [h1, h2, stepTo_opposite, Direction.opposite_opposite]
    exact hπ
theorem ServerMaze.nextDart_wall (m : ServerMaze) (c : Int × Int) (d : Direction)
    (h : m.pass c d = false) : m.nextDart (c, d) = (c, d.counterClockwise) := by
  simp [ServerMaze.nextDart, h]

theorem ServerMaze.nextDart_pass (m : ServerMaze) (c : Int × Int) (d : Direction)
    (h : m.pass c d = true) : m.nextDart (c, d) = (stepTo c d, d.clockwise) := by
  simp [ServerMaze.nextDart, h]

theorem iterate_chain {α : Type} (f : α → α) (a b c : α) (i j : Nat)
    (h1 : f^[i] a = b) (h2 : f^[j] b = c) : f^[j + i] a = c := by
  rw [Function.iterate_add_apply, h1, h2]

/-- In a rooted maze the walker that has tried a direction other than the parent direction
on a square later tries the next direction (counter-clockwise) on the same square: at once
if there is a wall, after the tour of the subtree behind the passage otherwise. -/
theorem ServerMaze.rotate_one (m : ServerMaze) (dep : Int × Int → Nat)
    (par : Int × Int → Option Direction)
    (hbound : ∀ c ∈ m.cells, dep c ≤ m.width * m.height)
    (hpar : ∀ c d, par c = some d → m.pass c d = true ∧ dep (stepTo c d) < dep c)
    (hedge : ∀ c d, m.pass c d = true → par c = some d ∨ par (stepTo c d) = some d.opposite)
    (k : Nat) :
    ∀ v ∈ m.cells, ∀ e : Direction, e.isCompass = true →
      m.width * m.height - dep v ≤ k → par v ≠ some e →
      ∃ j, 1 ≤ j ∧ m.nextDart^[j] (v, e) = (v, e.counterClockwise) := by
  induction k with
  | zero =>
    intro v hv e he hk hne
    cases hp : m.pass v e with
    | false => exact ⟨1, le_refl 1, m.nextDart_wall v e hp⟩
    | true =>
      exfalso
      rcases hedge v e hp with h | h
      · exact hne h
      · obtain ⟨h1, h2⟩ := hpar _ _ h
        rw [stepTo_opposite] at h2
        have := hbound _ (m.pass_inGrid v e hp).2
        have := hbound v hv
        omega
  | succ k ih =>
    intro v hv e he hk hne
    cases hp : m.pass v e with
    | false => exact ⟨1, le_refl 1, m.nextDart_wall v e hp⟩
    | true =>
      rcases hedge v e hp with h | h
      · exact absurd h hne
      · obtain ⟨h1, h2⟩ := hpar _ _ h
        rw [stepTo_opposite] at h2
        have hc := (m.pass_inGrid v e hp).2
        have hb := hbound _ hc
        have hk' : m.width * m.height - dep (stepTo v e) ≤ k := by omega
        have hne1 : par (stepTo v e) ≠ some e.clockwise := by
          rw [h]; intro hh; revert he; have := Option.some.inj hh; revert this
          cases e <;> decide
        have hne2 : par (stepTo v e) ≠ some e := by
          rw [h]; intro hh; revert he; have := Option.some.inj hh; revert this
          cases e <;> decide
        have hne3 : par (stepTo v e) ≠ some e.counterClockwise := by
          rw [h]; intro hh; revert he; have := Option.some.inj hh; revert this
          cases e <;> decide
        have c1 : e.clockwise.isCompass = true := by revert he; cases e <;> decide
        have c3 : e.counterClockwise.isCompass = true := by revert he; cases e <;> decide
        have r1 : e.clockwise.counterClockwise = e := by revert he; cases e <;> decide
        have r3 : e.counterClockwise.counterClockwise = e.opposite := by
          revert he; cases e <;> decide
        have r4 : e.opposite.clockwise = e.counterClockwise := by
          revert he; cases e <;> decide
        obtain ⟨j1, -, t1⟩ := ih _ hc _ c1 hk' hne1
        obtain ⟨j2, -, t2⟩ := ih _ hc _ he hk' hne2
        obtain ⟨j3, -, t3⟩ := ih _ hc _ c3 hk' hne3
        rw [r1] at t1
        rw [r3] at t3
        have t0 : m.nextDart^[1] (v, e) = (stepTo v e, e.clockwise) := m.nextDart_pass v e hp
        have t4 : m.nextDart^[1] (stepTo v e, e.opposite) = (v, e.counterClockwise) := by
          have := m.nextDart_pass (stepTo v e) e.opposite h1
          rw [stepTo_opposite, r4] at this
          exact this
        refine ⟨1 + (j3 + (j2 + (j1 + 1))), by omega, ?_⟩
        exact iterate_chain _ _ _ _ _ _
          (iterate_chain _ _ _ _ _ _
            (iterate_chain _ _ _ _ _ _ (iterate_chain _ _ _ _ _ _ t0 t1) t2) t3) t4
theorem Direction.isCompass_clockwise (d : Direction) (h : d.isCompass = true) :
    d.clockwise.isCompass = true := by
  revert h; cases d <;> decide

theorem Direction.isCompass_counterClockwise (d : Direction) (h : d.isCompass = true) :
    d.counterClockwise.isCompass = true := by
  revert h; cases d <;> decide

theorem Direction.isCompass_opposite (d : Direction) (h : d.isCompass = true) :
    d.opposite.isCompass = true := by
  revert h; cases d <;> decide

theorem ServerMaze.rotate_to (m : ServerMaze) (v : Int × Int) (t : Direction)
    (ht : t.isCompass = true)
    (hrot : ∀ e : Direction, e.isCompass = true → e ≠ t →
      ∃ j, m.nextDart^[j] (v, e) = (v, e.counterClockwise)) :
    ∀ e : Direction, e.isCompass = true → ∃ j, m.nextDart^[j] (v, e) = (v, t) := by
  intro e he
  have c1 : e.counterClockwise.isCompass = true := by revert he; cases e <;> decide
  have c2 : e.counterClockwise.counterClockwise.isCompass = true := by
    revert he; cases e <;> decide
  by_cases h0 : e = t
  · exact ⟨0, by rw [h0]; rfl⟩
  obtain ⟨j1, t1⟩ := hrot e he h0
  by_cases h1 : e.counterClockwise = t
  · exact ⟨j1, by rw [← h1]; exact t1⟩
  obtain ⟨j2, t2⟩ := hrot _ c1 h1
  by_cases h2 : e.counterClockwise.counterClockwise = t
  · exact ⟨j2 + j1, by rw [← h2]; exact iterate_chain _ _ _ _ _ _ t1 t2⟩
  obtain ⟨j3, t3⟩ := hrot _ c2 h2
  have h3 : e.counterClockwise.counterClockwise.counterClockwise = t := by
    revert h0 h1 h2 he ht
    cases e <;> cases t <;> decide
  exact ⟨j3 + (j2 + j1), by
    rw [← h3]; exact iterate_chain _ _ _ _ _ _ (iterate_chain _ _ _ _ _ _ t1 t2) t3⟩

/-- In a rooted maze every (square, direction) pair leads the walker to the pair
`((0, 0), north)`. -/
theorem ServerMaze.leads_to_root (m : ServerMaze) (dep : Int × Int → Nat)
    (par : Int × Int → Option Direction)
    (hbound : ∀ c ∈ m.cells, dep c ≤ m.width * m.height)
    (hpar : ∀ c d, par c = some d → m.pass c d = true ∧ dep (stepTo c d) < dep c)
    (hroot : ∀ c ∈ m.cells, par c = none → c = (0, 0))
    (hedge : ∀ c d, m.pass c d = true → par c = some d ∨ par (stepTo c d) = some d.opposite)
    (n : Nat) :
    ∀ v ∈ m.cells, dep v ≤ n → ∀ e : Direction, e.isCompass = true →
      ∃ j, m.nextDart^[j] (v, e) = ((0, 0), Direction.M_NORTH) := by
  induction n with
  | zero =>
    intro v hv hd e he
    cases hπ : par v with
    | none =>
      have hv0 := hroot v hv hπ
      subst hv0
      refine m.rotate_to _ _ (by decide) (fun e' he' _ => ?_) e he
      obtain ⟨j, -, hj⟩ := m.rotate_one dep par hbound hpar hedge _ _ hv e' he' (le_refl _)
        (by rw [hπ]; exact fun h => Option.noConfusion h)
      exact ⟨j, hj⟩
    | some π =>
      have := (hpar v π hπ).2
      omega
  | succ n ih =>
    intro v hv hd e he
    cases hπ : par v with
    | none =>
      have hv0 := hroot v hv hπ
      subst hv0
      refine m.rotate_to _ _ (by decide) (fun e' he' _ => ?_) e he
      obtain ⟨j, -, hj⟩ := m.rotate_one dep par hbound hpar hedge _ _ hv e' he' (le_refl _)
        (by rw [hπ]; exact fun h => Option.noConfusion h)
      exact ⟨j, hj⟩
    | some π =>
      obtain ⟨p1, p2⟩ := hpar v π hπ
      obtain ⟨j1, t1⟩ := m.rotate_to v π (m.pass_compass v π p1) (fun e' he' hne => by
        obtain ⟨j, -, hj⟩ := m.rotate_one dep par hbound hpar hedge _ v hv e' he' (le_refl _)
          (by rw [hπ]; exact fun h => hne (Option.some.inj h).symm)
        exact ⟨j, hj⟩) e he
      have t2 : m.nextDart^[1] (v, π) = (stepTo v π, π.clockwise) := m.nextDart_pass v π p1
      obtain ⟨j3, t3⟩ := ih (stepTo v π) (m.pass_inGrid v π p1).2 (by omega) π.clockwise
        (by have := m.pass_compass v π p1; revert this; cases π <;> decide)
      exact ⟨j3 + (1 + j1), iterate_chain _ _ _ _ _ _ (iterate_chain _ _ _ _ _ _ t1 t2) t3⟩

theorem ServerMaze.nextDart_injective (m : ServerMaze) : Function.Injective m.nextDart := by
  rintro ⟨c1, d1⟩ ⟨c2, d2⟩ h
  cases h1 : m.pass c1 d1 <;> cases h2 : m.pass c2 d2
  · rw [m.nextDart_wall c1 d1 h1, m.nextDart_wall c2 d2 h2] at h
    simp only [Prod.mk.injEq] at h
    obtain ⟨rfl, hd⟩ := h
    have : d1 = d2 := by revert hd; cases d1 <;> cases d2 <;> decide
    rw [this]
  · exfalso
    rw [m.nextDart_wall c1 d1 h1, m.nextDart_pass c2 d2 h2] at h
    simp only [Prod.mk.injEq] at h
    obtain ⟨rfl, hd⟩ := h
    have hc := m.pass_compass c2 d2 h2
    have : d1 = d2.opposite := by revert hd hc; cases d1 <;> cases d2 <;> decide
    rw [this, m.pass_symm, h2] at h1
    exact Bool.noConfusion h1
  · exfalso
    rw [m.nextDart_pass c1 d1 h1, m.nextDart_wall c2 d2 h2] at h
    simp only [Prod.mk.injEq] at h
    obtain ⟨rfl, hd⟩ := h
    have hc := m.pass_compass c1 d1 h1
    have : d2 = d1.opposite := by revert hd hc; cases d1 <;> cases d2 <;> decide
    rw [this, m.pass_symm, h1] at h2
    exact Bool.noConfusion h2
  · rw [m.nextDart_pass c1 d1 h1, m.nextDart_pass c2 d2 h2] at h
    simp only [Prod.mk.injEq] at h
    obtain ⟨hc, hd⟩ := h
    have : d1 = d2 := by revert hd; cases d1 <;> cases d2 <;> decide
    subst this
    have : c1 = c2 := by
      have h3 := congrArg (fun c => stepTo c d1.opposite) hc
      simpa only [stepTo_opposite] using h3
    rw [this]

theorem ServerMaze.nextDart_mem (m : ServerMaze) (δ : (Int × Int) × Direction)
    (h : δ.1 ∈ m.cells ∧ δ.2.isCompass = true) :
    (m.nextDart δ).1 ∈ m.cells ∧ (m.nextDart δ).2.isCompass = true := by
  obtain ⟨c, d⟩ := δ
  obtain ⟨hc, hd⟩ := h
  cases hp : m.pass c d
  · rw [m.nextDart_wall c d hp]
    exact ⟨hc, d.isCompass_counterClockwise hd⟩
  · rw [m.nextDart_pass c d hp]
    exact ⟨(m.pass_inGrid c d hp).2, d.isCompass_clockwise hd⟩

theorem ServerMaze.iterate_mem (m : ServerMaze) (j : Nat) :
    ∀ δ : (Int × Int) × Direction, (δ.1 ∈ m.cells ∧ δ.2.isCompass = true) →
      ((m.nextDart^[j] δ).1 ∈ m.cells ∧ (m.nextDart^[j] δ).2.isCompass = true) := by
  induction j with
  | zero => intro δ h; exact h
  | succ j ih =>
    intro δ h
    rw [Function.iterate_succ_apply]
    exact ih _ (m.nextDart_mem δ h)

/-- The walker comes back to every (square, direction) pair of the grid it has left. -/
theorem ServerMaze.returns (m : ServerMaze) (δ : (Int × Int) × Direction)
    (h : δ.1 ∈ m.cells ∧ δ.2.isCompass = true) (j : Nat) :
    ∃ k, m.nextDart^[k] (m.nextDart^[j] δ) = δ := by
  classical
  let D : Finset ((Int × Int) × Direction) :=
    m.cells.toFinset ×ˢ ({Direction.M_NORTH, Direction.M_EAST, Direction.M_SOUTH,
      Direction.M_WEST} : Finset Direction)
  have hD : ∀ i, m.nextDart^[i] δ ∈ D := by
    intro i
    obtain ⟨h1, h2⟩ := m.iterate_mem i δ h
    simp only [D, Finset.mem_product, List.mem_toFinset, Finset.mem_insert,
      Finset.mem_singleton]
    refine ⟨h1, ?_⟩
    revert h2
    cases (m.nextDart^[i] δ).2 <;> decide
  obtain ⟨a, -, b, -, hab, heq⟩ :=
    Finset.exists_ne_map_eq_of_card_lt_of_maps_to
      (s := Finset.range (D.card + 1)) (t := D) (by simp)
      (f := fun i => m.nextDart^[i] δ) (fun i _ => hD i)
  -- a positive period
  have hper : ∃ p, 0 < p ∧ m.nextDart^[p] δ = δ := by
    rcases Nat.lt_or_gt_of_ne hab with hlt | hlt
    · refine ⟨b - a, by omega, ?_⟩
      apply (m.nextDart_injective.iterate a)
      rw [← Function.iterate_add_apply]
      have : a + (b - a) = b := by omega
      rw [this]
      exact heq.symm
    · refine ⟨a - b, by omega, ?_⟩
      apply (m.nextDart_injective.iterate b)
      rw [← Function.iterate_add_apply]
      have : b + (a - b) = a := by omega
      rw [this]
      exact heq
  obtain ⟨p, hp0, hp⟩ := hper
  have hmul : ∀ n, m.nextDart^[p * n] δ = δ := by
    intro n
    induction n with
    | zero => rfl
    | succ n ih => rw [Nat.mul_succ, Function.iterate_add_apply, hp, ih]
  refine ⟨p * j - j, ?_⟩
  rw [← Function.iterate_add_apply]
  have : p * j - j + j = p * j := by
    have : j ≤ p * j := Nat.le_mul_of_pos_left j hp0
    omega
  rw [this]
  exact hmul j
/-- Wall following covers a perfect maze: in a perfect maze with at least two squares the
right-hand walker, started on any square in any direction, at some point steps onto any given
square `anchor`. -/
theorem ServerMaze.leads_to_anchor (m : ServerMaze) (hp : m.isPerfect = true)
    (h2 : 2 ≤ m.width * m.height) (anchor : Int × Int) (ha : anchor ∈ m.cells)
    (δ : (Int × Int) × Direction) (hδ : δ.1 ∈ m.cells ∧ δ.2.isCompass = true) :
    ∃ j, m.entersAt anchor (m.nextDart^[j] δ) := by
  obtain ⟨dep, par, hbound, hpar, hroot, hedge⟩ := m.exists_rooted hp
  -- the root has a passage
  have hrootpass : ∀ n, ∀ c ∈ m.cells, dep c ≤ n → c ≠ (0, 0) →
      ∃ a, m.pass (0, 0) a = true := by
    intro n
    induction n with
    | zero =>
      intro c hc hd hne
      cases hπ : par c with
      | none => exact absurd (hroot c hc hπ) hne
      | some π => have := (hpar c π hπ).2; omega
    | succ n ih =>
      intro c hc hd hne
      cases hπ : par c with
      | none => exact absurd (hroot c hc hπ) hne
      | some π =>
        obtain ⟨p1, p2⟩ := hpar c π hπ
        by_cases hu : stepTo c π = (0, 0)
        · exact ⟨π.opposite, by rw [← hu, m.pass_symm]; exact p1⟩
        · exact ih _ (m.pass_inGrid c π p1).2 (by omega) hu
  have hother : ∃ c ∈ m.cells, c ≠ ((0 : Int), (0 : Int)) := by
    by_cases hw : 2 ≤ m.width
    · refine ⟨(1, 0), ?_, by simp⟩
      rw [ServerMaze.mem_cells]
      have : 0 < m.height := Nat.pos_of_mul_pos_left (by omega : 0 < m.width * m.height)
      simp only [ServerMaze.inGrid, Bool.and_eq_true, decide_eq_true_eq]
      omega
    · refine ⟨(0, 1), ?_, by simp⟩
      rw [ServerMaze.mem_cells]
      have hw0 : 0 < m.width := Nat.pos_of_mul_pos_right (by omega : 0 < m.width * m.height)
      have hw1 : m.width = 1 := by omega
      rw [hw1] at h2
      simp only [ServerMaze.inGrid, Bool.and_eq_true, decide_eq_true_eq]
      omega
  have hapass : ∃ a, m.pass anchor a = true := by
    cases hπ : par anchor with
    | some π => exact ⟨π, (hpar anchor π hπ).1⟩
    | none =>
      rw [hroot anchor ha hπ]
      obtain ⟨c, hc, hne⟩ := hother
      exact hrootpass _ c hc (le_refl _) hne
  obtain ⟨a, hpa⟩ := hapass
  have hac := m.pass_compass anchor a hpa
  have hε : m.entersAt anchor (stepTo anchor a, a.opposite) :=
    ⟨by rw [m.pass_symm]; exact hpa, stepTo_opposite anchor a⟩
  have hεD : (stepTo anchor a, a.opposite).1 ∈ m.cells ∧
      (stepTo anchor a, a.opposite).2.isCompass = true :=
    ⟨(m.pass_inGrid anchor a hpa).2, a.isCompass_opposite hac⟩
  obtain ⟨j0, t0⟩ := m.leads_to_root dep par hbound hpar hroot hedge _ δ.1 hδ.1 (le_refl _)
    δ.2 hδ.2
  obtain ⟨i, ti⟩ := m.leads_to_root dep par hbound hpar hroot hedge _ _ hεD.1 (le_refl _)
    _ hεD.2
  obtain ⟨k, tk⟩ := m.returns _ hεD i
  rw [ti] at tk
  refine ⟨k + j0, ?_⟩
  rw [Function.iterate_add_apply, t0, tk]
  exact hε
theorem SetMazeSquareSide_self (g : Globals) (x y : Int) (d : Direction) (mode : Int)
    (hd : d.isCompass = true) :
    ConvertDirection (SetMazeSquareSide g x y d mode) x y d = mode := by
  have e1 : ¬ y = y - 1 := by omega
  have e2 : ¬ y = y + 1 := by omega
  have e3 : ¬ x = x - 1 := by omega
  have e4 : ¬ x = x + 1 := by omega
  cases d
  case M_NULL_MOVE => exact absurd hd (by decide)
  all_goals
    simp only [SetMazeSquareSide, ConvertDirection, reduceCtorEq, if_true, if_false]
    split_ifs <;> simp [setNorth, setSouth, setEast, setWest, setSquare, e1, e2, e3, e4]

theorem SetMazeSquareSide_cases (g : Globals) (x y : Int) (d : Direction) (mode : Int)
    (hd : d.isCompass = true) (i j : Int) (e : Direction) (he : e.isCompass = true) :
    ConvertDirection (SetMazeSquareSide g x y d mode) i j e = ConvertDirection g i j e ∨
    (ConvertDirection (SetMazeSquareSide g x y d mode) i j e = mode ∧
      (((i, j) = (x, y) ∧ e = d) ∨ ((i, j) = stepTo (x, y) d ∧ e = d.opposite))) := by
  cases d <;> cases e <;>
    first
      | exact absurd he (by decide)
      | exact absurd hd (by decide)
      | skip
  all_goals
    simp only [SetMazeSquareSide, ConvertDirection, reduceCtorEq, if_true, if_false, stepTo,
      neighbourX, neighbourY, Direction.opposite, and_true, and_false, or_false, false_or,
      Prod.mk.injEq]
    split_ifs <;>
    simp only [setNorth, setSouth, setEast, setWest, setSquare] <;>
    split_ifs <;> simp_all
theorem Sound.setSide (m : ServerMaze) (g : Globals) (c : Int × Int) (d : Direction)
    (mode : Int) (hd : d.isCompass = true)
    (h : (mode = 0 ∧ m.pass c d = false) ∨ (mode = 1 ∧ m.pass c d = true))
    (hs : Sound m g) : Sound m (SetMazeSquareSide g c.1 c.2 d mode) := by
  intro c' hc' e he
  rcases SetMazeSquareSide_cases g c.1 c.2 d mode hd c'.1 c'.2 e he with h1 | ⟨h1, hloc⟩
  · rw [h1]; exact hs c' hc' e he
  · have hpass : m.pass c' e = m.pass c d := by
      rcases hloc with ⟨h2, h3⟩ | ⟨h2, h3⟩
      · have : c' = c := h2
        rw [this, h3]
      · have : c' = stepTo c d := h2
        rw [this, h3, m.pass_symm]
    rw [h1, hpass]
    rcases h with ⟨hm, hp⟩ | ⟨hm, hp⟩
    · rw [hm, hp]; exact ⟨fun h => Bool.noConfusion h, fun _ => Or.inr rfl⟩
    · rw [hm, hp]; exact ⟨fun _ => Or.inr rfl, fun h => Bool.noConfusion h⟩

theorem ServerMaze.mem_darts (m : ServerMaze) (δ : (Int × Int) × Direction) :
    δ ∈ m.darts ↔ δ.1 ∈ m.cells ∧ δ.2.isCompass = true := by
  obtain ⟨c, d⟩ := δ
  unfold ServerMaze.darts
  rw [List.mem_flatMap]
  constructor
  · rintro ⟨a, ha, hb⟩
    rw [List.mem_map] at hb
    obtain ⟨b, hb, heq⟩ := hb
    simp only [Prod.mk.injEq] at heq
    obtain ⟨rfl, rfl⟩ := heq
    refine ⟨ha, ?_⟩
    simp only [List.mem_cons, List.mem_singleton, List.not_mem_nil, or_false] at hb
    rcases hb with rfl | rfl | rfl | rfl <;> rfl
  · rintro ⟨hc, hd⟩
    refine ⟨c, hc, ?_⟩
    rw [List.mem_map]
    refine ⟨d, ?_, rfl⟩
    revert hd
    cases d <;> simp [Direction.isCompass]

theorem countP_lt_of_imp {α : Type} (p q : α → Bool) (l : List α)
    (himp : ∀ x ∈ l, q x = true → p x = true) (a : α) (ha : a ∈ l) (hp : p a = true)
    (hq : q a = false) : l.countP q < l.countP p := by
  induction l with
  | nil => exact absurd ha (List.not_mem_nil a)
  | cons b l ih =>
    have hle : l.countP q ≤ l.countP p :=
      List.countP_mono_left (fun x hx => himp x (List.mem_cons_of_mem b hx))
    rcases List.mem_cons.1 ha with rfl | hmem
    · rw [List.countP_cons_of_pos _ _ hp, List.countP_cons_of_neg _ _ (by rw [hq]; decide)]
      omega
    · have := ih (fun x hx => himp x (List.mem_cons_of_mem b hx)) hmem
      by_cases hqb : q b = true
      · rw [List.countP_cons_of_pos _ _ hqb,
          List.countP_cons_of_pos _ _ (himp b (List.mem_cons_self b l) hqb)]
        omega
      · rw [List.countP_cons_of_neg _ _ hqb]
        by_cases hpb : p b = true
        · rw [List.countP_cons_of_pos _ _ hpb]; omega
        · rw [List.countP_cons_of_neg _ _ hpb]; exact this

theorem unknownCount_setSide_le (m : ServerMaze) (g : Globals) (x y : Int) (d : Direction)
    (mode : Int) (hd : d.isCompass = true) (hmode : mode = 0 ∨ mode = 1) :
    unknownCount m (SetMazeSquareSide g x y d mode) ≤ unknownCount m g := by
  unfold unknownCount
  apply List.countP_mono_left
  intro δ hδ h
  have he := ((m.mem_darts δ).1 hδ).2
  simp only [beq_iff_eq] at h ⊢
  rcases SetMazeSquareSide_cases g x y d mode hd δ.1.1 δ.1.2 δ.2 he with h1 | ⟨h1, -⟩
  · rw [← h1]; exact h
  · rw [h1] at h
    rcases hmode with h0 | h0 <;> rw [h0] at h <;> exact absurd h (by decide)

theorem unknownCount_setSide_lt (m : ServerMaze) (g : Globals) (c : Int × Int)
    (d : Direction) (mode : Int) (hc : c ∈ m.cells) (hd : d.isCompass = true)
    (hmode : mode = 0 ∨ mode = 1) (hunk : ConvertDirection g c.1 c.2 d = -1) :
    unknownCount m (SetMazeSquareSide g c.1 c.2 d mode) < unknownCount m g := by
  unfold unknownCount
  refine countP_lt_of_imp _ _ _ ?_ (c, d) ((m.mem_darts (c, d)).2 ⟨hc, hd⟩) ?_ ?_
  · intro δ hδ h
    have he := ((m.mem_darts δ).1 hδ).2
    simp only [beq_iff_eq] at h ⊢
    rcases SetMazeSquareSide_cases g c.1 c.2 d mode hd δ.1.1 δ.1.2 δ.2 he with h1 | ⟨h1, -⟩
    · rw [← h1]; exact h
    · rw [h1] at h
      rcases hmode with h0 | h0 <;> rw [h0] at h <;> exact absurd h (by decide)
  · simp only [beq_iff_eq]; exact hunk
  · simp only [SetMazeSquareSide_self g c.1 c.2 d mode hd]
    rcases hmode with h0 | h0 <;> rw [h0] <;> decide
theorem ValidFrame.facts (s : AvatarState) (h : ValidFrame s) :
    s.straight.isCompass = true ∧ s.right.isCompass = true ∧ s.backward.isCompass = true ∧
    s.left.isCompass = true ∧ s.right ≠ s.straight ∧ s.left ≠ s.straight ∧
    s.backward ≠ s.straight ∧ s.right ≠ s.left ∧ s.right ≠ s.backward ∧
    s.left ≠ s.backward := by
  obtain ⟨h1, h2, h3, h4⟩ := h
  rw [h2, h3, h4]
  revert h1
  cases s.straight <;> decide

theorem failedMoveLadder_cases (s : AvatarState) (g : Globals) (h : ValidFrame s) :
    (s.upcomingMove = s.right →
      failedMoveLadder s g =
        if sideFree g s.prevX s.prevY s.straight = true then s.straight else s.backward) ∧
    (s.upcomingMove = s.straight →
      failedMoveLadder s g =
        if sideFree g s.prevX s.prevY s.left = true then s.left else s.backward) ∧
    (s.upcomingMove = s.left → failedMoveLadder s g = s.backward) ∧
    (s.upcomingMove = s.backward → failedMoveLadder s g = s.right) := by
  obtain ⟨-, -, -, -, n1, n2, n3, n4, n5, n6⟩ := h.facts
  unfold failedMoveLadder
  refine ⟨fun hu => ?_, fun hu => ?_, fun hu => ?_, fun hu => ?_⟩ <;> rw [hu]
  · by_cases hf : sideFree g s.prevX s.prevY s.straight = true
    · simp only [hf, and_self, if_true]
    · simp [hf, n1, n5]
  · by_cases hf : sideFree g s.prevX s.prevY s.left = true
    · simp only [Ne.symm n1, false_and, if_false, hf, and_self, if_true]
    · simp [Ne.symm n1, hf, Ne.symm n3]
  · simp only [Ne.symm n4, false_and, if_false, n2, n6]
  · simp only [Ne.symm n5, false_and, if_false, n3, if_true]

theorem onFailedMove_eq (s : AvatarState) (g : Globals) (hfi : s.firstIteration = false) :
    onFailedMove s g =
      ({ s with upcomingMove :=
          failedMoveLadder s (SetMazeSquareSide g s.prevX s.prevY s.upcomingMove 0) },
        SetMazeSquareSide g s.prevX s.prevY s.upcomingMove 0) := by
  have hs : { s with firstIteration := false } = s := by
    cases s; simp only at hfi; rw [hfi]
  unfold onFailedMove
  simp only [hfi, if_true, hs]

theorem recordBaseline_later (s : AvatarState) (t : AvatarTurn)
    (hfi : s.firstIteration = false) : recordBaseline s t = s := by
  unfold recordBaseline
  rw [hfi]
  simp only [Bool.false_eq_true, if_false]

theorem ServerMaze.move_wall (m : ServerMaze) (c : Int × Int) (d : Direction)
    (h : m.pass c d = false) : m.move { x := c.1, y := c.2 } d = { x := c.1, y := c.2 } := by
  unfold ServerMaze.move
  rw [if_neg]
  simpa [ServerMaze.pass] using h

theorem ServerMaze.move_pass (m : ServerMaze) (c : Int × Int) (d : Direction)
    (h : m.pass c d = true) :
    m.move { x := c.1, y := c.2 } d = { x := (stepTo c d).1, y := (stepTo c d).2 } := by
  unfold ServerMaze.move
  rw [if_pos]
  · rfl
  · simpa [ServerMaze.pass] using h

theorem stepTo_ne (c : Int × Int) (d : Direction) (hd : d.isCompass = true) :
    ¬ ((stepTo c d).1 = c.1 ∧ (stepTo c d).2 = c.2) := by
  obtain ⟨x, y⟩ := c
  cases d <;> simp only [stepTo, neighbourX, neighbourY] <;>
    first
      | exact absurd hd (by decide)
      | omega

theorem Tracking.compass (m : ServerMaze) (s : AvatarState) (g : Globals)
    (hv : ValidFrame s) (ht : Tracking m s g) :
    s.upcomingMove.isCompass = true ∧
    (m.pass (s.prevX, s.prevY) s.upcomingMove = true ∨
      ConvertDirection g s.prevX s.prevY s.upcomingMove = -1) := by
  obtain ⟨f1, f2, f3, f4, -⟩ := hv.facts
  rcases ht with ⟨-, hu, hj⟩ | ⟨hu, h1, -⟩ | ⟨hu, -, h1, -⟩ | ⟨hu, -, -, h1, -⟩ |
    ⟨hu, -, -, -, h1⟩
  · refine ⟨?_, hj⟩
    rcases hu with h | h | h | h <;> rw [h] <;> assumption
  · rw [hu]; exact ⟨f1, Or.inr h1⟩
  · rw [hu]; exact ⟨f4, Or.inr h1⟩
  · rw [hu]; exact ⟨f3, Or.inr h1⟩
  · rw [hu]; exact ⟨f2, Or.inr h1⟩
theorem sideFree_of_unknown (g : Globals) (x y : Int) (d : Direction)
    (h : ConvertDirection g x y d = -1) : sideFree g x y d = true := by
  unfold sideFree
  rw [h]
  decide

theorem Sound.of_sideFree (m : ServerMaze) (g : Globals) (hs : Sound m g) (c : Int × Int)
    (hc : c ∈ m.cells) (d : Direction) (hd : d.isCompass = true)
    (h : sideFree g c.1 c.2 d = true) :
    m.pass c d = true ∨ ConvertDirection g c.1 c.2 d = -1 := by
  unfold sideFree at h
  simp only [Bool.or_eq_true, beq_iff_eq] at h
  rcases h with h | h
  · exact Or.inr h
  · left
    cases hp : m.pass c d
    · rcases (hs c hc d hd).2 hp with h' | h' <;> rw [h] at h' <;> exact absurd h' (by decide)
    · rfl

theorem Sound.wall_of_not_sideFree (m : ServerMaze) (g : Globals) (hs : Sound m g)
    (c : Int × Int) (hc : c ∈ m.cells) (d : Direction) (hd : d.isCompass = true)
    (h : ¬ sideFree g c.1 c.2 d = true) : m.pass c d = false := by
  cases hp : m.pass c d
  · rfl
  · exfalso
    apply h
    unfold sideFree
    rcases (hs c hc d hd).1 hp with h' | h' <;> rw [h'] <;> decide

theorem moverTurn_eq_failed (m : ServerMaze) (anchor : XYPos) (s : AvatarState)
    (g : Globals) (p : XYPos) (hid : s.avatarId = 1) (hfi : s.firstIteration = false)
    (hnull : s.upcomingMove ≠ Direction.M_NULL_MOVE)
    (hp : p = { x := s.prevX, y := s.prevY }) :
    moverTurn m anchor (s, g, p) =
      ({ s with upcomingMove :=
          failedMoveLadder s (SetMazeSquareSide g s.prevX s.prevY s.upcomingMove 0) },
        SetMazeSquareSide g s.prevX s.prevY s.upcomingMove 0,
        m.move p
          (failedMoveLadder s (SetMazeSquareSide g s.prevX s.prevY s.upcomingMove 0))) := by
  unfold moverTurn
  simp only
  rw [recordBaseline_later s _ hfi, ownTurn_failed s g _ hnull (by rw [hid, hp]; exact ⟨rfl, rfl⟩),
    onFailedMove_eq s g hfi]
  rfl

/-- A failed move: the invariant is kept and one more side of the grid is known. -/
theorem moverTurn_failed (m : ServerMaze) (anchor : XYPos) (s : AvatarState) (g : Globals)
    (p : XYPos) (hinv : MoverInv m (s, g, p))
    (hsome : ∃ a, m.pass (s.prevX, s.prevY) a = true)
    (hfail : m.pass (s.prevX, s.prevY) s.upcomingMove = false) :
    MoverInv m (moverTurn m anchor (s, g, p)) ∧
    unknownCount m (moverTurn m anchor (s, g, p)).2.1 < unknownCount m g := by
  obtain ⟨hid, hfi, hv, hc, hp, hs, ht⟩ := hinv
  simp only at hid hfi hv hc hp hs ht
  obtain ⟨hcomp, hj⟩ := Tracking.compass m s g hv ht
  have hnull : s.upcomingMove ≠ Direction.M_NULL_MOVE := by
    intro h; rw [h] at hcomp; exact absurd hcomp (by decide)
  have hunk : ConvertDirection g s.prevX s.prevY s.upcomingMove = -1 := by
    rcases hj with h | h
    · rw [hfail] at h; exact Bool.noConfusion h
    · exact h
  have hp' : p = { x := s.prevX, y := s.prevY } := by
    rw [hp]; exact m.move_wall (s.prevX, s.prevY) _ hfail
  rw [moverTurn_eq_failed m anchor s g p hid hfi hnull hp']
  have hs1 : Sound m (SetMazeSquareSide g s.prevX s.prevY s.upcomingMove 0) :=
    Sound.setSide m g (s.prevX, s.prevY) s.upcomingMove 0 hcomp (Or.inl ⟨rfl, hfail⟩) hs
  refine ⟨⟨hid, hfi, hv, hc, ?_, hs1, ?_⟩,
    unknownCount_setSide_lt m g (s.prevX, s.prevY) s.upcomingMove 0 hc hcomp (Or.inl rfl) hunk⟩
  · simp only
    rw [hp']
  · obtain ⟨f1, f2, f3, f4, n1, n2, n3, n4, n5, n6⟩ := hv.facts
    obtain ⟨l1, l2, l3, l4⟩ :=
      failedMoveLadder_cases s (SetMazeSquareSide g s.prevX s.prevY s.upcomingMove 0) hv
    have keep : ∀ e : Direction, e.isCompass = true → s.upcomingMove ≠ e →
        ConvertDirection g s.prevX s.prevY e = -1 →
        ConvertDirection (SetMazeSquareSide g s.prevX s.prevY s.upcomingMove 0)
          s.prevX s.prevY e = -1 := by
      intro e he hne h
      rw [SetMazeSquareSide_other_side g s.prevX s.prevY s.upcomingMove e 0 hcomp he hne]
      exact h
    simp only
    rcases ht with ⟨hb, hu, -⟩ | ⟨hu, -, u2, u3, u4⟩ | ⟨hu, w1, -, u3, u4⟩ |
      ⟨hu, w1, w2, -, u4⟩ | ⟨hu, w1, w2, w3, -⟩
    · -- came from behind
      rcases hu with hu | hu | hu | hu
      · rw [l1 hu]
        split_ifs with hf
        · exact Or.inl ⟨hb, Or.inr (Or.inl rfl), Sound.of_sideFree m _ hs1 _ hc _ f1 hf⟩
        · exact Or.inl ⟨hb, Or.inr (Or.inr (Or.inr rfl)), Or.inl hb⟩
      · rw [l2 hu]
        split_ifs with hf
        · exact Or.inl ⟨hb, Or.inr (Or.inr (Or.inl rfl)), Sound.of_sideFree m _ hs1 _ hc _ f4 hf⟩
        · exact Or.inl ⟨hb, Or.inr (Or.inr (Or.inr rfl)), Or.inl hb⟩
      · rw [l3 hu]
        exact Or.inl ⟨hb, Or.inr (Or.inr (Or.inr rfl)), Or.inl hb⟩
      · rw [hu, hb] at hfail
        exact Bool.noConfusion hfail
    · -- first square, straight failed
      rw [l2 hu, if_pos (sideFree_of_unknown _ _ _ _ (keep _ f4 (by rw [hu]; exact Ne.symm n2) u2))]
      refine Or.inr (Or.inr (Or.inl ⟨rfl, by rw [← hu]; exact hfail, ?_, ?_, ?_⟩))
      · exact keep _ f4 (by rw [hu]; exact Ne.symm n2) u2
      · exact keep _ f3 (by rw [hu]; exact Ne.symm n3) u3
      · exact keep _ f2 (by rw [hu]; exact Ne.symm n1) u4
    · -- first square, left failed
      rw [l3 hu]
      refine Or.inr (Or.inr (Or.inr (Or.inl ⟨rfl, w1, by rw [← hu]; exact hfail, ?_, ?_⟩)))
      · exact keep _ f3 (by rw [hu]; exact n6) u3
      · exact keep _ f2 (by rw [hu]; exact Ne.symm n4) u4
    · -- first square, backward failed
      rw [l4 hu]
      refine Or.inr (Or.inr (Or.inr (Or.inr ⟨rfl, w1, w2, by rw [← hu]; exact hfail, ?_⟩)))
      exact keep _ f2 (by rw [hu]; exact Ne.symm n5) u4
    · -- first square, all four sides are walls
      exfalso
      obtain ⟨a, ha⟩ := hsome
      have hac := m.pass_compass _ a ha
      have h4 : m.pass (s.prevX, s.prevY) s.right = false := by rw [← hu]; exact hfail
      have hcover : a = s.straight ∨ a = s.right ∨ a = s.backward ∨ a = s.left := by
        obtain ⟨v1, v2, v3, v4⟩ := hv
        rw [v2, v3, v4]
        revert v1 hac
        cases s.straight <;> cases a <;> decide
      rcases hcover with h | h | h | h <;> rw [h] at ha
      · rw [w1] at ha; exact Bool.noConfusion ha
      · rw [h4] at ha; exact Bool.noConfusion ha
      · rw [w3] at ha; exact Bool.noConfusion ha
      · rw [w2] at ha; exact Bool.noConfusion ha
theorem ServerMaze.closer_next (m : ServerMaze) (anchor : Int × Int)
    (δ : (Int × Int) × Direction) (h : ¬ m.entersAt anchor δ) :
    m.closer anchor δ (m.nextDart δ) := by
  intro j hj
  cases j with
  | zero => exact absurd hj h
  | succ j => exact ⟨j, Nat.lt_succ_self j, by rw [← Function.iterate_succ_apply]; exact hj⟩

theorem ServerMaze.closer_trans (m : ServerMaze) (anchor : Int × Int)
    (δ1 δ2 δ3 : (Int × Int) × Direction) (h12 : m.closer anchor δ1 δ2)
    (h23 : m.closer anchor δ2 δ3) : m.closer anchor δ1 δ3 := by
  intro j hj
  obtain ⟨j2, l2, e2⟩ := h12 j hj
  obtain ⟨j3, l3, e3⟩ := h23 j2 e2
  exact ⟨j3, Nat.lt_trans l3 l2, e3⟩

theorem ServerMaze.closer_wall (m : ServerMaze) (anchor : Int × Int) (c : Int × Int)
    (d : Direction) (h : m.pass c d = false) :
    m.closer anchor (c, d) (c, d.counterClockwise) := by
  have := m.closer_next anchor (c, d) (fun he => by
    have h1 : m.pass c d = true := he.1
    rw [h] at h1
    exact Bool.noConfusion h1)
  rw [m.nextDart_wall c d h] at this
  exact this

theorem movedLadder_cases (s : AvatarState) (g : Globals) (hv : ValidFrame s)
    (hu : s.upcomingMove = s.straight) :
    movedLadder s g =
      if sideFree g s.prevX s.prevY s.right = true then s.right
      else if sideFree g s.prevX s.prevY s.straight = true then s.straight
      else if sideFree g s.prevX s.prevY s.left = true then s.left
      else s.backward := by
  obtain ⟨-, -, -, -, -, -, n3, -⟩ := hv.facts
  unfold movedLadder
  rw [hu, if_neg (Ne.symm n3)]

theorem setRelativeDirections_avatarId (s : AvatarState) :
    (setRelativeDirections s).avatarId = s.avatarId ∧
    (setRelativeDirections s).firstIteration = s.firstIteration ∧
    (setRelativeDirections s).prevX = s.prevX ∧
    (setRelativeDirections s).prevY = s.prevY := by
  unfold setRelativeDirections
  simp only
  split_ifs <;> exact ⟨rfl, rfl, rfl, rfl⟩

theorem moverTurn_eq_moved (m : ServerMaze) (anchor : XYPos) (s : AvatarState)
    (g : Globals) (p : XYPos) (hid : s.avatarId = 1) (hfi : s.firstIteration = false)
    (hnull : s.upcomingMove ≠ Direction.M_NULL_MOVE)
    (hp : ¬ (p.x = s.prevX ∧ p.y = s.prevY)) :
    moverTurn m anchor (s, g, p) =
      ((onMoved s g { TurnId := 1, Pos := fun i => if i = 0 then anchor else p } p.x p.y).1,
        SetMazeSquareSide g s.prevX s.prevY s.upcomingMove 1,
        m.move p (onMoved s g { TurnId := 1, Pos := fun i => if i = 0 then anchor else p }
          p.x p.y).1.upcomingMove) := by
  unfold moverTurn
  simp only
  rw [recordBaseline_later s _ hfi, ownTurn_moved s g _ hnull (by rw [hid]; exact hp)]
  simp only [hid, onMoved_globals]
  rfl
theorem onMoved_fields (s : AvatarState) (g : Globals) (t : AvatarTurn) (x y : Int)
    (h : s.upcomingMove.isCompass = true)
    (hnot0 : ¬ (x = (t.Pos 0).x ∧ y = (t.Pos 0).y)) :
    (onMoved s g t x y).1.avatarId = s.avatarId ∧
    (onMoved s g t x y).1.firstIteration = s.firstIteration ∧
    (onMoved s g t x y).1.straight = s.upcomingMove ∧
    (onMoved s g t x y).1.right = s.upcomingMove.clockwise ∧
    (onMoved s g t x y).1.backward = s.upcomingMove.opposite ∧
    (onMoved s g t x y).1.left = s.upcomingMove.counterClockwise ∧
    (onMoved s g t x y).1.prevX = x ∧
    (onMoved s g t x y).1.prevY = y ∧
    (onMoved s g t x y).1.upcomingMove =
      (if sideFree (SetMazeSquareSide g s.prevX s.prevY s.upcomingMove 1) x y
          s.upcomingMove.clockwise = true then s.upcomingMove.clockwise
        else if sideFree (SetMazeSquareSide g s.prevX s.prevY s.upcomingMove 1) x y
          s.upcomingMove = true then s.upcomingMove
        else if sideFree (SetMazeSquareSide g s.prevX s.prevY s.upcomingMove 1) x y
          s.upcomingMove.counterClockwise = true then s.upcomingMove.counterClockwise
        else s.upcomingMove.opposite) := by
  obtain ⟨h1, h2, h3, h4, h5, h6, h7, h8, h9, h10⟩ :=
    setRelativeDirections_frame
      { s with prevX := x, prevY := y, moveNumber := s.moveNumber + 1 } h
  simp only at h1 h2 h3 h4 h5 h6 h7 h8 h9 h10
  have hv : ValidFrame (setRelativeDirections
      { s with prevX := x, prevY := y, moveNumber := s.moveNumber + 1 }) := by
    refine ⟨by rw [h2]; exact h, by rw [h3, h2], by rw [h4, h2], by rw [h5, h2]⟩
  have hl := movedLadder_cases _ (SetMazeSquareSide g s.prevX s.prevY s.upcomingMove 1) hv
    (by rw [h6, h2])
  rw [h2, h3, h4, h5, h7, h8] at hl
  unfold onMoved
  simp only [if_neg hnot0]
  exact ⟨h9, h10, h2, h3, h4, h5, h7, h8, hl⟩

theorem ServerMaze.move_null (m : ServerMaze) (p : XYPos) :
    m.move p Direction.M_NULL_MOVE = p := by
  simp [ServerMaze.move, ServerMaze.passage]

/-- A successful move: either the avatar has arrived on the square of avatar 0 and freezes,
or the invariant is kept, no side becomes Unknown again and the avatar is nearer to the
anchor along the wall-following tour. -/
theorem moverTurn_moved (m : ServerMaze) (anchor : XYPos) (s : AvatarState) (g : Globals)
    (p : XYPos) (hinv : MoverInv m (s, g, p))
    (hpass : m.pass (s.prevX, s.prevY) s.upcomingMove = true) :
    (p = anchor →
      (moverTurn m anchor (s, g, p)).1.upcomingMove = Direction.M_NULL_MOVE ∧
      (moverTurn m anchor (s, g, p)).2.2 = anchor) ∧
    (p ≠ anchor →
      MoverInv m (moverTurn m anchor (s, g, p)) ∧
      unknownCount m (moverTurn m anchor (s, g, p)).2.1 ≤ unknownCount m g ∧
      m.closer (anchor.x, anchor.y) ((s.prevX, s.prevY), s.upcomingMove)
        (((moverTurn m anchor (s, g, p)).1.prevX, (moverTurn m anchor (s, g, p)).1.prevY),
          (moverTurn m anchor (s, g, p)).1.upcomingMove)) := by
  obtain ⟨hid, hfi, hv, hc, hp, hs, ht⟩ := hinv
  simp only at hid hfi hv hc hp hs ht
  obtain ⟨hcomp, -⟩ := Tracking.compass m s g hv ht
  have hnull : s.upcomingMove ≠ Direction.M_NULL_MOVE := by
    intro h; rw [h] at hcomp; exact absurd hcomp (by decide)
  rw [m.move_pass (s.prevX, s.prevY) _ hpass] at hp
  have hpx : p.x = (stepTo (s.prevX, s.prevY) s.upcomingMove).1 := by rw [hp]
  have hpy : p.y = (stepTo (s.prevX, s.prevY) s.upcomingMove).2 := by rw [hp]
  have hcell : (p.x, p.y) = stepTo (s.prevX, s.prevY) s.upcomingMove := by rw [hpx, hpy]
  have hdiff : ¬ (p.x = s.prevX ∧ p.y = s.prevY) := by
    rw [hpx, hpy]
    exact stepTo_ne (s.prevX, s.prevY) s.upcomingMove hcomp
  rw [moverTurn_eq_moved m anchor s g p hid hfi hnull hdiff]
  have hs1 : Sound m (SetMazeSquareSide g s.prevX s.prevY s.upcomingMove 1) :=
    Sound.setSide m g (s.prevX, s.prevY) s.upcomingMove 1 hcomp (Or.inr ⟨rfl, hpass⟩) hs
  have hc' : (p.x, p.y) ∈ m.cells := by
    rw [hcell]; exact (m.pass_inGrid _ _ hpass).2
  refine ⟨fun hpa => ?_, fun hpa => ?_⟩
  · have : (onMoved s g { TurnId := 1, Pos := fun i => if i = 0 then anchor else p }
        p.x p.y).1.upcomingMove = Direction.M_NULL_MOVE := by
      unfold onMoved
      simp only [if_true, hpa, and_self]
    simp only [this, m.move_null]
    exact ⟨trivial, hpa⟩
  · have hnot0 : ¬ (p.x = ((fun i : Nat => if i = 0 then anchor else p) 0).x ∧
        p.y = ((fun i : Nat => if i = 0 then anchor else p) 0).y) := by
      simp only [if_true]
      intro h
      apply hpa
      cases p; cases anchor
      simp only at h
      rw [h.1, h.2]
    obtain ⟨r1, r2, r3, r4, r5, r6, r7, r8, r9⟩ :=
      onMoved_fields s g { TurnId := 1, Pos := fun i => if i = 0 then anchor else p } p.x p.y
        hcomp hnot0
    generalize (onMoved s g { TurnId := 1, Pos := fun i => if i = 0 then anchor else p }
        p.x p.y).1 = r at r1 r2 r3 r4 r5 r6 r7 r8 r9
    have hback : m.pass (p.x, p.y) s.upcomingMove.opposite = true := by
      rw [hcell, m.pass_symm]; exact hpass
    have cR := s.upcomingMove.isCompass_clockwise hcomp
    have cL := s.upcomingMove.isCompass_counterClockwise hcomp
    have cB := s.upcomingMove.isCompass_opposite hcomp
    have rot1 : s.upcomingMove.clockwise.counterClockwise = s.upcomingMove := by
      revert hcomp; cases s.upcomingMove <;> decide
    have rot2 : s.upcomingMove.counterClockwise.counterClockwise = s.upcomingMove.opposite := by
      revert hcomp; cases s.upcomingMove <;> decide
    have hnotentry : ¬ m.entersAt (anchor.x, anchor.y) ((s.prevX, s.prevY), s.upcomingMove) := by
      rintro ⟨-, h2⟩
      apply hpa
      simp only at h2
      rw [← hcell] at h2
      cases p; cases anchor
      simp only [Prod.mk.injEq] at h2
      simp only [XYPos.mk.injEq]
      exact h2
    have k0 : m.closer (anchor.x, anchor.y) ((s.prevX, s.prevY), s.upcomingMove)
        ((p.x, p.y), s.upcomingMove.clockwise) := by
      have := m.closer_next _ _ hnotentry
      rw [m.nextDart_pass _ _ hpass, ← hcell] at this
      exact this
    have key : (m.pass (p.x, p.y) r.upcomingMove = true ∨
          ConvertDirection (SetMazeSquareSide g s.prevX s.prevY s.upcomingMove 1)
            p.x p.y r.upcomingMove = -1) ∧
        (r.upcomingMove = r.right ∨ r.upcomingMove = r.straight ∨ r.upcomingMove = r.left ∨
          r.upcomingMove = r.backward) ∧
        m.closer (anchor.x, anchor.y) ((s.prevX, s.prevY), s.upcomingMove)
          ((p.x, p.y), r.upcomingMove) := by
      rw [r9, r3, r4, r5, r6]
      split_ifs with f1 f2 f3
      · exact ⟨Sound.of_sideFree m _ hs1 _ hc' _ cR f1, Or.inl rfl, k0⟩
      · have w1 := Sound.wall_of_not_sideFree m _ hs1 _ hc' _ cR f1
        have k1 := m.closer_wall (anchor.x, anchor.y) _ _ w1
        rw [rot1] at k1
        exact ⟨Sound.of_sideFree m _ hs1 _ hc' _ hcomp f2, Or.inr (Or.inl rfl),
          m.closer_trans _ _ _ _ k0 k1⟩
      · have w1 := Sound.wall_of_not_sideFree m _ hs1 _ hc' _ cR f1
        have k1 := m.closer_wall (anchor.x, anchor.y) _ _ w1
        rw [rot1] at k1
        have w2 := Sound.wall_of_not_sideFree m _ hs1 _ hc' _ hcomp f2
        have k2 := m.closer_wall (anchor.x, anchor.y) _ _ w2
        exact ⟨Sound.of_sideFree m _ hs1 _ hc' _ cL f3, Or.inr (Or.inr (Or.inl rfl)),
          m.closer_trans _ _ _ _ (m.closer_trans _ _ _ _ k0 k1) k2⟩
      · have w1 := Sound.wall_of_not_sideFree m _ hs1 _ hc' _ cR f1
        have k1 := m.closer_wall (anchor.x, anchor.y) _ _ w1
        rw [rot1] at k1
        have w2 := Sound.wall_of_not_sideFree m _ hs1 _ hc' _ hcomp f2
        have k2 := m.closer_wall (anchor.x, anchor.y) _ _ w2
        have w3 := Sound.wall_of_not_sideFree m _ hs1 _ hc' _ cL f3
        have k3 := m.closer_wall (anchor.x, anchor.y) _ _ w3
        rw [rot2] at k3
        exact ⟨Or.inl hback, Or.inr (Or.inr (Or.inr rfl)),
          m.closer_trans _ _ _ _ (m.closer_trans _ _ _ _ (m.closer_trans _ _ _ _ k0 k1) k2) k3⟩
    obtain ⟨kJ, kU, kC⟩ := key
    refine ⟨⟨r1.trans hid, r2.trans hfi, ?_, ?_, ?_, hs1, ?_⟩, ?_, ?_⟩
    · exact ⟨by rw [r3]; exact hcomp, by rw [r4, r3], by rw [r5, r3], by rw [r6, r3]⟩
    · simp only [r7, r8]; exact hc'
    · simp only [r7, r8]
    · refine Or.inl ⟨?_, kU, ?_⟩
      · rw [r7, r8, r5]; exact hback
      · rw [r7, r8]; exact kJ
    · exact unknownCount_setSide_le m g _ _ _ 1 hcomp (Or.inr rfl)
    · simp only [r7, r8]; exact kC
/-- Termination of the moving avatar: from a state that satisfies the invariant, in a maze
where every probe sequence of the right-hand walker gets onto `anchor`, some number of own
turns leaves the avatar frozen on the square of avatar 0. -/
theorem mover_reaches (m : ServerMaze) (anchor : XYPos)
    (hsome : ∀ c ∈ m.cells, ∃ a, m.pass c a = true)
    (hlead : ∀ δ : (Int × Int) × Direction, δ.1 ∈ m.cells ∧ δ.2.isCompass = true →
      ∃ j, m.entersAt (anchor.x, anchor.y) (m.nextDart^[j] δ))
    (U : Nat) :
    ∀ (j : Nat) (x : AvatarState × Globals × XYPos), MoverInv m x →
      unknownCount m x.2.1 ≤ U →
      m.entersAt (anchor.x, anchor.y)
        (m.nextDart^[j] ((x.1.prevX, x.1.prevY), x.1.upcomingMove)) →
      ∃ n, ((moverTurn m anchor)^[n] x).1.upcomingMove = Direction.M_NULL_MOVE ∧
        ((moverTurn m anchor)^[n] x).2.2 = anchor := by
  induction U with
  | zero =>
    intro j
    induction j using Nat.strong_induction_on with
    | _ j ihj =>
      rintro ⟨s, g, p⟩ hinv hU hj
      cases hp : m.pass (s.prevX, s.prevY) s.upcomingMove with
      | false =>
        have := (moverTurn_failed m anchor s g p hinv (hsome _ hinv.2.2.2.1) hp).2
        simp only at hU
        omega
      | true =>
        obtain ⟨h1, h2⟩ := moverTurn_moved m anchor s g p hinv hp
        by_cases hpa : p = anchor
        · exact ⟨1, h1 hpa⟩
        · obtain ⟨i1, i2, i3⟩ := h2 hpa
          obtain ⟨j', hlt, hj'⟩ := i3 j hj
          obtain ⟨n, hn⟩ := ihj j' hlt _ i1 (le_trans i2 hU) hj'
          exact ⟨n + 1, by rw [Function.iterate_succ_apply]; exact hn⟩
  | succ U ihU =>
    intro j
    induction j using Nat.strong_induction_on with
    | _ j ihj =>
      rintro ⟨s, g, p⟩ hinv hU hj
      cases hp : m.pass (s.prevX, s.prevY) s.upcomingMove with
      | false =>
        obtain ⟨i1, i2⟩ := moverTurn_failed m anchor s g p hinv (hsome _ hinv.2.2.2.1) hp
        simp only at hU
        have hcomp := (Tracking.compass m _ _ i1.2.2.1 i1.2.2.2.2.2.2).1
        obtain ⟨j', hj'⟩ := hlead
          (((moverTurn m anchor (s, g, p)).1.prevX, (moverTurn m anchor (s, g, p)).1.prevY),
            (moverTurn m anchor (s, g, p)).1.upcomingMove) ⟨i1.2.2.2.1, hcomp⟩
        obtain ⟨n, hn⟩ := ihU j' _ i1 (by omega) hj'
        exact ⟨n + 1, by rw [Function.iterate_succ_apply]; exact hn⟩
      | true =>
        obtain ⟨h1, h2⟩ := moverTurn_moved m anchor s g p hinv hp
        by_cases hpa : p = anchor
        · exact ⟨1, h1 hpa⟩
        · obtain ⟨i1, i2, i3⟩ := h2 hpa
          obtain ⟨j', hlt, hj'⟩ := i3 j hj
          obtain ⟨n, hn⟩ := ihj j' hlt _ i1 (le_trans i2 hU) hj'
          exact ⟨n + 1, by rw [Function.iterate_succ_apply]; exact hn⟩
theorem initGlobals_unknown (m : ServerMaze) (c : Int × Int) (hc : c ∈ m.cells)
    (d : Direction) :
    ConvertDirection (initGlobals m.width m.height) c.1 c.2 d = -1 := by
  rw [ServerMaze.mem_cells] at hc
  simp only [ServerMaze.inGrid, Bool.and_eq_true, decide_eq_true_eq] at hc
  obtain ⟨⟨⟨h1, h2⟩, h3⟩, h4⟩ := hc
  unfold ConvertDirection initGlobals
  simp only [h1, h2, h3, h4, and_self, if_true]
  split_ifs <;> rfl

theorem moverTurn_first_eq (m : ServerMaze) (anchor start : XYPos)
    (hs : (start.x, start.y) ∈ m.cells) :
    moverTurn m anchor (initAvatar 1 0 0, initGlobals m.width m.height, start) =
      ({ initAvatar 1 start.x start.y with
          firstIteration := false, upcomingMove := Direction.M_NORTH },
        initGlobals m.width m.height, m.move start Direction.M_NORTH) := by
  have hunk := initGlobals_unknown m (start.x, start.y) hs Direction.M_NORTH
  simp only at hunk
  have hfree : sideFree (initGlobals m.width m.height) start.x start.y Direction.M_NORTH =
      true := sideFree_of_unknown _ _ _ _ hunk
  simp [moverTurn, recordBaseline, initAvatar, ownTurn, onFailedMove, failedMoveLadder, hfree]

theorem moverTurn_first (m : ServerMaze) (anchor start : XYPos)
    (hs : (start.x, start.y) ∈ m.cells) :
    MoverInv m (moverTurn m anchor (initAvatar 1 0 0, initGlobals m.width m.height, start)) := by
  rw [moverTurn_first_eq m anchor start hs]
  refine ⟨rfl, rfl, ⟨rfl, rfl, rfl, rfl⟩, hs, rfl, ?_, ?_⟩
  · intro c hc d _
    exact ⟨fun _ => Or.inl (initGlobals_unknown m c hc d),
      fun _ => Or.inl (initGlobals_unknown m c hc d)⟩
  · exact Or.inr (Or.inl ⟨rfl, initGlobals_unknown m _ hs _, initGlobals_unknown m _ hs _,
      initGlobals_unknown m _ hs _, initGlobals_unknown m _ hs _⟩)
theorem avatarTurn_avatarId (s : AvatarState) (g : Globals) (t : AvatarTurn) :
    (avatarTurn s g t).1.avatarId = s.avatarId := by
  have hb := (recordBaseline_fields s t).1
  by_cases hturn : t.TurnId = s.avatarId
  swap
  · rw [avatarTurn_other s g t hturn]; exact hb
  rw [avatarTurn_own s g t hturn, ← hb]
  generalize recordBaseline s t = s1
  unfold ownTurn
  simp only
  split_ifs
  · rfl
  · rfl
  · unfold onMoved
    simp only
    split_ifs
    · rfl
    · exact (setRelativeDirections_avatarId _).1

theorem recordBaseline_twice (s : AvatarState) (t t' : AvatarTurn) (hpos : t.Pos = t'.Pos) :
    recordBaseline (recordBaseline s t) t' = recordBaseline s t' := by
  obtain ⟨id, st, ri, ba, le, o, um, px, py, mn, fi⟩ := s
  cases fi <;> simp [recordBaseline, hpos]

/-- Two rounds of the session, the turn of avatar 0 and the turn of avatar 1, are one own
turn of the moving avatar. -/
theorem Session.two_rounds (m : ServerMaze) (σ : Session) (h0 : σ.turnId = 0)
    (hn : σ.avatar0.upcomingMove = Direction.M_NULL_MOVE) (hi0 : σ.avatar0.avatarId = 0)
    (hi1 : σ.avatar1.avatarId = 1) :
    ((σ.round m).round m).turnId = 0 ∧
    ((σ.round m).round m).avatar0.upcomingMove = Direction.M_NULL_MOVE ∧
    ((σ.round m).round m).avatar0.avatarId = 0 ∧
    ((σ.round m).round m).avatar1.avatarId = 1 ∧
    ((σ.round m).round m).pos0 = σ.pos0 ∧
    (((σ.round m).round m).avatar1, ((σ.round m).round m).globals,
      ((σ.round m).round m).pos1) = moverTurn m σ.pos0 (σ.avatar1, σ.globals, σ.pos1) := by
  -- the round of avatar 0
  obtain ⟨a1, a2, -, -, -, -, -, a8, a9⟩ :=
    avatarTurn_null σ.avatar0 σ.globals σ.turnMessage hn
  have htm : σ.turnMessage.TurnId = 0 := h0
  have hother : ¬ σ.turnMessage.TurnId = σ.avatar1.avatarId := by rw [htm, hi1]; decide
  have hA1 : (σ.round m).avatar1 = recordBaseline σ.avatar1 σ.turnMessage := by
    simp only [Session.round, a8, avatarTurn_other σ.avatar1 σ.globals σ.turnMessage hother]
  have hAg : (σ.round m).globals = σ.globals := by
    simp only [Session.round, a8, avatarTurn_other σ.avatar1 σ.globals σ.turnMessage hother]
  have hAt : (σ.round m).turnId = 1 := by
    simp only [Session.round, h0]
  have hAp1 : (σ.round m).pos1 = σ.pos1 := by
    simp only [Session.round, h0, if_true]
  obtain ⟨hA0, hAi0, hAp0⟩ := Session.anchor_round m σ hn hi0
  have hAi1 : (σ.round m).avatar1.avatarId = 1 := by
    rw [hA1, (recordBaseline_fields _ _).1]; exact hi1
  -- the round of avatar 1
  generalize σ.round m = σa at hA1 hAg hAt hAp1 hA0 hAi0 hAp0 hAi1
  obtain ⟨b1, b2, -, -, -, -, -, b8, b9⟩ :=
    avatarTurn_null σa.avatar0 σa.globals σa.turnMessage hA0
  have htm' : σa.turnMessage.TurnId = 1 := hAt
  have hown : σa.turnMessage.TurnId = σa.avatar1.avatarId := by rw [htm', hAi1]
  have hmsg : σa.turnMessage =
      { TurnId := 1, Pos := fun i => if i = 0 then σ.pos0 else σ.pos1 } := by
    simp only [Session.turnMessage, hAt, hAp0, hAp1]
  obtain ⟨hB0, hBi0, hBp0⟩ := Session.anchor_round m σa hA0 hAi0
  have hne : ¬ σa.turnId = 0 := by rw [hAt]; decide
  have hr1 : avatarTurn σa.avatar1 σa.globals σa.turnMessage =
      ownTurn (recordBaseline σ.avatar1
          { TurnId := 1, Pos := fun i => if i = 0 then σ.pos0 else σ.pos1 }) σ.globals
        { TurnId := 1, Pos := fun i => if i = 0 then σ.pos0 else σ.pos1 } := by
    rw [avatarTurn_own _ _ _ hown, hmsg, hA1, hAg, recordBaseline_twice]
    rfl
  refine ⟨?_, hB0, hBi0, ?_, hBp0.trans hAp0, ?_⟩
  · simp only [Session.round, hAt]
  · simp only [Session.round, b8]
    rw [avatarTurn_avatarId]; exact hAi1
  · have hsent : σa.sent = (avatarTurn σa.avatar1 σa.globals σa.turnMessage).2.2 := by
      unfold Session.sent
      simp only [if_neg hne, b8]
    simp only [Session.round, hsent, if_neg hne, b8, hr1, hAp1, moverTurn]
theorem Session.run_even (m : ServerMaze) (n : Nat) :
    ∀ σ : Session, σ.turnId = 0 → σ.avatar0.upcomingMove = Direction.M_NULL_MOVE →
      σ.avatar0.avatarId = 0 → σ.avatar1.avatarId = 1 →
      (Session.run m (2 * n) σ).pos0 = σ.pos0 ∧
      ((Session.run m (2 * n) σ).avatar1, (Session.run m (2 * n) σ).globals,
        (Session.run m (2 * n) σ).pos1) =
          (moverTurn m σ.pos0)^[n] (σ.avatar1, σ.globals, σ.pos1) := by
  induction n with
  | zero => intro σ _ _ _ _; exact ⟨rfl, rfl⟩
  | succ n ih =>
    intro σ h0 hn hi0 hi1
    obtain ⟨t1, t2, t3, t4, t5, t6⟩ := Session.two_rounds m σ h0 hn hi0 hi1
    obtain ⟨i1, i2⟩ := ih ((σ.round m).round m) t1 t2 t3 t4
    have hrun : Session.run m (2 * (n + 1)) σ = Session.run m (2 * n) ((σ.round m).round m) := by
      have : 2 * (n + 1) = 2 * n + 1 + 1 := by omega
      rw [this]
      simp only [Session.run]
    rw [hrun]
    refine ⟨i1.trans t5, ?_⟩
    rw [i2, t5, t6, Function.iterate_succ_apply]

theorem ServerMaze.exists_pass (m : ServerMaze) (hp : m.isPerfect = true)
    (h2 : 2 ≤ m.width * m.height) (c : Int × Int) (hc : c ∈ m.cells) :
    ∃ a, m.pass c a = true := by
  obtain ⟨j, h1, h3⟩ := m.leads_to_anchor hp h2 c hc (c, Direction.M_NORTH) ⟨hc, rfl⟩
  generalize m.nextDart^[j] (c, Direction.M_NORTH) = δ at h1 h3
  refine ⟨δ.2.opposite, ?_⟩
  rw [← h3, m.pass_symm]
  exact h1
/-- C5 (amended): wall following finds the anchor.  For every perfect maze with at least two
squares, every square `anchor` of the grid for the stationary avatar 0 and every square
`start` of the grid for the moving avatar 1, the session started from the initial agent
states on the all-Unknown map reaches, after some number `k` of own turns of avatar 1 (`2k`
rounds), a state in which the position of avatar 1 equals the position of avatar 0, which is
still `anchor`, and the `upcomingMove` of avatar 1 is `M_NULL_MOVE`. -/
theorem wall_follower_reaches_anchor (m : ServerMaze) (anchor start : XYPos)
    (hperfect : m.isPerfect = true) (htwo : 2 ≤ m.width * m.height)
    (hanchor : m.inGrid anchor.x anchor.y = true)
    (hstart : m.inGrid start.x start.y = true) :
    ∃ k, (Session.run m (2 * k) (Session.start m anchor start)).pos1 =
        (Session.run m (2 * k) (Session.start m anchor start)).pos0 ∧
      (Session.run m (2 * k) (Session.start m anchor start)).pos0 = anchor ∧
      (Session.run m (2 * k) (Session.start m anchor start)).avatar1.upcomingMove =
        Direction.M_NULL_MOVE := by
  have ha : (anchor.x, anchor.y) ∈ m.cells := (m.mem_cells _).2 hanchor
  have hs : (start.x, start.y) ∈ m.cells := (m.mem_cells _).2 hstart
  have hinv := moverTurn_first m anchor start hs
  have hlead : ∀ δ : (Int × Int) × Direction, δ.1 ∈ m.cells ∧ δ.2.isCompass = true →
      ∃ j, m.entersAt (anchor.x, anchor.y) (m.nextDart^[j] δ) :=
    fun δ hδ => m.leads_to_anchor hperfect htwo _ ha δ hδ
  have hcomp := (Tracking.compass m _ _ hinv.2.2.1 hinv.2.2.2.2.2.2).1
  obtain ⟨j, hj⟩ := hlead
    (((moverTurn m anchor (initAvatar 1 0 0, initGlobals m.width m.height, start)).1.prevX,
      (moverTurn m anchor (initAvatar 1 0 0, initGlobals m.width m.height, start)).1.prevY),
      (moverTurn m anchor (initAvatar 1 0 0,
        initGlobals m.width m.height, start)).1.upcomingMove) ⟨hinv.2.2.2.1, hcomp⟩
  obtain ⟨n, hn1, hn2⟩ := mover_reaches m anchor (fun c hc => m.exists_pass hperfect htwo c hc)
    hlead _ j _ hinv (le_refl _) hj
  rw [← Function.iterate_succ_apply] at hn1 hn2
  obtain ⟨r1, r2⟩ := Session.run_even m (n + 1) (Session.start m anchor start) rfl rfl rfl rfl
  have e1 := congrArg Prod.fst r2
  have e3 := congrArg (fun x => x.2.2) r2
  simp only at e1 e3
  refine ⟨n + 1, ?_, r1, ?_⟩
  · rw [r1, e3]; exact hn2
  · rw [e1]; exact hn1
theorem failedMoveLadder_mem (s : AvatarState) (g : Globals) :
    failedMoveLadder s g = s.straight ∨ failedMoveLadder s g = s.left ∨
    failedMoveLadder s g = s.right ∨ failedMoveLadder s g = s.backward := by
  unfold failedMoveLadder
  split_ifs
  · exact Or.inl rfl
  · exact Or.inr (Or.inl rfl)
  · exact Or.inr (Or.inr (Or.inl rfl))
  · exact Or.inr (Or.inr (Or.inr rfl))

theorem maze1x1_move (p : XYPos) (d : Direction) (hp : p = { x := 0, y := 0 }) :
    maze1x1.move p d = p := by
  subst hp
  cases d <;> decide

/-- On the maze with one square nothing ever moves: avatar 1 keeps the frame of North and a
compass direction as `upcomingMove`, and both avatars stay on `(0, 0)`. -/
theorem maze1x1_round (σ : Session)
    (h0 : σ.avatar0.upcomingMove = Direction.M_NULL_MOVE) (i0 : σ.avatar0.avatarId = 0)
    (i1 : σ.avatar1.avatarId = 1)
    (hp0 : σ.pos0 = { x := 0, y := 0 }) (hp1 : σ.pos1 = { x := 0, y := 0 })
    (hv : ValidFrame σ.avatar1)
    (hu : σ.avatar1.upcomingMove.isCompass = true)
    (hprev : σ.avatar1.firstIteration = true ∨
      (σ.avatar1.prevX = 0 ∧ σ.avatar1.prevY = 0)) :
    (σ.round maze1x1).avatar0.upcomingMove = Direction.M_NULL_MOVE ∧
    (σ.round maze1x1).avatar0.avatarId = 0 ∧
    (σ.round maze1x1).avatar1.avatarId = 1 ∧
    (σ.round maze1x1).pos0 = { x := 0, y := 0 } ∧
    (σ.round maze1x1).pos1 = { x := 0, y := 0 } ∧
    ValidFrame (σ.round maze1x1).avatar1 ∧
    (σ.round maze1x1).avatar1.upcomingMove.isCompass = true ∧
    ((σ.round maze1x1).avatar1.firstIteration = true ∨
      ((σ.round maze1x1).avatar1.prevX = 0 ∧ (σ.round maze1x1).avatar1.prevY = 0)) := by
  obtain ⟨c1, c2, c3⟩ := Session.anchor_round maze1x1 σ h0 i0
  obtain ⟨-, -, -, -, -, -, -, a8, -⟩ := avatarTurn_null σ.avatar0 σ.globals σ.turnMessage h0
  have hpos1 : (σ.round maze1x1).pos1 = { x := 0, y := 0 } := by
    simp only [Session.round]
    split_ifs
    · exact hp1
    · rw [maze1x1_move _ _ hp1]; exact hp1
  have hav : (σ.round maze1x1).avatar1 =
      (avatarTurn σ.avatar1 σ.globals σ.turnMessage).1 := by
    simp only [Session.round, a8]
  obtain ⟨b1, b2, b3, b4, b5, b6, b7, b8, b9⟩ := recordBaseline_fields σ.avatar1 σ.turnMessage
  have hbprev : (recordBaseline σ.avatar1 σ.turnMessage).prevX = 0 ∧
      (recordBaseline σ.avatar1 σ.turnMessage).prevY = 0 := by
    unfold recordBaseline
    rcases hprev with h | h
    · simp only [h, if_true, Session.turnMessage, i1, hp1]
      exact ⟨rfl, rfl⟩
    · split_ifs
      · simp only [Session.turnMessage, i1, hp1]
        exact ⟨rfl, rfl⟩
      · exact h
  have hbv : ValidFrame (recordBaseline σ.avatar1 σ.turnMessage) := by
    obtain ⟨v1, v2, v3, v4⟩ := hv
    exact ⟨by rw [b2]; exact v1, by rw [b3, b2]; exact v2, by rw [b4, b2]; exact v3,
      by rw [b5, b2]; exact v4⟩
  refine ⟨c1, c2, ?_, c3.trans hp0, hpos1, ?_⟩
  · rw [hav, avatarTurn_avatarId]; exact i1
  rw [hav]
  by_cases hturn : σ.turnMessage.TurnId = σ.avatar1.avatarId
  swap
  · rw [avatarTurn_other _ _ _ hturn]
    exact ⟨hbv, by rw [b7]; exact hu, Or.inr hbprev⟩
  rw [avatarTurn_own _ _ _ hturn]
  have hnull : (recordBaseline σ.avatar1 σ.turnMessage).upcomingMove ≠
      Direction.M_NULL_MOVE := by
    rw [b7]; intro h; rw [h] at hu; exact absurd hu (by decide)
  have hsame : (σ.turnMessage.Pos (recordBaseline σ.avatar1 σ.turnMessage).avatarId).x =
        (recordBaseline σ.avatar1 σ.turnMessage).prevX ∧
      (σ.turnMessage.Pos (recordBaseline σ.avatar1 σ.turnMessage).avatarId).y =
        (recordBaseline σ.avatar1 σ.turnMessage).prevY := by
    rw [hbprev.1, hbprev.2, b1, i1]
    simp only [Session.turnMessage, hp1]
    exact ⟨rfl, rfl⟩
  rw [ownTurn_failed _ _ _ hnull hsame]
  generalize recordBaseline σ.avatar1 σ.turnMessage = s1 at hbprev hbv
  obtain ⟨f1, f2, f3, f4, -⟩ := hbv.facts
  unfold onFailedMove
  simp only
  refine ⟨hbv, ?_, Or.inr hbprev⟩
  rcases failedMoveLadder_mem { s1 with firstIteration := false }
      (if s1.firstIteration = false then
        SetMazeSquareSide σ.globals s1.prevX s1.prevY s1.upcomingMove 0 else σ.globals)
    with h | h | h | h <;> rw [h] <;> assumption

theorem maze1x1_run (n : Nat) :
    ∀ σ : Session, σ.avatar0.upcomingMove = Direction.M_NULL_MOVE →
      σ.avatar0.avatarId = 0 → σ.avatar1.avatarId = 1 →
      σ.pos0 = { x := 0, y := 0 } → σ.pos1 = { x := 0, y := 0 } → ValidFrame σ.avatar1 →
      σ.avatar1.upcomingMove.isCompass = true →
      (σ.avatar1.firstIteration = true ∨ (σ.avatar1.prevX = 0 ∧ σ.avatar1.prevY = 0)) →
      (Session.run maze1x1 n σ).avatar1.upcomingMove.isCompass = true := by
  induction n with
  | zero => intro σ _ _ _ _ _ _ hu _; exact hu
  | succ n ih =>
    intro σ h0 i0 i1 hp0 hp1 hv hu hprev
    obtain ⟨r1, r2, r3, r5, r6, r7, r8, r9⟩ :=
      maze1x1_round σ h0 i0 i1 hp0 hp1 hv hu hprev
    exact ih _ r1 r2 r3 r5 r6 r7 r8 r9

/-- C5 (counterexample): on the perfect maze with a single square, with both avatars on
`(0, 0)`, no move of avatar 1 ever succeeds, so after no number of rounds is its
`upcomingMove` equal to `M_NULL_MOVE`. -/
theorem single_square_never_freezes :
    maze1x1.isPerfect = true ∧
    ¬ ∃ n, (Session.run maze1x1 n
          (Session.start maze1x1 { x := 0, y := 0 } { x := 0, y := 0 })).pos1 =
        (Session.run maze1x1 n
          (Session.start maze1x1 { x := 0, y := 0 } { x := 0, y := 0 })).pos0 ∧
      (Session.run maze1x1 n
        (Session.start maze1x1 { x := 0, y := 0 }
          { x := 0, y := 0 })).avatar1.upcomingMove = Direction.M_NULL_MOVE := by
  refine ⟨by decide, ?_⟩
  rintro ⟨n, -, h⟩
  have := maze1x1_run n (Session.start maze1x1 { x := 0, y := 0 } { x := 0, y := 0 })
    rfl rfl rfl rfl rfl ⟨rfl, rfl, rfl, rfl⟩ rfl (Or.inl rfl)
  rw [h] at this
  exact absurd this (by decide)

theorem wall_follower_reaches_anchor_witness :
    ((maze2x2 true true false true).isPerfect = true ∧
      2 ≤ (maze2x2 true true false true).width * (maze2x2 true true false true).height) ∧
    ∃ k, (Session.run (maze2x2 true true false true) (2 * k)
          (Session.start (maze2x2 true true false true) { x := 0, y := 0 }
            { x := 0, y := 1 })).pos1 =
        (Session.run (maze2x2 true true false true) (2 * k)
          (Session.start (maze2x2 true true false true) { x := 0, y := 0 }
            { x := 0, y := 1 })).pos0 ∧
      (Session.run (maze2x2 true true false true) (2 * k)
        (Session.start (maze2x2 true true false true) { x := 0, y := 0 }
          { x := 0, y := 1 })).pos0 = { x := 0, y := 0 } ∧
      (Session.run (maze2x2 true true false true) (2 * k)
        (Session.start (maze2x2 true true false true) { x := 0, y := 0 }
          { x := 0, y := 1 })).avatar1.upcomingMove = Direction.M_NULL_MOVE :=
  ⟨by decide,
    wall_follower_reaches_anchor (maze2x2 true true false true) { x := 0, y := 0 }
      { x := 0, y := 1 } (by decide) (by decide) (by decide) (by decide)⟩

set_option maxRecDepth 1000000 in
/-- C11 (the code at the failing input): in the perfect maze `maze3x3` with avatar 0 at
`(1,1)` and avatar 1 starting at `(0,2)`, on its 21st own turn avatar 1 is reported at
`(0,1)`, its recorded position, facing South; its pending move right (West) has failed, its
straight side (South) is already Blocked and its left side (East) is Unknown, and is the
passage to avatar 0.  The decision step marks West Blocked and chooses backward (North), not
left (East), which is still Unknown afterwards. -/
theorem failed_right_skips_free_left :
    maze3x3.isPerfect = true ∧
    session3x3.turnId = 1 ∧
    session3x3.avatar1.firstIteration = false ∧
    session3x3.pos1 = { x := 0, y := 1 } ∧
    session3x3.avatar1.prevX = 0 ∧ session3x3.avatar1.prevY = 1 ∧
    session3x3.avatar1.straight = Direction.M_SOUTH ∧
    session3x3.avatar1.right = Direction.M_WEST ∧
    session3x3.avatar1.backward = Direction.M_NORTH ∧
    session3x3.avatar1.left = Direction.M_EAST ∧
    session3x3.avatar1.upcomingMove = Direction.M_WEST ∧
    ConvertDirection session3x3.globals 0 1 Direction.M_SOUTH = 0 ∧
    ConvertDirection session3x3.globals 0 1 Direction.M_EAST = -1 ∧
    maze3x3.passage 0 1 Direction.M_EAST = true ∧
    session3x3.sent = some Direction.M_NORTH ∧
    (session3x3.round maze3x3).avatar1.upcomingMove = Direction.M_NORTH ∧
    ConvertDirection (session3x3.round maze3x3).globals 0 1 Direction.M_WEST = 0 ∧
    ConvertDirection (session3x3.round maze3x3).globals 0 1 Direction.M_EAST = -1 := by
  decide

theorem sideFree_iff (g : Globals) (x y : Int) (d : Direction) :
    sideFree g x y d = true ↔ OpenOrUnknown g x y d := by
  unfold sideFree OpenOrUnknown
  simp only [Bool.or_eq_true, beq_iff_eq]
  exact or_comm

theorem SetMazeSquareSide_elsewhere (g : Globals) (x y : Int) (d : Direction) (mode : Int)
    (hd : d.isCompass = true) (i j : Int) (e : Direction) (he : e.isCompass = true)
    (hne : ¬ (i = x ∧ j = y)) (hopp : e ≠ d.opposite) :
    ConvertDirection (SetMazeSquareSide g x y d mode) i j e = ConvertDirection g i j e := by
  rcases SetMazeSquareSide_cases g x y d mode hd i j e he with h | ⟨-, ⟨h1, -⟩ | ⟨-, h2⟩⟩
  · exact h
  · exact absurd (Prod.mk.injEq _ _ _ _ ▸ h1) hne
  · exact absurd h2 hopp

theorem nextAfterSuccess_congr (g g1 : Globals) (x y : Int) (s : AvatarState)
    (hr : ConvertDirection g1 x y s.right = ConvertDirection g x y s.right)
    (hs : ConvertDirection g1 x y s.straight = ConvertDirection g x y s.straight)
    (hl : ConvertDirection g1 x y s.left = ConvertDirection g x y s.left) :
    nextAfterSuccess g1 x y s = nextAfterSuccess g x y s := by
  unfold nextAfterSuccess OpenOrUnknown
  simp only [hr, hs, hl]

/-- C12: the next move after a successful step.  On an own-turn observation after the first
of an agent whose `upcomingMove` is a compass direction, when the reported position differs
from the recorded one and is not the position of avatar 0: the orientation becomes the
direction just moved, the frame is the rotation-table frame of it, and the next
`upcomingMove`, which is the move sent, is right if the right side of the new square is Open
or Unknown, otherwise straight if the straight side is, otherwise left if the left side is,
otherwise backward.  The wall states may be read before or after the decision step: the
marking of the traversed side changes none of the three sides tested. -/
theorem next_move_after_successful_step (s : AvatarState) (g : Globals) (t : AvatarTurn)
    (hturn : t.TurnId = s.avatarId) (hfirst : s.firstIteration = false)
    (hmove : s.upcomingMove.isCompass = true)
    (hmoved : ¬ ((t.Pos s.avatarId).x = s.prevX ∧ (t.Pos s.avatarId).y = s.prevY))
    (hnot0 : ¬ ((t.Pos s.avatarId).x = (t.Pos 0).x ∧ (t.Pos s.avatarId).y = (t.Pos 0).y)) :
    (avatarTurn s g t).1.orientation = s.upcomingMove ∧
    (avatarTurn s g t).1.straight = s.upcomingMove ∧
    (avatarTurn s g t).1.right = s.upcomingMove.clockwise ∧
    (avatarTurn s g t).1.backward = s.upcomingMove.opposite ∧
    (avatarTurn s g t).1.left = s.upcomingMove.counterClockwise ∧
    (avatarTurn s g t).1.upcomingMove =
      nextAfterSuccess g (t.Pos s.avatarId).x (t.Pos s.avatarId).y (avatarTurn s g t).1 ∧
    (avatarTurn s g t).1.upcomingMove =
      nextAfterSuccess (avatarTurn s g t).2.1 (t.Pos s.avatarId).x (t.Pos s.avatarId).y
        (avatarTurn s g t).1 ∧
    (avatarTurn s g t).2.2 = some (avatarTurn s g t).1.upcomingMove := by
  have hnull : s.upcomingMove ≠ Direction.M_NULL_MOVE := by
    intro h; rw [h] at hmove; exact absurd hmove (by decide)
  rw [avatarTurn_own s g t hturn, recordBaseline_later s t hfirst,
    ownTurn_moved s g t hnull hmoved]
  simp only
  obtain ⟨-, -, f3, f4, f5, f6, -, -, f9⟩ :=
    onMoved_fields s g t (t.Pos s.avatarId).x (t.Pos s.avatarId).y hmove hnot0
  obtain ⟨o1, -⟩ :=
    onMoved_frame s g t (t.Pos s.avatarId).x (t.Pos s.avatarId).y hmove hnot0
  have hpost : (onMoved s g t (t.Pos s.avatarId).x (t.Pos s.avatarId).y).1.upcomingMove =
      nextAfterSuccess (SetMazeSquareSide g s.prevX s.prevY s.upcomingMove 1)
        (t.Pos s.avatarId).x (t.Pos s.avatarId).y
        (onMoved s g t (t.Pos s.avatarId).x (t.Pos s.avatarId).y).1 := by
    rw [f9]
    unfold nextAfterSuccess
    rw [f3, f4, f5, f6]
    simp only [sideFree_iff]
  have hsame : nextAfterSuccess (SetMazeSquareSide g s.prevX s.prevY s.upcomingMove 1)
        (t.Pos s.avatarId).x (t.Pos s.avatarId).y
        (onMoved s g t (t.Pos s.avatarId).x (t.Pos s.avatarId).y).1 =
      nextAfterSuccess g (t.Pos s.avatarId).x (t.Pos s.avatarId).y
        (onMoved s g t (t.Pos s.avatarId).x (t.Pos s.avatarId).y).1 := by
    apply nextAfterSuccess_congr
    · rw [f4]
      exact SetMazeSquareSide_elsewhere g _ _ _ 1 hmove _ _ _
        (Direction.isCompass_clockwise _ hmove) hmoved
        (by revert hmove; cases s.upcomingMove <;> decide)
    · rw [f3]
      exact SetMazeSquareSide_elsewhere g _ _ _ 1 hmove _ _ _ hmove hmoved
        (by revert hmove; cases s.upcomingMove <;> decide)
    · rw [f6]
      exact SetMazeSquareSide_elsewhere g _ _ _ 1 hmove _ _ _
        (Direction.isCompass_counterClockwise _ hmove) hmoved
        (by revert hmove; cases s.upcomingMove <;> decide)
  refine ⟨o1, f3, f4, f5, f6, hpost.trans hsame, ?_, trivial⟩
  rw [onMoved_globals]
  exact hpost

theorem next_move_after_successful_step_witness :
    (avatarTurn { initAvatar 1 0 0 with firstIteration := false } (initGlobals 2 2)
      { TurnId := 1, Pos := fun i => if i = 0 then { x := 0, y := 0 }
          else { x := 1, y := 0 } }).2.2 = some Direction.M_SOUTH :=
  ((next_move_after_successful_step
      { initAvatar 1 0 0 with firstIteration := false } (initGlobals 2 2)
      { TurnId := 1, Pos := fun i => if i = 0 then { x := 0, y := 0 } else { x := 1, y := 0 } }
      (by decide) (by decide) (by decide) (by decide) (by decide)).2.2.2.2.2.2.2).trans
    (by decide)

theorem recordBaseline_first (s : AvatarState) (t : AvatarTurn)
    (hfi : s.firstIteration = true) :
    recordBaseline s t =
      { s with prevX := (t.Pos s.avatarId).x, prevY := (t.Pos s.avatarId).y } := by
  unfold recordBaseline
  rw [if_pos hfi]

theorem onFailedMove_first (s : AvatarState) (g : Globals) (hfi : s.firstIteration = true) :
    onFailedMove s g =
      ({ s with firstIteration := false, upcomingMove := failedMoveLadder s g }, g) := by
  obtain ⟨id, st, ri, ba, le, o, um, px, py, mn, fi⟩ := s
  simp only at hfi
  subst hfi
  rfl

/-- C13 (the code at the failing input): the agent of avatar 1 in its initial state, with
`upcomingMove` right (East), on the map as `main` initialises it for a 2 x 2 maze, receives
its first own-turn observation, at `(1, 0)`.  The step records the position as the baseline,
clears `firstIteration` and marks no wall (the East and North sides of `(1, 0)` are still
Unknown), but it runs the move-failure ladder: the move it sends is North (straight), not its
initial `upcomingMove`, and its `upcomingMove` has advanced to North. -/
theorem first_turn_advances_pending_move :
    (initAvatar 1 0 0).firstIteration = true ∧
    (initAvatar 1 0 0).upcomingMove = Direction.M_EAST ∧
    (initAvatar 1 0 0).right = Direction.M_EAST ∧
    (avatarTurn (initAvatar 1 0 0) (initGlobals 2 2)
      { TurnId := 1, Pos := fun _ => { x := 1, y := 0 } }).1.prevX = 1 ∧
    (avatarTurn (initAvatar 1 0 0) (initGlobals 2 2)
      { TurnId := 1, Pos := fun _ => { x := 1, y := 0 } }).1.prevY = 0 ∧
    (avatarTurn (initAvatar 1 0 0) (initGlobals 2 2)
      { TurnId := 1, Pos := fun _ => { x := 1, y := 0 } }).1.firstIteration = false ∧
    ConvertDirection (avatarTurn (initAvatar 1 0 0) (initGlobals 2 2)
      { TurnId := 1, Pos := fun _ => { x := 1, y := 0 } }).2.1 1 0 Direction.M_EAST = -1 ∧
    ConvertDirection (avatarTurn (initAvatar 1 0 0) (initGlobals 2 2)
      { TurnId := 1, Pos := fun _ => { x := 1, y := 0 } }).2.1 1 0 Direction.M_NORTH = -1 ∧
    (avatarTurn (initAvatar 1 0 0) (initGlobals 2 2)
      { TurnId := 1, Pos := fun _ => { x := 1, y := 0 } }).2.2 = some Direction.M_NORTH ∧
    (avatarTurn (initAvatar 1 0 0) (initGlobals 2 2)
      { TurnId := 1, Pos := fun _ => { x := 1, y := 0 } }).2.2 ≠
        some (initAvatar 1 0 0).upcomingMove ∧
    (avatarTurn (initAvatar 1 0 0) (initGlobals 2 2)
      { TurnId := 1, Pos := fun _ => { x := 1, y := 0 } }).1.upcomingMove ≠
        (initAvatar 1 0 0).upcomingMove := by
  decide

theorem avatarTurn_failed_eq (s : AvatarState) (g : Globals) (t : AvatarTurn)
    (hturn : t.TurnId = s.avatarId) (hfirst : s.firstIteration = false)
    (hmove : s.upcomingMove ≠ Direction.M_NULL_MOVE)
    (hsame : (t.Pos s.avatarId).x = s.prevX ∧ (t.Pos s.avatarId).y = s.prevY) :
    (avatarTurn s g t).2.1 = SetMazeSquareSide g s.prevX s.prevY s.upcomingMove 0 := by
  rw [avatarTurn_own s g t hturn, recordBaseline_later s t hfirst,
    ownTurn_failed s g t hmove hsame, onFailedMove_eq s g hfirst]

theorem avatarTurn_moved_eq (s : AvatarState) (g : Globals) (t : AvatarTurn)
    (hturn : t.TurnId = s.avatarId) (hfirst : s.firstIteration = false)
    (hmove : s.upcomingMove ≠ Direction.M_NULL_MOVE)
    (hmoved : ¬ ((t.Pos s.avatarId).x = s.prevX ∧ (t.Pos s.avatarId).y = s.prevY)) :
    avatarTurn s g t =
      ((onMoved s g t (t.Pos s.avatarId).x (t.Pos s.avatarId).y).1,
        SetMazeSquareSide g s.prevX s.prevY s.upcomingMove 1,
        some (onMoved s g t (t.Pos s.avatarId).x (t.Pos s.avatarId).y).1.upcomingMove) := by
  rw [avatarTurn_own s g t hturn, recordBaseline_later s t hfirst,
    ownTurn_moved s g t hmove hmoved, onMoved_globals]

theorem Direction.ne_null_of_isCompass (d : Direction) (h : d.isCompass = true) :
    d ≠ Direction.M_NULL_MOVE := by
  intro h0; rw [h0] at h; exact absurd h (by decide)

/-- C14: the map records the outcome of every attempted move.  On an own-turn observation
after the first of an agent whose `upcomingMove` is the compass direction `d` and whose
recorded position is inside the grid (where the array access of the source is defined), after
the decision step the side `d` of the recorded square is Blocked (0) if the reported position
equals the recorded one, and Open (1) if it differs. -/
theorem map_records_move_outcome (s : AvatarState) (g : Globals) (t : AvatarTurn)
    (d : Direction) (hturn : t.TurnId = s.avatarId) (hfirst : s.firstIteration = false)
    (hd : d.isCompass = true) (hmove : s.upcomingMove = d)
    (_hin : InBounds g s.prevX s.prevY) :
    (((t.Pos s.avatarId).x = s.prevX ∧ (t.Pos s.avatarId).y = s.prevY) →
      ConvertDirection (avatarTurn s g t).2.1 s.prevX s.prevY d = 0) ∧
    (¬ ((t.Pos s.avatarId).x = s.prevX ∧ (t.Pos s.avatarId).y = s.prevY) →
      ConvertDirection (avatarTurn s g t).2.1 s.prevX s.prevY d = 1) := by
  have hnull : s.upcomingMove ≠ Direction.M_NULL_MOVE := by
    rw [hmove]; exact Direction.ne_null_of_isCompass d hd
  constructor
  · intro hsame
    rw [avatarTurn_failed_eq s g t hturn hfirst hnull hsame, hmove]
    exact SetMazeSquareSide_self g s.prevX s.prevY d 0 hd
  · intro hmoved
    rw [avatarTurn_moved_eq s g t hturn hfirst hnull hmoved, hmove]
    exact SetMazeSquareSide_self g s.prevX s.prevY d 1 hd

theorem map_records_move_outcome_witness :
    ConvertDirection
      (avatarTurn { initAvatar 1 0 0 with firstIteration := false } (initGlobals 2 2)
        { TurnId := 1, Pos := fun _ => { x := 0, y := 0 } }).2.1 0 0 Direction.M_EAST = 0 ∧
    ConvertDirection
      (avatarTurn { initAvatar 1 0 0 with firstIteration := false } (initGlobals 2 2)
        { TurnId := 1, Pos := fun _ => { x := 1, y := 0 } }).2.1 0 0 Direction.M_EAST = 1 :=
  ⟨(map_records_move_outcome { initAvatar 1 0 0 with firstIteration := false }
      (initGlobals 2 2) { TurnId := 1, Pos := fun _ => { x := 0, y := 0 } } Direction.M_EAST
      (by decide) (by decide) (by decide) (by decide) (by decide)).1 (by decide),
   (map_records_move_outcome { initAvatar 1 0 0 with firstIteration := false }
      (initGlobals 2 2) { TurnId := 1, Pos := fun _ => { x := 1, y := 0 } } Direction.M_EAST
      (by decide) (by decide) (by decide) (by decide) (by decide)).2 (by decide)⟩

theorem onMoved_anchor (s : AvatarState) (g : Globals) (t : AvatarTurn) (x y : Int)
    (h : x = (t.Pos 0).x ∧ y = (t.Pos 0).y) :
    (onMoved s g t x y).1 = { s with upcomingMove := Direction.M_NULL_MOVE } := by
  unfold onMoved
  simp only [if_pos h]

/-- C15: the freeze at the anchor.  On an own-turn observation after the first of an agent
whose `upcomingMove` is not `M_NULL_MOVE`, when the reported position differs from the
recorded position and equals the position the same message reports for avatar 0,
`upcomingMove` becomes `M_NULL_MOVE` and the move sent on that turn is `M_NULL_MOVE`; from
then on, whatever is received and whatever the globals are, the thread sends only
`M_NULL_MOVE`, one for each turn message that names the agent. -/
theorem freeze_at_anchor (s : AvatarState) (g : Globals) (t : AvatarTurn)
    (hturn : t.TurnId = s.avatarId) (hfirst : s.firstIteration = false)
    (hmove : s.upcomingMove ≠ Direction.M_NULL_MOVE)
    (hmoved : ¬ ((t.Pos s.avatarId).x = s.prevX ∧ (t.Pos s.avatarId).y = s.prevY))
    (hanchor : (t.Pos s.avatarId).x = (t.Pos 0).x ∧ (t.Pos s.avatarId).y = (t.Pos 0).y) :
    (avatarTurn s g t).1.upcomingMove = Direction.M_NULL_MOVE ∧
    (avatarTurn s g t).2.2 = some Direction.M_NULL_MOVE ∧
    ∀ (rs : List Received) (g1 : Globals),
      (∀ e ∈ (threadRun { control := Control.looping, state := (avatarTurn s g t).1 }
          g1 rs).2.2, e = Direction.M_NULL_MOVE) ∧
      (g1.mazeSolved = 0 → (∀ r ∈ rs, r.isTurn ∧ r.avatar_turn.TurnId = s.avatarId) →
        (threadRun { control := Control.looping, state := (avatarTurn s g t).1 } g1 rs).2.2 =
          List.replicate rs.length Direction.M_NULL_MOVE) := by
  have hstep := avatarTurn_moved_eq s g t hturn hfirst hmove hmoved
  rw [onMoved_anchor s g t _ _ hanchor] at hstep
  have hum : (avatarTurn s g t).1.upcomingMove = Direction.M_NULL_MOVE := by rw [hstep]
  have hid : (avatarTurn s g t).1.avatarId = s.avatarId := by rw [hstep]
  refine ⟨hum, by rw [hstep], ?_⟩
  intro rs g1
  obtain ⟨-, i2, i3⟩ := threadRun_null rs (avatarTurn s g t).1 g1 Control.looping hum
  refine ⟨i2, ?_⟩
  intro hsolved hall
  exact i3 rfl hsolved (fun r hr => by rw [hid]; exact hall r hr)

theorem freeze_at_anchor_witness :
    (avatarTurn { initAvatar 1 0 0 with firstIteration := false } (initGlobals 2 2)
      { TurnId := 1, Pos := fun _ => { x := 1, y := 0 } }).2.2 =
        some Direction.M_NULL_MOVE :=
  (freeze_at_anchor { initAvatar 1 0 0 with firstIteration := false } (initGlobals 2 2)
    { TurnId := 1, Pos := fun _ => { x := 1, y := 0 } }
    (by decide) (by decide) (by decide) (by decide) (by decide)).2.1

theorem SetMazeSquareSide_neighbour (g : Globals) (x y : Int) (d : Direction) (mode : Int)
    (hd : d.isCompass = true)
    (hin : InBounds g (stepTo (x, y) d).1 (stepTo (x, y) d).2) :
    ConvertDirection (SetMazeSquareSide g x y d mode) (stepTo (x, y) d).1 (stepTo (x, y) d).2
      d.opposite = mode := by
  unfold InBounds at hin
  cases d
  case M_NULL_MOVE => exact absurd hd (by decide)
  all_goals
    simp only [stepTo, neighbourX, neighbourY] at hin
    simp only [SetMazeSquareSide, ConvertDirection, Direction.opposite, stepTo, neighbourX,
      neighbourY, reduceCtorEq, if_true, if_false]
    split_ifs <;>
      first
        | omega
        | simp [setNorth, setSouth, setEast, setWest, setSquare]

theorem onMoved_next (s : AvatarState) (g : Globals) (t : AvatarTurn) (x y : Int)
    (h : s.upcomingMove.isCompass = true)
    (hnot0 : ¬ (x = (t.Pos 0).x ∧ y = (t.Pos 0).y)) :
    (onMoved s g t x y).1.upcomingMove =
      nextAfterSuccess (SetMazeSquareSide g s.prevX s.prevY s.upcomingMove 1) x y
        (onMoved s g t x y).1 := by
  obtain ⟨-, -, f3, f4, f5, f6, -, -, f9⟩ := onMoved_fields s g t x y h hnot0
  rw [f9]
  unfold nextAfterSuccess
  rw [f3, f4, f5, f6]
  simp only [sideFree_iff]

/-- C16: after a successful move the agent never heads into a known wall.  On an own-turn
observation after the first of an agent whose `upcomingMove` is a compass direction, when the
reported position is the neighbour of the recorded position in that direction, lies inside
the grid and is not the position of avatar 0: in the map after the decision step the
backward side of the new square is Open (1), the mirror of the traversed side, and the wall
state of the newly chosen `upcomingMove` at the new square is Open (1) or Unknown (-1), so
not Blocked (0). -/
theorem successful_move_never_heads_into_wall (s : AvatarState) (g : Globals)
    (t : AvatarTurn) (hturn : t.TurnId = s.avatarId) (hfirst : s.firstIteration = false)
    (hmove : s.upcomingMove.isCompass = true)
    (hnbr : ((t.Pos s.avatarId).x, (t.Pos s.avatarId).y) =
      stepTo (s.prevX, s.prevY) s.upcomingMove)
    (hin : InBounds g (t.Pos s.avatarId).x (t.Pos s.avatarId).y)
    (hnot0 : ¬ ((t.Pos s.avatarId).x = (t.Pos 0).x ∧ (t.Pos s.avatarId).y = (t.Pos 0).y)) :
    ConvertDirection (avatarTurn s g t).2.1 (t.Pos s.avatarId).x (t.Pos s.avatarId).y
      (avatarTurn s g t).1.backward = 1 ∧
    OpenOrUnknown (avatarTurn s g t).2.1 (t.Pos s.avatarId).x (t.Pos s.avatarId).y
      (avatarTurn s g t).1.upcomingMove ∧
    ConvertDirection (avatarTurn s g t).2.1 (t.Pos s.avatarId).x (t.Pos s.avatarId).y
      (avatarTurn s g t).1.upcomingMove ≠ 0 := by
  have hnull := Direction.ne_null_of_isCompass s.upcomingMove hmove
  have hx : (t.Pos s.avatarId).x = (stepTo (s.prevX, s.prevY) s.upcomingMove).1 := by
    rw [← hnbr]
  have hy : (t.Pos s.avatarId).y = (stepTo (s.prevX, s.prevY) s.upcomingMove).2 := by
    rw [← hnbr]
  have hmoved : ¬ ((t.Pos s.avatarId).x = s.prevX ∧ (t.Pos s.avatarId).y = s.prevY) := by
    intro h
    apply stepTo_ne (s.prevX, s.prevY) s.upcomingMove hmove
    rw [← hx, ← hy]
    exact h
  obtain ⟨-, -, -, -, f5, -⟩ :=
    onMoved_fields s g t (t.Pos s.avatarId).x (t.Pos s.avatarId).y hmove hnot0
  have hnext := onMoved_next s g t (t.Pos s.avatarId).x (t.Pos s.avatarId).y hmove hnot0
  have hback : ConvertDirection (SetMazeSquareSide g s.prevX s.prevY s.upcomingMove 1)
      (t.Pos s.avatarId).x (t.Pos s.avatarId).y
      (onMoved s g t (t.Pos s.avatarId).x (t.Pos s.avatarId).y).1.backward = 1 := by
    rw [f5]
    rw [hx, hy] at hin ⊢
    exact SetMazeSquareSide_neighbour g s.prevX s.prevY s.upcomingMove 1 hmove hin
  have hfree : OpenOrUnknown (SetMazeSquareSide g s.prevX s.prevY s.upcomingMove 1)
      (t.Pos s.avatarId).x (t.Pos s.avatarId).y
      (onMoved s g t (t.Pos s.avatarId).x (t.Pos s.avatarId).y).1.upcomingMove := by
    rw [hnext]
    unfold nextAfterSuccess
    split_ifs with h1 h2 h3
    · exact h1
    · exact h2
    · exact h3
    · exact Or.inl hback
  rw [avatarTurn_moved_eq s g t hturn hfirst hnull hmoved]
  refine ⟨hback, hfree, ?_⟩
  intro h0
  rcases hfree with h | h <;> rw [h0] at h <;> exact absurd h (by decide)

theorem successful_move_never_heads_into_wall_witness :
    ConvertDirection
      (avatarTurn { initAvatar 1 0 0 with firstIteration := false } (initGlobals 2 2)
        { TurnId := 1, Pos := fun i => if i = 0 then { x := 0, y := 1 }
            else { x := 1, y := 0 } }).2.1 1 0 Direction.M_WEST = 1 :=
  (successful_move_never_heads_into_wall
    { initAvatar 1 0 0 with firstIteration := false } (initGlobals 2 2)
    { TurnId := 1, Pos := fun i => if i = 0 then { x := 0, y := 1 } else { x := 1, y := 0 } }
    (by decide) (by decide) (by decide) (by decide) (by decide) (by decide)).1

end AMStartup
